import Mathlib

/-!
Verification development for the Polymesh security-token core.

The definitions below are a shallow embedding of the Rust source:
  * `src/pallets/runtime/src/asset.rs` (asset module: balances, supply,
    checkpoints, custody allowances, transfer pipeline),
  * `src/runtime/identity/src/lib.rs` (authorization / link registry).

Modelling conventions:
  * `T::Balance` is instantiated at `u128`: balances are `Nat` values and
    `checked_add` / `checked_sub` fail outside `[0, 2^128)`.
  * `u64` counters keep their `checked_add` behaviour (bound `2^64`) where the
    source checks, and are plain `Nat` counters where the source uses `+`.
  * Substrate storage maps become functions into `Option`; a getter applies
    the Rust `Default` when the key is absent, `exists` is `Option.isSome`,
    `mutate` reads the default on a missing key and re-inserts, as substrate
    does.
  * External collaborators (compliance verifiers, signer-authorization oracle,
    timestamp, fee payment, DID registration, off-chain signature checking)
    are fields of an environment record, exactly as wide as the interfaces the
    source consumes.
  * `Ticker::canonize` in `src/primitives/src/ticker.rs` takes `mut self` by
    value and mutates the discarded copy, so every `ticker.canonize()` call in
    the asset module is a no-op on the caller's value; it is therefore not
    modelled.
  * Event deposits and the fire-and-forget statistics sink have no effect on
    the state the claims are about and are not modelled.
  * Each state-mutating operation returns `Option Err × State`: the error (if
    any) together with the state at the point the operation stopped.  The
    storage layer applies writes immediately (no transactional rollback), so
    "no mutation on failure" is a property to prove, not a modelling artifact.
-/

/-- Identity (DID): opaque principal. -/
abbrev IdentityId := Nat

/-- Ticker symbols: the source type is a fixed 12-byte array; we model the
byte array as a list of byte values. -/
abbrev Ticker := List Nat

/-- Effective ticker length per `Ticker::len` in `src/primitives/src/ticker.rs`:
the length of the minimal prefix after which only zeros appear. -/
def tickerLen (t : Ticker) : Nat :=
  (List.dropWhile (fun b => b = 0) t.reverse).length

/-- Balances are `u128` in the runtime. -/
abbrev Balance := Nat

/-- Upper bound (exclusive) of the `u128` balance type. -/
def balanceLimit : Nat := 2 ^ 128

/-- `u128::checked_add`. -/
def checkedAdd (a b : Balance) : Option Balance :=
  if a + b < balanceLimit then some (a + b) else none

/-- `u128::checked_sub`. -/
def checkedSub (a b : Balance) : Option Balance :=
  if b ≤ a then some (a - b) else none

/-- `u64::checked_add 1` for checkpoint counters. -/
def checkedSucc64 (a : Nat) : Option Nat :=
  if a + 1 < 2 ^ 64 then some (a + 1) else none

/-- Granularity unit. The constant lives in the `currency` crate (not under
`src/`); the spec fixes one whole unit at 1,000,000. -/
def ONE_UNIT : Balance := 1000000

/-- Maximum total supply. The constant lives outside `src/`; the spec only
requires a fixed global bound. Its value is irrelevant to every claim. -/
def MAX_SUPPLY : Balance := (10 : Nat) ^ 18

/-- ERC1400 success status code: the spec fixes `0` as "transfer permitted". -/
def ERC1400_TRANSFER_SUCCESS : Nat := 0

/-- Update one key of a functional storage map. -/
def mapInsert {κ σ : Type} [DecidableEq κ] (m : κ → Option σ) (k : κ) (v : σ) :
    κ → Option σ :=
  fun k' => if k' = k then some v else m k'

/-- Remove one key of a functional storage map. -/
def mapRemove {κ σ : Type} [DecidableEq κ] (m : κ → Option σ) (k : κ) :
    κ → Option σ :=
  fun k' => if k' = k then none else m k'

/-- `SecurityToken` struct of the asset module.  `assetType` is the opaque
payload of the `AssetType` enum. -/
structure SecurityToken where
  name : List Nat
  totalSupply : Balance
  ownerDid : IdentityId
  divisible : Bool
  assetType : Nat
  linkId : Nat
  deriving DecidableEq, Repr

/-- Rust `Default` for `SecurityToken`. -/
def SecurityToken.default : SecurityToken :=
  { name := [], totalSupply := 0, ownerDid := 0, divisible := false
    assetType := 0, linkId := 0 }

/-- `TickerRegistration` struct. -/
structure TickerRegistration where
  owner : IdentityId
  expiry : Option Nat
  linkId : Nat
  deriving DecidableEq, Repr

/-- The storage of the asset module (`decl_storage!` in asset.rs), restricted
to the maps the claims are about.  Smart-extension, document and fee-config
storage is untouched by every modelled code path of interest. -/
structure AssetState where
  tickers : Ticker → Option TickerRegistration
  tokens : Ticker → Option SecurityToken
  balanceOf : Ticker × IdentityId → Option Balance
  identifiers : Ticker × Nat → Option (List Nat)
  allowance : Ticker × IdentityId × IdentityId → Option Balance
  totalCheckpoints : Ticker → Option Nat
  checkpointTotalSupply : Ticker × Nat → Option Balance
  checkpointBalance : Ticker × IdentityId × Nat → Option Balance
  userCheckpoints : Ticker × IdentityId → Option (List Nat)
  custodianAllowance : Ticker × IdentityId × IdentityId → Option Balance
  totalCustodyAllowance : Ticker × IdentityId → Option Balance
  authenticationNonce : Ticker × IdentityId × Nat → Option Bool
  fundingRound : Ticker → Option (List Nat)
  issuedInFundingRound : Ticker × List Nat → Option Balance
  frozen : Ticker → Option Bool
  maxTickerLength : Nat
  registrationLength : Option Nat

/-- External collaborators consumed by the asset module (spec §6).  The
verifiers are the `general_tm` / `percentage_tm` chain; `didExists` is the
identity module's `DidRecords` existence test; `sigOk` abstracts the off-chain
signature verification of `increase_custody_allowance_of`; `feeOk` and
`registerAssetDidOk` abstract the fallible fee payment and asset-DID
registration inside `create_token`; `addLinkId` is the link id handed back by
the identity module's `add_link`. -/
structure AssetEnv where
  isSignerAuthorized : IdentityId → Nat → Bool
  verifyGeneralTm :
    Ticker → Option IdentityId → Option IdentityId → Balance → Except String Nat
  verifyPercentageTm :
    Ticker → Option IdentityId → Option IdentityId → Balance → Except String Nat
  didExists : IdentityId → Bool
  sigOk : Nat → IdentityId → IdentityId → Ticker → Balance → Nat → Bool
  feeOk : Bool
  registerAssetDidOk : Bool
  addLinkId : Nat
  now : Nat

/-- Storage getter `token_details`: default `SecurityToken` when absent. -/
def tokenDetails (s : AssetState) (t : Ticker) : SecurityToken :=
  (s.tokens t).getD SecurityToken.default

/-- Storage getter `balance_of`. -/
def balanceOf (s : AssetState) (k : Ticker × IdentityId) : Balance :=
  (s.balanceOf k).getD 0

/-- Storage getter `total_checkpoints_of`. -/
def totalCheckpointsOf (s : AssetState) (t : Ticker) : Nat :=
  (s.totalCheckpoints t).getD 0

/-- Storage getter `balance_at_checkpoint`. -/
def balanceAtCheckpoint (s : AssetState) (k : Ticker × IdentityId × Nat) :
    Balance :=
  (s.checkpointBalance k).getD 0

/-- Storage getter `user_checkpoints`. -/
def userCheckpointsOf (s : AssetState) (k : Ticker × IdentityId) : List Nat :=
  (s.userCheckpoints k).getD []

/-- Storage getter `custodian_allowance`. -/
def custodianAllowanceOf (s : AssetState)
    (k : Ticker × IdentityId × IdentityId) : Balance :=
  (s.custodianAllowance k).getD 0

/-- Storage getter `total_custody_allowance`. -/
def totalCustodyAllowanceOf (s : AssetState) (k : Ticker × IdentityId) :
    Balance :=
  (s.totalCustodyAllowance k).getD 0

/-- Storage getter `allowance`. -/
def allowanceOf (s : AssetState) (k : Ticker × IdentityId × IdentityId) :
    Balance :=
  (s.allowance k).getD 0

/-- Storage getter `funding_round`. -/
def fundingRoundOf (s : AssetState) (t : Ticker) : List Nat :=
  (s.fundingRound t).getD []

/-- Storage getter `issued_in_funding_round`. -/
def issuedInFundingRoundOf (s : AssetState) (k : Ticker × List Nat) : Balance :=
  (s.issuedInFundingRound k).getD 0

/-- Storage getter `frozen`. -/
def frozenOf (s : AssetState) (t : Ticker) : Bool :=
  (s.frozen t).getD false

/-- Storage getter `authentication_nonce`. -/
def authenticationNonceOf (s : AssetState)
    (k : Ticker × IdentityId × Nat) : Bool :=
  (s.authenticationNonce k).getD false

/-- `Module::_is_owner`. -/
def isOwner (s : AssetState) (t : Ticker) (did : IdentityId) : Bool :=
  (tokenDetails s t).ownerDid = did

/-- `Module::check_granularity`. -/
def checkGranularity (s : AssetState) (t : Ticker) (value : Balance) : Bool :=
  (tokenDetails s t).divisible || value % ONE_UNIT = 0

/-- `Module::_is_valid_transfer`: the frozen gate followed by the ordered
verifier chain. -/
def isValidTransfer (env : AssetEnv) (s : AssetState) (t : Ticker)
    (fromDid toDid : Option IdentityId) (value : Balance) :
    Except String Nat :=
  if frozenOf s t then .error "asset is frozen"
  else
    match env.verifyGeneralTm t fromDid toDid value with
    | .error e => .error e
    | .ok generalStatusCode =>
      if generalStatusCode ≠ ERC1400_TRANSFER_SUCCESS then .ok generalStatusCode
      else env.verifyPercentageTm t fromDid toDid value

/-- `Module::_update_checkpoint`: lazily records the pre-mutation balance the
first time an identity's balance changes after a checkpoint. -/
def updateCheckpoint (s : AssetState) (t : Ticker) (userDid : IdentityId)
    (userBalance : Balance) : AssetState :=
  if (s.totalCheckpoints t).isSome then
    let checkpointCount := totalCheckpointsOf s t
    if (s.checkpointBalance (t, userDid, checkpointCount)).isSome then s
    else
      { s with
        checkpointBalance :=
          mapInsert s.checkpointBalance (t, userDid, checkpointCount)
            userBalance
        userCheckpoints :=
          mapInsert s.userCheckpoints (t, userDid)
            (userCheckpointsOf s (t, userDid) ++ [checkpointCount]) }
  else s

/-- `Module::_create_checkpoint`. -/
def createCheckpointInternal (s : AssetState) (t : Ticker) :
    Option String × AssetState :=
  if (s.totalCheckpoints t).isSome then
    match checkedSucc64 (totalCheckpointsOf s t) with
    | none => (some "overflow in adding checkpoint", s)
    | some checkpointCount =>
      (none,
        { s with
          totalCheckpoints := mapInsert s.totalCheckpoints t checkpointCount
          checkpointTotalSupply :=
            mapInsert s.checkpointTotalSupply (t, checkpointCount)
              (tokenDetails s t).totalSupply })
  else
    (none,
      { s with
        totalCheckpoints := mapInsert s.totalCheckpoints t 1
        checkpointTotalSupply :=
          mapInsert s.checkpointTotalSupply (t, 1)
            (tokenDetails s t).totalSupply })

/-- `Module::_transfer`: the internal balance-moving primitive.  Note that the
receiver balance is read before the sender's debit is written. -/
def xfer (s : AssetState) (t : Ticker) (fromDid toDid : IdentityId)
    (value : Balance) : Option String × AssetState :=
  if ¬ checkGranularity s t value then (some "Invalid granularity", s)
  else if (s.balanceOf (t, fromDid)).isNone then
    (some "Account does not own this token", s)
  else
    let senderBalance := balanceOf s (t, fromDid)
    if senderBalance < value then (some "Not enough balance.", s)
    else
      match checkedSub senderBalance value with
      | none => (some "overflow in calculating balance", s)
      | some updatedFromBalance =>
        let receiverBalance := balanceOf s (t, toDid)
        match checkedAdd receiverBalance value with
        | none => (some "overflow in calculating balance", s)
        | some updatedToBalance =>
          let s1 := updateCheckpoint s t fromDid senderBalance
          let s2 := updateCheckpoint s1 t toDid receiverBalance
          let s3 :=
            { s2 with
              balanceOf := mapInsert s2.balanceOf (t, fromDid)
                updatedFromBalance }
          let s4 :=
            { s3 with
              balanceOf := mapInsert s3.balanceOf (t, toDid)
                updatedToBalance }
          (none, s4)

/-- `Module::_mint`. -/
def mint (env : AssetEnv) (s : AssetState) (t : Ticker) (toDid : IdentityId)
    (value : Balance) : Option String × AssetState :=
  if ¬ checkGranularity s t value then (some "Invalid granularity", s)
  else
    let currentToBalance := balanceOf s (t, toDid)
    match checkedAdd currentToBalance value with
    | none => (some "overflow in calculating balance", s)
    | some updatedToBalance =>
      match isValidTransfer env s t none (some toDid) value with
      | .error e => (some e, s)
      | .ok code =>
        if code ≠ ERC1400_TRANSFER_SUCCESS then
          (some "Transfer restrictions failed", s)
        else
          let token := tokenDetails s t
          match checkedAdd token.totalSupply value with
          | none => (some "overflow in calculating total supply", s)
          | some updatedTotalSupply =>
            if ¬ updatedTotalSupply ≤ MAX_SUPPLY then
              (some "Total supply above the limit", s)
            else
              let token1 := { token with totalSupply := updatedTotalSupply }
              let s1 := updateCheckpoint s t toDid currentToBalance
              let s2 :=
                { s1 with
                  balanceOf := mapInsert s1.balanceOf (t, toDid)
                    updatedToBalance }
              let s3 := { s2 with tokens := mapInsert s2.tokens t token1 }
              let round := fundingRoundOf s3 t
              match checkedAdd (issuedInFundingRoundOf s3 (t, round)) value with
              | none => (some "current funding round total overflowed", s3)
              | some issuedInThisRound =>
                (none,
                  { s3 with
                    issuedInFundingRound :=
                      mapInsert s3.issuedInFundingRound (t, round)
                        issuedInThisRound })

/-- `Module::_check_custody_allowance`. -/
def checkCustodyAllowance (s : AssetState) (t : Ticker)
    (holderDid : IdentityId) (value : Balance) : Option String :=
  match checkedSub (balanceOf s (t, holderDid)) value with
  | none => some "underflow in balance deduction"
  | some remainingBalance =>
    if ¬ totalCustodyAllowanceOf s (t, holderDid) ≤ remainingBalance then
      some "Insufficient balance for transfer"
    else none

/-- `Module::_increase_custody_allowance`. -/
def increaseCustodyAllowanceInternal (env : AssetEnv) (s : AssetState)
    (t : Ticker) (holderDid custodianDid : IdentityId) (value : Balance) :
    Option String × AssetState :=
  match checkedAdd (totalCustodyAllowanceOf s (t, holderDid)) value with
  | none => (some "total custody allowance get overflowed", s)
  | some newCustodyAllowance =>
    if balanceOf s (t, holderDid) < newCustodyAllowance then
      (some "Insufficient balance of holder did", s)
    else if ¬ env.didExists custodianDid then
      (some "Invalid custodian DID", s)
    else
      let oldAllowance := custodianAllowanceOf s (t, holderDid, custodianDid)
      match checkedAdd oldAllowance value with
      | none => (some "allowance get overflowed", s)
      | some newCurrentAllowance =>
        (none,
          { s with
            custodianAllowance :=
              mapInsert s.custodianAllowance (t, holderDid, custodianDid)
                newCurrentAllowance
            totalCustodyAllowance :=
              mapInsert s.totalCustodyAllowance (t, holderDid)
                newCustodyAllowance })

/-- The empty storage: every map is empty, mirroring a genesis state with the
default ticker-registration config. -/
def emptyAssetState : AssetState where
  tickers := fun _ => none
  tokens := fun _ => none
  balanceOf := fun _ => none
  identifiers := fun _ => none
  allowance := fun _ => none
  totalCheckpoints := fun _ => none
  checkpointTotalSupply := fun _ => none
  checkpointBalance := fun _ => none
  userCheckpoints := fun _ => none
  custodianAllowance := fun _ => none
  totalCustodyAllowance := fun _ => none
  authenticationNonce := fun _ => none
  fundingRound := fun _ => none
  issuedInFundingRound := fun _ => none
  frozen := fun _ => none
  maxTickerLength := 12
  registrationLength := none

/-- The binary-search loop of `Module::find_ceiling`; `start`/`stop` are the
Rust `start`/`end` variables, and array reads go through `List.get?` so that
the out-of-bounds panic branch is observable as `none`.  The fuel argument
only bounds the loop; `find_ceiling` supplies enough for every terminating
run. -/
def findCeilingAux (arr : List Nat) (key : Nat) :
    Nat → Nat → Nat → Option Nat
  | 0, _, _ => none
  | fuel + 1, start, stop =>
    let mid := (start + stop) / 2
    if mid ≠ 0 ∧ start ≤ stop then
      match arr.get? (mid - 1), arr.get? mid with
      | some a, some b =>
        if key > a ∧ key ≤ b then some b
        else if key > b then findCeilingAux arr key fuel (mid + 1) stop
        else findCeilingAux arr key fuel start mid
      | _, _ => none
    else arr.get? 0

/-- `Module::find_ceiling`, with panics and fuel exhaustion as `none`. -/
def find_ceiling (arr : List Nat) (key : Nat) : Option Nat :=
  findCeilingAux arr key (arr.length + 1) 0 arr.length

/-- `Module::get_balance_at`.  The result is `none` exactly when the Rust code
would panic inside `find_ceiling` (out-of-bounds index) or diverge. -/
def get_balance_at (s : AssetState) (t : Ticker) (did : IdentityId)
    (at_ : Nat) : Option Balance :=
  if (s.totalCheckpoints t).isNone ∨ at_ = 0 ∨
      totalCheckpointsOf s t < at_ then
    some (balanceOf s (t, did))
  else if (s.userCheckpoints (t, did)).isSome then
    let userCps := userCheckpointsOf s (t, did)
    if userCps.getLast?.getD 0 < at_ then some (balanceOf s (t, did))
    else (find_ceiling userCps at_).map (fun c => balanceAtCheckpoint s (t, did, c))
  else some (balanceOf s (t, did))

/-- `TickerRegistrationStatus` enum. -/
inductive TickerRegistrationStatus where
  | RegisteredByOther
  | Available
  | RegisteredByDid
  deriving DecidableEq, Repr

/-- `Module::is_ticker_available_or_registered_to`. -/
def isTickerAvailableOrRegisteredTo (env : AssetEnv) (s : AssetState)
    (t : Ticker) (did : IdentityId) : TickerRegistrationStatus :=
  match s.tickers t with
  | some reg =>
    match reg.expiry with
    | some expiry =>
      if expiry < env.now then .Available
      else if reg.owner = did then .RegisteredByDid
      else .RegisteredByOther
    | none =>
      if reg.owner = did then .RegisteredByDid else .RegisteredByOther
  | none => .Available

/-- `Module::_register_ticker` (ticker-side effects only; fee charging is a
stub in the source and the identity-link bookkeeping is external). -/
def registerTickerInternal (env : AssetEnv) (s : AssetState) (t : Ticker)
    (toDid : IdentityId) (expiry : Option Nat) : AssetState :=
  { s with
    tickers :=
      mapInsert s.tickers t
        { owner := toDid, expiry := expiry, linkId := env.addLinkId } }

/-- Dispatchable `transfer`. -/
def transfer (env : AssetEnv) (s : AssetState) (signer : Nat)
    (did : IdentityId) (t : Ticker) (toDid : IdentityId) (value : Balance) :
    Option String × AssetState :=
  if ¬ env.isSignerAuthorized did signer then
    (some "sender must be a signing key for DID", s)
  else
    match checkCustodyAllowance s t did value with
    | some e => (some e, s)
    | none =>
      match isValidTransfer env s t (some did) (some toDid) value with
      | .error e => (some e, s)
      | .ok code =>
        if code ≠ ERC1400_TRANSFER_SUCCESS then
          (some "Transfer restrictions failed", s)
        else xfer s t did toDid value

/-- Dispatchable `controller_transfer`.  The `data`/`operator_data` blobs only
reach the emitted event. -/
def controllerTransfer (env : AssetEnv) (s : AssetState) (signer : Nat)
    (did : IdentityId) (t : Ticker) (fromDid toDid : IdentityId)
    (value : Balance) : Option String × AssetState :=
  if ¬ env.isSignerAuthorized did signer then
    (some "sender must be a signing key for DID", s)
  else if ¬ isOwner s t did then (some "user is not authorized", s)
  else xfer s t fromDid toDid value

/-- Dispatchable `approve`. -/
def approve (env : AssetEnv) (s : AssetState) (signer : Nat)
    (did : IdentityId) (t : Ticker) (spenderDid : IdentityId)
    (value : Balance) : Option String × AssetState :=
  if ¬ env.isSignerAuthorized did signer then
    (some "sender must be a signing key for DID", s)
  else if (s.balanceOf (t, did)).isNone then
    (some "Account does not own this token", s)
  else
    match checkedAdd (allowanceOf s (t, did, spenderDid)) value with
    | none => (some "overflow in calculating allowance", s)
    | some updatedAllowance =>
      (none,
        { s with
          allowance :=
            mapInsert s.allowance (t, did, spenderDid) updatedAllowance })

/-- Dispatchable `transfer_from` (`did` is the spender). -/
def transferFrom (env : AssetEnv) (s : AssetState) (signer : Nat)
    (did : IdentityId) (t : Ticker) (fromDid toDid : IdentityId)
    (value : Balance) : Option String × AssetState :=
  if ¬ env.isSignerAuthorized did signer then
    (some "sender must be a signing key for DID", s)
  else if (s.allowance (t, fromDid, did)).isNone then
    (some "Allowance does not exist", s)
  else
    let allowanceVal := allowanceOf s (t, fromDid, did)
    if allowanceVal < value then (some "Not enough allowance", s)
    else
      match checkedSub allowanceVal value with
      | none => (some "overflow in calculating allowance", s)
      | some updatedAllowance =>
        match checkCustodyAllowance s t fromDid value with
        | some e => (some e, s)
        | none =>
          match isValidTransfer env s t (some fromDid) (some toDid) value with
          | .error e => (some e, s)
          | .ok code =>
            if code ≠ ERC1400_TRANSFER_SUCCESS then
              (some "Transfer restrictions failed", s)
            else
              match xfer s t fromDid toDid value with
              | (some e, s') => (some e, s')
              | (none, s') =>
                (none,
                  { s' with
                    allowance :=
                      mapInsert s'.allowance (t, fromDid, did)
                        updatedAllowance })

/-- Dispatchable `create_checkpoint`. -/
def createCheckpoint (env : AssetEnv) (s : AssetState) (signer : Nat)
    (did : IdentityId) (t : Ticker) : Option String × AssetState :=
  if ¬ env.isSignerAuthorized did signer then
    (some "sender must be a signing key for DID", s)
  else if ¬ isOwner s t did then (some "user is not authorized", s)
  else createCheckpointInternal s t

/-- Dispatchable `issue`. -/
def issue (env : AssetEnv) (s : AssetState) (signer : Nat)
    (did : IdentityId) (t : Ticker) (toDid : IdentityId) (value : Balance) :
    Option String × AssetState :=
  if ¬ env.isSignerAuthorized did signer then
    (some "sender must be a signing key for DID", s)
  else if ¬ isOwner s t did then (some "user is not authorized", s)
  else mint env s t toDid value

/-- The per-investor validation loop of `batch_issue`: no storage writes, only
checks and the accumulation of the would-be new supply and balances.  Returns
the final supply together with each investor's `(current, updated)` balance
pair, in batch order. -/
def batchChecks (env : AssetEnv) (s : AssetState) (t : Ticker) :
    List (IdentityId × Balance) → Balance →
    Except String (Balance × List (Balance × Balance))
  | [], supply => .ok (supply, [])
  | (did, v) :: rest, supply =>
    if ¬ checkGranularity s t v then .error "Invalid granularity"
    else
      match checkedAdd supply v with
      | none => .error "overflow in calculating total supply"
      | some updatedTotalSupply =>
        if ¬ updatedTotalSupply ≤ MAX_SUPPLY then
          .error "Total supply above the limit"
        else
          let cur := balanceOf s (t, did)
          match checkedAdd cur v with
          | none => .error "overflow in calculating balance"
          | some upd =>
            match isValidTransfer env s t none (some did) v with
            | .error e => .error e
            | .ok code =>
              if code ≠ ERC1400_TRANSFER_SUCCESS then
                .error "Transfer restrictions failed"
              else
                match batchChecks env s t rest updatedTotalSupply with
                | .error e => .error e
                | .ok (finalSupply, pairs) =>
                  .ok (finalSupply, (cur, upd) :: pairs)

/-- The write-back loop of `batch_issue`: checkpoint snapshot (with the
pre-mutation balance) then balance insert, investor by investor. -/
def batchApply (t : Ticker) :
    List (IdentityId × Balance × Balance) → AssetState → AssetState
  | [], s => s
  | (did, cur, upd) :: rest, s =>
    let s1 := updateCheckpoint s t did cur
    let s2 := { s1 with balanceOf := mapInsert s1.balanceOf (t, did) upd }
    batchApply t rest s2

/-- The funding-round accumulation loop of `batch_issue`. -/
def checkedSumFrom (init : Balance) : List Balance → Option Balance
  | [] => some init
  | v :: rest =>
    match checkedAdd init v with
    | none => none
    | some acc => checkedSumFrom acc rest

/-- Dispatchable `batch_issue`: validate the whole batch, then apply all
funding-round, checkpoint, balance and supply writes. -/
def batchIssue (env : AssetEnv) (s : AssetState) (signer : Nat)
    (did : IdentityId) (t : Ticker) (investorDids : List IdentityId)
    (values : List Balance) : Option String × AssetState :=
  if ¬ env.isSignerAuthorized did signer then
    (some "sender must be a signing key for DID", s)
  else if investorDids.length = 0 then (some "list of investors is empty", s)
  else if investorDids.length ≠ values.length then
    (some "Investor/amount list length inconsistent", s)
  else if ¬ isOwner s t did then (some "user is not authorized", s)
  else
    let token := tokenDetails s t
    match batchChecks env s t (investorDids.zip values) token.totalSupply with
    | .error e => (some e, s)
    | .ok (finalSupply, pairs) =>
      let round := fundingRoundOf s t
      match checkedSumFrom (issuedInFundingRoundOf s (t, round)) values with
      | none => (some "current funding round total overflowed", s)
      | some issuedInThisRound =>
        let s1 :=
          { s with
            issuedInFundingRound :=
              mapInsert s.issuedInFundingRound (t, round) issuedInThisRound }
        let s2 := batchApply t (investorDids.zip pairs) s1
        let s3 :=
          { s2 with
            tokens :=
              mapInsert s2.tokens t { token with totalSupply := finalSupply } }
        (none, s3)

/-- Dispatchable `redeem`. -/
def redeem (env : AssetEnv) (s : AssetState) (signer : Nat)
    (did : IdentityId) (t : Ticker) (value : Balance) :
    Option String × AssetState :=
  if ¬ env.isSignerAuthorized did signer then
    (some "sender must be a signing key for DID", s)
  else if ¬ checkGranularity s t value then (some "Invalid granularity", s)
  else if (s.balanceOf (t, did)).isNone then
    (some "Account does not own this token", s)
  else
    let burnerBalance := balanceOf s (t, did)
    if burnerBalance < value then (some "Not enough balance.", s)
    else
      match checkedSub burnerBalance value with
      | none => (some "overflow in calculating balance", s)
      | some updatedBurnerBalance =>
        match checkCustodyAllowance s t did value with
        | some e => (some e, s)
        | none =>
          match isValidTransfer env s t (some did) none value with
          | .error e => (some e, s)
          | .ok code =>
            if code ≠ ERC1400_TRANSFER_SUCCESS then
              (some "Transfer restrictions failed", s)
            else
              let token := tokenDetails s t
              match checkedSub token.totalSupply value with
              | none => (some "overflow in calculating balance", s)
              | some newSupply =>
                let s1 := updateCheckpoint s t did burnerBalance
                let s2 :=
                  { s1 with
                    balanceOf := mapInsert s1.balanceOf (t, did)
                      updatedBurnerBalance }
                (none,
                  { s2 with
                    tokens := mapInsert s2.tokens t
                      { token with totalSupply := newSupply } })

/-- Dispatchable `redeem_from` (`did` is the spender whose balance burns). -/
def redeemFrom (env : AssetEnv) (s : AssetState) (signer : Nat)
    (did : IdentityId) (t : Ticker) (fromDid : IdentityId) (value : Balance) :
    Option String × AssetState :=
  if ¬ env.isSignerAuthorized did signer then
    (some "sender must be a signing key for DID", s)
  else if ¬ checkGranularity s t value then (some "Invalid granularity", s)
  else if (s.balanceOf (t, did)).isNone then
    (some "Account does not own this token", s)
  else
    let burnerBalance := balanceOf s (t, did)
    if burnerBalance < value then (some "Not enough balance.", s)
    else
      match checkedSub burnerBalance value with
      | none => (some "overflow in calculating balance", s)
      | some updatedBurnerBalance =>
        if (s.allowance (t, fromDid, did)).isNone then
          (some "Allowance does not exist", s)
        else
          let allowanceVal := allowanceOf s (t, fromDid, did)
          if allowanceVal < value then (some "Not enough allowance", s)
          else
            match checkCustodyAllowance s t did value with
            | some e => (some e, s)
            | none =>
              match isValidTransfer env s t (some fromDid) none value with
              | .error e => (some e, s)
              | .ok code =>
                if code ≠ ERC1400_TRANSFER_SUCCESS then
                  (some "Transfer restrictions failed", s)
                else
                  match checkedSub allowanceVal value with
                  | none => (some "overflow in calculating allowance", s)
                  | some updatedAllowance =>
                    let token := tokenDetails s t
                    match checkedSub token.totalSupply value with
                    | none => (some "overflow in calculating balance", s)
                    | some newSupply =>
                      let s1 := updateCheckpoint s t did burnerBalance
                      let s2 :=
                        { s1 with
                          allowance := mapInsert s1.allowance
                            (t, fromDid, did) updatedAllowance }
                      let s3 :=
                        { s2 with
                          balanceOf := mapInsert s2.balanceOf (t, did)
                            updatedBurnerBalance }
                      (none,
                        { s3 with
                          tokens := mapInsert s3.tokens t
                            { token with totalSupply := newSupply } })

/-- Dispatchable `controller_redeem`. -/
def controllerRedeem (env : AssetEnv) (s : AssetState) (signer : Nat)
    (did : IdentityId) (t : Ticker) (tokenHolderDid : IdentityId)
    (value : Balance) : Option String × AssetState :=
  if ¬ env.isSignerAuthorized did signer then
    (some "sender must be a signing key for DID", s)
  else if ¬ isOwner s t did then (some "user is not token owner", s)
  else if ¬ checkGranularity s t value then (some "Invalid granularity", s)
  else if (s.balanceOf (t, tokenHolderDid)).isNone then
    (some "Account does not own this token", s)
  else
    let burnerBalance := balanceOf s (t, tokenHolderDid)
    if burnerBalance < value then (some "Not enough balance.", s)
    else
      match checkedSub burnerBalance value with
      | none => (some "overflow in calculating balance", s)
      | some updatedBurnerBalance =>
        let token := tokenDetails s t
        match checkedSub token.totalSupply value with
        | none => (some "overflow in calculating balance", s)
        | some newSupply =>
          let s1 := updateCheckpoint s t tokenHolderDid burnerBalance
          let s2 :=
            { s1 with
              balanceOf := mapInsert s1.balanceOf (t, tokenHolderDid)
                updatedBurnerBalance }
          (none,
            { s2 with
              tokens := mapInsert s2.tokens t
                { token with totalSupply := newSupply } })

/-- Dispatchable `make_divisible`. -/
def makeDivisible (env : AssetEnv) (s : AssetState) (signer : Nat)
    (did : IdentityId) (t : Ticker) : Option String × AssetState :=
  if ¬ env.isSignerAuthorized did signer then
    (some "sender must be a signing key for DID", s)
  else if ¬ isOwner s t did then (some "user is not authorized", s)
  else
    let token := tokenDetails s t
    if token.divisible then (some "token already divisible", s)
    else
      (none,
        { s with tokens := mapInsert s.tokens t { token with divisible := true } })

/-- Dispatchable `increase_custody_allowance`. -/
def increaseCustodyAllowance (env : AssetEnv) (s : AssetState) (signer : Nat)
    (t : Ticker) (holderDid custodianDid : IdentityId) (value : Balance) :
    Option String × AssetState :=
  if ¬ env.isSignerAuthorized holderDid signer then
    (some "sender must be a signing key for DID", s)
  else increaseCustodyAllowanceInternal env s t holderDid custodianDid value

/-- Dispatchable `increase_custody_allowance_of` (off-chain-signed variant). -/
def increaseCustodyAllowanceOf (env : AssetEnv) (s : AssetState)
    (signer : Nat) (t : Ticker) (holderDid : IdentityId)
    (holderAccountId : Nat) (custodianDid callerDid : IdentityId)
    (value : Balance) (nonce : Nat) : Option String × AssetState :=
  if authenticationNonceOf s (t, holderDid, nonce) then
    (some "Signature already used", s)
  else if ¬ env.sigOk holderAccountId custodianDid holderDid t value nonce then
    (some "Invalid signature", s)
  else if ¬ env.isSignerAuthorized callerDid signer then
    (some "sender must be a signing key for DID", s)
  else if ¬ env.isSignerAuthorized holderDid holderAccountId then
    (some "holder signing key must be a signing key for holder DID", s)
  else
    match increaseCustodyAllowanceInternal env s t holderDid custodianDid
        value with
    | (some e, s') => (some e, s')
    | (none, s') =>
      (none,
        { s' with
          authenticationNonce :=
            mapInsert s'.authenticationNonce (t, holderDid, nonce) true })

/-- Dispatchable `transfer_by_custodian`.  Note the write key of the
custodian's decremented allowance: the source inserts at
`(ticker, custodian_did, holder_did)` although the map is keyed and read as
`(ticker, holder, custodian)`. -/
def transferByCustodian (env : AssetEnv) (s : AssetState) (signer : Nat)
    (t : Ticker) (holderDid custodianDid receiverDid : IdentityId)
    (value : Balance) : Option String × AssetState :=
  if ¬ env.isSignerAuthorized custodianDid signer then
    (some "sender must be a signing key for DID", s)
  else
    let custodianAllowanceVal :=
      custodianAllowanceOf s (t, holderDid, custodianDid)
    if custodianAllowanceVal < value then (some "Insufficient allowance", s)
    else
      match checkedSub custodianAllowanceVal value with
      | none => (some "underflow in calculating allowance", s)
      | some newCustodianAllowance =>
        match checkedSub (totalCustodyAllowanceOf s (t, holderDid)) value with
        | none => (some "underflow in calculating the total allowance", s)
        | some newTotalAllowance =>
          match isValidTransfer env s t (some holderDid) (some receiverDid)
              value with
          | .error e => (some e, s)
          | .ok code =>
            if code ≠ ERC1400_TRANSFER_SUCCESS then
              (some "Transfer restrictions failed", s)
            else
              match xfer s t holderDid receiverDid value with
              | (some e, s') => (some e, s')
              | (none, s') =>
                let s2 :=
                  { s' with
                    custodianAllowance :=
                      mapInsert s'.custodianAllowance
                        (t, custodianDid, holderDid) newCustodianAllowance }
                (none,
                  { s2 with
                    totalCustodyAllowance :=
                      mapInsert s2.totalCustodyAllowance (t, holderDid)
                        newTotalAllowance })

/-- Dispatchable `set_funding_round`. -/
def setFundingRound (env : AssetEnv) (s : AssetState) (signer : Nat)
    (did : IdentityId) (t : Ticker) (name : List Nat) :
    Option String × AssetState :=
  if ¬ env.isSignerAuthorized did signer then
    (some "sender must be a signing key for DID", s)
  else if ¬ isOwner s t did then (some "DID is not of the asset owner", s)
  else (none, { s with fundingRound := mapInsert s.fundingRound t name })

/-- Dispatchable `rename_token`. -/
def renameToken (env : AssetEnv) (s : AssetState) (signer : Nat)
    (t : Ticker) (name : List Nat) : Option String × AssetState :=
  if (s.tokens t).isNone then (some "token doesn't exist", s)
  else
    let token := tokenDetails s t
    if ¬ env.isSignerAuthorized token.ownerDid signer then
      (some "sender must be a signing key for the token owner DID", s)
    else (none, { s with tokens := mapInsert s.tokens t { token with name := name } })

/-- Dispatchable `freeze`. -/
def freeze (env : AssetEnv) (s : AssetState) (signer : Nat) (t : Ticker) :
    Option String × AssetState :=
  if (s.tokens t).isNone then (some "token doesn't exist", s)
  else
    let token := tokenDetails s t
    if ¬ env.isSignerAuthorized token.ownerDid signer then
      (some "sender must be a signing key for the token owner DID", s)
    else if frozenOf s t then (some "asset must not already be frozen", s)
    else (none, { s with frozen := mapInsert s.frozen t true })

/-- Dispatchable `unfreeze`. -/
def unfreeze (env : AssetEnv) (s : AssetState) (signer : Nat) (t : Ticker) :
    Option String × AssetState :=
  if (s.tokens t).isNone then (some "token doesn't exist", s)
  else
    let token := tokenDetails s t
    if ¬ env.isSignerAuthorized token.ownerDid signer then
      (some "sender must be a signing key for the token owner DID", s)
    else if ¬ frozenOf s t then (some "asset must be frozen", s)
    else (none, { s with frozen := mapInsert s.frozen t false })

/-- The write phase of `create_token`, applied once validation and ticker
registration have succeeded: stores the token record, credits the creator
with the full supply, records identifiers and the optional funding-round
name. -/
def createTokenWrites (env : AssetEnv) (t : Ticker) (did : IdentityId)
    (name : List Nat) (totalSupply : Balance) (divisible : Bool)
    (assetType : Nat) (identifierList : List (Nat × List Nat))
    (fundingRound : Option (List Nat)) (s1 : AssetState) : AssetState :=
  let token : SecurityToken :=
    { name := name, totalSupply := totalSupply, ownerDid := did
      divisible := divisible, assetType := assetType
      linkId := env.addLinkId }
  let s2 := { s1 with tokens := mapInsert s1.tokens t token }
  let s3 := { s2 with balanceOf := mapInsert s2.balanceOf (t, did) totalSupply }
  let s4 :=
    identifierList.foldl
      (fun acc kv =>
        { acc with identifiers := mapInsert acc.identifiers (t, kv.1) kv.2 })
      s3
  match fundingRound with
  | some round => { s4 with fundingRound := mapInsert s4.fundingRound t round }
  | none => s4

/-- Dispatchable `create_token`.  Fee payment and asset-DID registration are
the fallible external calls `feeOk` / `registerAssetDidOk`. -/
def createToken (env : AssetEnv) (s : AssetState) (signer : Nat)
    (did : IdentityId) (name : List Nat) (t : Ticker)
    (totalSupply : Balance) (divisible : Bool) (assetType : Nat)
    (identifierList : List (Nat × List Nat)) (fundingRound : Option (List Nat)) :
    Option String × AssetState :=
  if ¬ env.isSignerAuthorized did signer then
    (some "sender must be a signing key for DID", s)
  else if (s.tokens t).isSome then (some "token already created", s)
  else if ¬ tickerLen t ≤ s.maxTickerLength then
    (some "ticker length over the limit", s)
  else if ¬ name.length ≤ 64 then (some "token name cannot exceed 64 bytes", s)
  else
    let status := isTickerAvailableOrRegisteredTo env s t did
    if status = .RegisteredByOther then
      (some "Ticker registered to someone else", s)
    else if ¬ divisible ∧ ¬ totalSupply % ONE_UNIT = 0 then
      (some "Invalid Total supply", s)
    else if ¬ totalSupply ≤ MAX_SUPPLY then
      (some "Total supply above the limit", s)
    else if ¬ env.feeOk then (some "unable to pay the token creation fee", s)
    else if ¬ env.registerAssetDidOk then
      (some "unable to register the asset DID", s)
    else
      (none,
        createTokenWrites env t did name totalSupply divisible assetType
          identifierList fundingRound
          (if status = .Available then registerTickerInternal env s t did none
           else
            { s with
              tickers :=
                mapInsert s.tickers t
                  { (s.tickers t).getD
                      { owner := 0, expiry := none, linkId := 0 } with
                    expiry := none } }))

theorem mapInsert_same {κ σ : Type} [DecidableEq κ] (m : κ → Option σ)
    (k : κ) (v : σ) : mapInsert m k v k = some v := by
  simp [mapInsert]

theorem mapInsert_ne {κ σ : Type} [DecidableEq κ] (m : κ → Option σ)
    {k k' : κ} (v : σ) (h : k' ≠ k) : mapInsert m k v k' = m k' := by
  simp [mapInsert, h]

theorem updateCheckpoint_balanceOf (s : AssetState) (t : Ticker)
    (d : IdentityId) (v : Balance) :
    (updateCheckpoint s t d v).balanceOf = s.balanceOf := by
  unfold updateCheckpoint
  split
  · dsimp only
    split
    · rfl
    · rfl
  · rfl

theorem updateCheckpoint_tokens (s : AssetState) (t : Ticker)
    (d : IdentityId) (v : Balance) :
    (updateCheckpoint s t d v).tokens = s.tokens := by
  unfold updateCheckpoint
  split
  · dsimp only
    split
    · rfl
    · rfl
  · rfl

theorem updateCheckpoint_custodianAllowance (s : AssetState) (t : Ticker)
    (d : IdentityId) (v : Balance) :
    (updateCheckpoint s t d v).custodianAllowance = s.custodianAllowance := by
  unfold updateCheckpoint
  split
  · dsimp only
    split
    · rfl
    · rfl
  · rfl

theorem updateCheckpoint_totalCustodyAllowance (s : AssetState) (t : Ticker)
    (d : IdentityId) (v : Balance) :
    (updateCheckpoint s t d v).totalCustodyAllowance =
      s.totalCustodyAllowance := by
  unfold updateCheckpoint
  split
  · dsimp only
    split
    · rfl
    · rfl
  · rfl

theorem updateCheckpoint_allowance (s : AssetState) (t : Ticker)
    (d : IdentityId) (v : Balance) :
    (updateCheckpoint s t d v).allowance = s.allowance := by
  unfold updateCheckpoint
  split
  · dsimp only
    split
    · rfl
    · rfl
  · rfl

theorem updateCheckpoint_frozen (s : AssetState) (t : Ticker)
    (d : IdentityId) (v : Balance) :
    (updateCheckpoint s t d v).frozen = s.frozen := by
  unfold updateCheckpoint
  split
  · dsimp only
    split
    · rfl
    · rfl
  · rfl

/-- An environment in which every external collaborator answers positively:
all signers authorized, both verifiers return the success code, all DIDs
exist, signatures verify, fees can be paid. -/
def okEnv : AssetEnv where
  isSignerAuthorized := fun _ _ => true
  verifyGeneralTm := fun _ _ _ _ => .ok 0
  verifyPercentageTm := fun _ _ _ _ => .ok 0
  didExists := fun _ => true
  sigOk := fun _ _ _ _ _ _ => true
  feeOk := true
  registerAssetDidOk := true
  addLinkId := 1
  now := 0

/-- A one-letter demo ticker ("A"). -/
def demoTicker : Ticker := [65]


/-! ## Claim C10: self-transfer behaviour of `_transfer` -/

/-- C10 (amended with the explicit `u128` no-overflow bound): for a recorded
balance `b` and any `v ≤ b` passing the granularity check with `b + v` inside
the balance type, `_transfer(ticker, d, d, v)` succeeds and stores `b + v` as
`d`'s balance — the credit write, computed from the pre-debit read, overwrites
the debit write — while the token record (hence `total_supply`) is untouched,
every other balance cell is untouched, and the sum of balances over any index
set containing `d` grows by `v`. -/
theorem xfer_self_transfer (s : AssetState) (t : Ticker) (d : IdentityId)
    (b v : Balance) (hbal : s.balanceOf (t, d) = some b) (hv : v ≤ b)
    (hgran : checkGranularity s t v = true) (hov : b + v < balanceLimit) :
    (xfer s t d d v).1 = none ∧
    (xfer s t d d v).2.balanceOf (t, d) = some (b + v) ∧
    (xfer s t d d v).2.tokens = s.tokens ∧
    (∀ k, k ≠ (t, d) → (xfer s t d d v).2.balanceOf k = s.balanceOf k) ∧
    ∀ S : Finset IdentityId, d ∈ S →
      ∑ i in S, balanceOf (xfer s t d d v).2 (t, i) =
        (∑ i in S, balanceOf s (t, i)) + v := by
  have hnlt : ¬ b < v := Nat.not_lt.mpr hv
  have hx : xfer s t d d v =
      (none,
        { updateCheckpoint (updateCheckpoint s t d b) t d b with
          balanceOf :=
            mapInsert
              (mapInsert (updateCheckpoint (updateCheckpoint s t d b) t d
                b).balanceOf (t, d) (b - v)) (t, d) (b + v) }) := by
    simp only [xfer, hgran, not_true, if_false, Bool.not_eq_true, hbal,
      Option.isNone_some, balanceOf, Option.getD_some, hnlt, checkedSub,
      hv, if_true, checkedAdd, hov, ite_true, ite_false]
    rfl
  have hbalEq : (xfer s t d d v).2.balanceOf (t, d) = some (b + v) := by
    rw [hx]
    exact mapInsert_same _ _ _
  have hbalNe : ∀ k, k ≠ (t, d) →
      (xfer s t d d v).2.balanceOf k = s.balanceOf k := by
    intro k hk
    rw [hx]
    show mapInsert _ (t, d) (b + v) k = s.balanceOf k
    rw [mapInsert_ne _ _ hk, mapInsert_ne _ _ hk,
      updateCheckpoint_balanceOf, updateCheckpoint_balanceOf]
  refine ⟨by rw [hx], hbalEq, ?_, hbalNe, ?_⟩
  · rw [hx]
    show (updateCheckpoint (updateCheckpoint s t d b) t d b).tokens = s.tokens
    rw [updateCheckpoint_tokens, updateCheckpoint_tokens]
  · intro S hdS
    have hone : balanceOf (xfer s t d d v).2 (t, d) = b + v := by
      rw [balanceOf, hbalEq]
      rfl
    have hother : ∀ i ∈ S.erase d,
        balanceOf (xfer s t d d v).2 (t, i) = balanceOf s (t, i) := by
      intro i hi
      have hne : ((t, i) : Ticker × IdentityId) ≠ (t, d) := by
        intro hcontra
        exact (Finset.mem_erase.mp hi).1 (congrArg Prod.snd hcontra)
      rw [balanceOf, balanceOf, hbalNe _ hne]
    have hb : balanceOf s (t, d) = b := by simp [balanceOf, hbal]
    rw [← Finset.add_sum_erase S
        (fun i => balanceOf (xfer s t d d v).2 (t, i)) hdS,
      ← Finset.add_sum_erase S (fun i => balanceOf s (t, i)) hdS]
    simp only [hone, hb, Finset.sum_congr rfl hother]
    ring

/-- A state holding the maximal representable `u128` balance for
`(demoTicker, DID 1)` on a divisible token. -/
def maxedState : AssetState :=
  { emptyAssetState with
    tokens :=
      mapInsert emptyAssetState.tokens demoTicker
        { name := [], totalSupply := 0, ownerDid := 1, divisible := true
          assetType := 0, linkId := 0 }
    balanceOf :=
      mapInsert emptyAssetState.balanceOf (demoTicker, 1) (balanceLimit - 1) }

/-- C10 counterexample to the claim as stated: with recorded balance
`b = 2^128 - 1` and `v = 1 ≤ b`, the granularity check and the entire calling
pipeline (custody check and `_is_valid_transfer`) pass, yet
`_transfer(ticker, d, d, v)` fails with the balance-overflow error instead of
succeeding with balance `b + v`. -/
theorem xfer_self_transfer_overflow_cex :
    maxedState.balanceOf (demoTicker, 1) = some (balanceLimit - 1) ∧
    (1 : Balance) ≤ balanceLimit - 1 ∧
    checkGranularity maxedState demoTicker 1 = true ∧
    checkCustodyAllowance maxedState demoTicker 1 1 = none ∧
    isValidTransfer okEnv maxedState demoTicker (some 1) (some 1) 1 =
      .ok ERC1400_TRANSFER_SUCCESS ∧
    (xfer maxedState demoTicker 1 1 1).1 =
      some "overflow in calculating balance" := by
  refine ⟨rfl, by decide, rfl, rfl, rfl, rfl⟩

/-- Witness for `xfer_self_transfer` at a concrete state: DID 1 holds 100 of a
divisible token; a self-transfer of 40 yields balance 140. -/
def smallState : AssetState :=
  { emptyAssetState with
    tokens :=
      mapInsert emptyAssetState.tokens demoTicker
        { name := [], totalSupply := 100, ownerDid := 1, divisible := true
          assetType := 0, linkId := 0 }
    balanceOf := mapInsert emptyAssetState.balanceOf (demoTicker, 1) 100 }

theorem xfer_self_transfer_witness :
    (xfer smallState demoTicker 1 1 40).1 = none ∧
    (xfer smallState demoTicker 1 1 40).2.balanceOf (demoTicker, 1) =
      some 140 ∧
    (xfer smallState demoTicker 1 1 40).2.tokens = smallState.tokens ∧
    (∀ k, k ≠ (demoTicker, 1) →
      (xfer smallState demoTicker 1 1 40).2.balanceOf k =
        smallState.balanceOf k) ∧
    ∀ S : Finset IdentityId, 1 ∈ S →
      ∑ i in S, balanceOf (xfer smallState demoTicker 1 1 40).2
          (demoTicker, i) =
        (∑ i in S, balanceOf smallState (demoTicker, i)) + 40 :=
  xfer_self_transfer smallState demoTicker 1 100 40 rfl (by decide) rfl
    (by decide)

/-! ## Claim C1: conservation of `sum(balances) == total_supply` -/

/-- The state after a successful `create_token` of 1,000,000 divisible units
by DID 1. -/
def conservationState : AssetState :=
  (createToken okEnv emptyAssetState 1 1 [78] demoTicker 1000000 true 0 []
    none).2

/-- C1 is violated by the code: after `create_token` (conservation holds, DID
1 owns the full supply) a successful self-`transfer` of the full balance
leaves DID 1 with 2,000,000 while `total_supply` is still 1,000,000, so the
sum of balances no longer equals the total supply. -/
theorem conservation_violated_by_self_transfer :
    (createToken okEnv emptyAssetState 1 1 [78] demoTicker 1000000 true 0 []
      none).1 = none ∧
    balanceOf conservationState (demoTicker, 1) = 1000000 ∧
    (tokenDetails conservationState demoTicker).totalSupply = 1000000 ∧
    (transfer okEnv conservationState 1 1 demoTicker 1 1000000).1 = none ∧
    balanceOf (transfer okEnv conservationState 1 1 demoTicker 1 1000000).2
      (demoTicker, 1) = 2000000 ∧
    (tokenDetails
      (transfer okEnv conservationState 1 1 demoTicker 1 1000000).2
      demoTicker).totalSupply = 1000000 ∧
    ¬ ∑ i in ({1} : Finset IdentityId),
        balanceOf (transfer okEnv conservationState 1 1 demoTicker 1
          1000000).2 (demoTicker, i) =
      (tokenDetails
        (transfer okEnv conservationState 1 1 demoTicker 1 1000000).2
        demoTicker).totalSupply := by
  refine ⟨rfl, rfl, rfl, rfl, rfl, rfl, by decide⟩


/-! ## Claim C3: `transfer_by_custodian` allowance bookkeeping -/

/-- Holder DID 1 owns 100 units of a divisible token; custodian DID 2 has a
custody allowance of 60 recorded under the documented key
`(ticker, holder, custodian) = (demoTicker, 1, 2)`, with the matching
aggregate `TotalCustodyAllowance(demoTicker, 1) = 60`. -/
def custodyState : AssetState :=
  { emptyAssetState with
    tokens :=
      mapInsert emptyAssetState.tokens demoTicker
        { name := [], totalSupply := 100, ownerDid := 1, divisible := true
          assetType := 0, linkId := 0 }
    balanceOf := mapInsert emptyAssetState.balanceOf (demoTicker, 1) 100
    custodianAllowance :=
      mapInsert emptyAssetState.custodianAllowance (demoTicker, 1, 2) 60
    totalCustodyAllowance :=
      mapInsert emptyAssetState.totalCustodyAllowance (demoTicker, 1) 60 }

/-- C3 fails on the code: a successful
`transfer_by_custodian(demoTicker, holder 1, custodian 2, receiver 3, 10)`
debits the aggregate allowance (60 → 50) and moves the balance, but the
`CustodianAllowance` entry under the documented read key `(ticker, holder,
custodian) = (demoTicker, 1, 2)` is left at 60 — the decremented value 50 is
written under the transposed key `(demoTicker, 2, 1)` instead. -/
theorem transfer_by_custodian_swapped_write :
    (transferByCustodian okEnv custodyState 9 demoTicker 1 2 3 10).1 =
      none ∧
    custodianAllowanceOf
      (transferByCustodian okEnv custodyState 9 demoTicker 1 2 3 10).2
      (demoTicker, 1, 2) = 60 ∧
    custodianAllowanceOf
      (transferByCustodian okEnv custodyState 9 demoTicker 1 2 3 10).2
      (demoTicker, 2, 1) = 50 ∧
    totalCustodyAllowanceOf
      (transferByCustodian okEnv custodyState 9 demoTicker 1 2 3 10).2
      (demoTicker, 1) = 50 ∧
    balanceOf
      (transferByCustodian okEnv custodyState 9 demoTicker 1 2 3 10).2
      (demoTicker, 1) = 90 ∧
    balanceOf
      (transferByCustodian okEnv custodyState 9 demoTicker 1 2 3 10).2
      (demoTicker, 3) = 10 := by
  refine ⟨rfl, rfl, rfl, rfl, rfl, rfl⟩

/-- The insufficient-allowance failure path of C3 does hold: with a specific
allowance of 60, a custodian transfer of 70 fails and mutates nothing. -/
theorem transfer_by_custodian_insufficient_allowance :
    transferByCustodian okEnv custodyState 9 demoTicker 1 2 3 70 =
      (some "Insufficient allowance", custodyState) := by
  rfl

/-! ## Claim C6: the frozen gate -/

/-- `custodyState` with the asset frozen. -/
def frozenState : AssetState :=
  { custodyState with
    frozen := mapInsert emptyAssetState.frozen demoTicker true }

/-- C6 counterexample: while `Frozen(demoTicker)` is set, the internal
`_transfer` succeeds (it performs no frozen check), and so does the
dispatchable `controller_transfer`, which never consults the
transfer-authorization pipeline. -/
theorem frozen_transfer_cex :
    frozenOf frozenState demoTicker = true ∧
    (xfer frozenState demoTicker 1 3 10).1 = none ∧
    balanceOf (xfer frozenState demoTicker 1 3 10).2 (demoTicker, 3) = 10 ∧
    (controllerTransfer okEnv frozenState 9 1 demoTicker 1 3 10).1 = none ∧
    balanceOf (controllerTransfer okEnv frozenState 9 1 demoTicker 1 3 10).2
      (demoTicker, 3) = 10 := by
  refine ⟨rfl, rfl, rfl, rfl, rfl⟩


/-- While frozen, the first element of a non-empty `batch_issue` validation
loop hits the frozen pipeline (or an earlier per-investor check), so the loop
returns an error. -/
theorem batchChecks_frozen (env : AssetEnv) (s : AssetState) (t : Ticker)
    (hf : frozenOf s t = true) (d : IdentityId) (v : Balance)
    (rest : List (IdentityId × Balance)) (supply : Balance) :
    ∃ e, batchChecks env s t ((d, v) :: rest) supply = .error e := by
  have hvt : ∀ fromDid toDid w,
      isValidTransfer env s t fromDid toDid w = .error "asset is frozen" := by
    intro fromDid toDid w
    simp [isValidTransfer, hf]
  simp only [batchChecks, hvt]
  split
  · exact ⟨_, rfl⟩
  · split
    · exact ⟨_, rfl⟩
    · split
      · exact ⟨_, rfl⟩
      · split
        · exact ⟨_, rfl⟩
        · exact ⟨_, rfl⟩

/-- C6 (amended): while a ticker is frozen, `_is_valid_transfer` answers the
error "asset is frozen" without consulting either external verifier (the
conclusion holds for every environment), and every state-mutating operation
that calls the pipeline — `_mint`, `transfer`, `transfer_from`, `redeem`,
`redeem_from`, `batch_issue`, `transfer_by_custodian` — fails.  The internal
`_transfer` itself performs no frozen check (see `frozen_transfer_cex`). -/
theorem frozen_blocks_pipeline_ops (env : AssetEnv) (s : AssetState)
    (t : Ticker) (hf : frozenOf s t = true) :
    (∀ fromDid toDid v,
      isValidTransfer env s t fromDid toDid v = .error "asset is frozen") ∧
    (∀ toDid v, (mint env s t toDid v).1 ≠ none) ∧
    (∀ signer did toDid v, (transfer env s signer did t toDid v).1 ≠ none) ∧
    (∀ signer did fromDid toDid v,
      (transferFrom env s signer did t fromDid toDid v).1 ≠ none) ∧
    (∀ signer did v, (redeem env s signer did t v).1 ≠ none) ∧
    (∀ signer did fromDid v,
      (redeemFrom env s signer did t fromDid v).1 ≠ none) ∧
    (∀ signer did dids vs, (batchIssue env s signer did t dids vs).1 ≠ none) ∧
    (∀ signer h c r v,
      (transferByCustodian env s signer t h c r v).1 ≠ none) := by
  have hvt : ∀ fromDid toDid v,
      isValidTransfer env s t fromDid toDid v = .error "asset is frozen" := by
    intro fromDid toDid v
    simp [isValidTransfer, hf]
  refine ⟨hvt, ?_, ?_, ?_, ?_, ?_, ?_, ?_⟩
  · intro toDid v
    simp only [mint, hvt]
    split
    · simp
    · split <;> simp
  · intro signer did toDid v
    simp only [transfer, hvt]
    split
    · simp
    · split <;> simp
  · intro signer did fromDid toDid v
    simp only [transferFrom, hvt]
    repeat' split
    all_goals simp
  · intro signer did v
    simp only [redeem, hvt]
    repeat' split
    all_goals simp
  · intro signer did fromDid v
    simp only [redeemFrom, hvt]
    repeat' split
    all_goals simp
  · intro signer did dids vs
    simp only [batchIssue]
    split
    · simp
    · split
      · simp
      · split
        · simp
        · split
          · simp
          · rename_i hne hlen _
            cases dids with
            | nil => simp at hne
            | cons d ds =>
              cases vs with
              | nil => simp at hlen
              | cons v vs2 =>
                obtain ⟨e, he⟩ :=
                  batchChecks_frozen env s t hf d v (ds.zip vs2)
                    (tokenDetails s t).totalSupply
                simp only [List.zip_cons_cons, he]
                simp
  · intro signer h c r v
    simp only [transferByCustodian, hvt]
    repeat' split
    all_goals simp

/-- Witness for `frozen_blocks_pipeline_ops` at the concrete frozen state:
`transfer` of 10 from DID 1 is refused. -/
theorem frozen_blocks_pipeline_ops_witness :
    frozenOf frozenState demoTicker = true ∧
    isValidTransfer okEnv frozenState demoTicker (some 1) (some 3) 10 =
      .error "asset is frozen" ∧
    (transfer okEnv frozenState 9 1 demoTicker 3 10).1 ≠ none := by
  have h := frozen_blocks_pipeline_ops okEnv frozenState demoTicker rfl
  exact ⟨rfl, h.1 (some 1) (some 3) 10, h.2.2.1 9 1 3 10⟩


/-! ## Claim C2: the custody invariant -/

/-- `balance(ticker, holder) >= TotalCustodyAllowance(ticker, holder)` at
every key. -/
def custodyInvariant (s : AssetState) : Prop :=
  ∀ k : Ticker × IdentityId,
    totalCustodyAllowanceOf s k ≤ balanceOf s k

/-- Success characterisation of `_transfer`: the custody, token, allowance and
frozen stores are untouched; the sender owned at least `value`; every balance
cell other than the two endpoints is untouched; the receiver cell ends at its
pre-debit value plus `value` (for a self-transfer this is the sender's old
balance plus `value`); and for distinct endpoints the sender cell ends
debited. -/
theorem xfer_ok (s : AssetState) (t : Ticker) (fromDid toDid : IdentityId)
    (v : Balance) (h : (xfer s t fromDid toDid v).1 = none) :
    (xfer s t fromDid toDid v).2.custodianAllowance = s.custodianAllowance ∧
    (xfer s t fromDid toDid v).2.totalCustodyAllowance =
      s.totalCustodyAllowance ∧
    (xfer s t fromDid toDid v).2.tokens = s.tokens ∧
    (xfer s t fromDid toDid v).2.allowance = s.allowance ∧
    (xfer s t fromDid toDid v).2.frozen = s.frozen ∧
    v ≤ balanceOf s (t, fromDid) ∧
    (∀ k, k ≠ (t, fromDid) → k ≠ (t, toDid) →
      (xfer s t fromDid toDid v).2.balanceOf k = s.balanceOf k) ∧
    balanceOf (xfer s t fromDid toDid v).2 (t, toDid) =
      balanceOf s (t, toDid) + v ∧
    (fromDid ≠ toDid →
      balanceOf (xfer s t fromDid toDid v).2 (t, fromDid) =
        balanceOf s (t, fromDid) - v) := by
  have hgran : checkGranularity s t v = true := by
    by_contra hc
    simp [xfer, hc] at h
  have hex : (s.balanceOf (t, fromDid)).isNone = false := by
    by_contra hc
    rw [Bool.not_eq_false] at hc
    simp [xfer, hgran, hc] at h
  have hlt : ¬ balanceOf s (t, fromDid) < v := by
    by_contra hc
    simp [xfer, hgran, hex, hc] at h
  have hle : v ≤ balanceOf s (t, fromDid) := Nat.not_lt.mp hlt
  have hsub : checkedSub (balanceOf s (t, fromDid)) v =
      some (balanceOf s (t, fromDid) - v) := by
    simp [checkedSub, hle]
  have hadd : checkedAdd (balanceOf s (t, toDid)) v =
      some (balanceOf s (t, toDid) + v) := by
    rcases hc : checkedAdd (balanceOf s (t, toDid)) v with _ | w
    · exfalso
      simp [xfer, hgran, hex, hlt, hsub, hc] at h
    · unfold checkedAdd at hc
      split at hc
      · rename_i hcond
        simp [checkedAdd, hcond]
        exact (Option.some_inj.mp hc).symm
      · exact absurd hc (by simp)
  have hx : xfer s t fromDid toDid v =
      (none,
        { updateCheckpoint
            (updateCheckpoint s t fromDid (balanceOf s (t, fromDid))) t toDid
            (balanceOf s (t, toDid)) with
          balanceOf :=
            mapInsert
              (mapInsert
                (updateCheckpoint
                  (updateCheckpoint s t fromDid (balanceOf s (t, fromDid))) t
                  toDid (balanceOf s (t, toDid))).balanceOf (t, fromDid)
                (balanceOf s (t, fromDid) - v)) (t, toDid)
              (balanceOf s (t, toDid) + v) }) := by
    simp only [xfer, hgran, hex, hlt, hsub, hadd, not_true, Bool.not_eq_true,
      ite_false, if_false]
    rfl
  refine ⟨?_, ?_, ?_, ?_, ?_, hle, ?_, ?_, ?_⟩
  · rw [hx]
    show (updateCheckpoint _ t toDid _).custodianAllowance =
      s.custodianAllowance
    rw [updateCheckpoint_custodianAllowance,
      updateCheckpoint_custodianAllowance]
  · rw [hx]
    show (updateCheckpoint _ t toDid _).totalCustodyAllowance =
      s.totalCustodyAllowance
    rw [updateCheckpoint_totalCustodyAllowance,
      updateCheckpoint_totalCustodyAllowance]
  · rw [hx]
    show (updateCheckpoint _ t toDid _).tokens = s.tokens
    rw [updateCheckpoint_tokens, updateCheckpoint_tokens]
  · rw [hx]
    show (updateCheckpoint _ t toDid _).allowance = s.allowance
    rw [updateCheckpoint_allowance, updateCheckpoint_allowance]
  · rw [hx]
    show (updateCheckpoint _ t toDid _).frozen = s.frozen
    rw [updateCheckpoint_frozen, updateCheckpoint_frozen]
  · intro k hkFrom hkTo
    rw [hx]
    show mapInsert _ (t, toDid) _ k = s.balanceOf k
    rw [mapInsert_ne _ _ hkTo, mapInsert_ne _ _ hkFrom,
      updateCheckpoint_balanceOf, updateCheckpoint_balanceOf]
  · rw [balanceOf, hx]
    show (mapInsert _ (t, toDid) _ (t, toDid)).getD 0 = _
    rw [mapInsert_same]
    rfl
  · intro hne
    have hkey : ((t, fromDid) : Ticker × IdentityId) ≠ (t, toDid) := by
      intro hcontra
      exact hne (congrArg Prod.snd hcontra)
    rw [balanceOf, hx]
    show (mapInsert _ (t, toDid) _ (t, fromDid)).getD 0 = _
    rw [mapInsert_ne _ _ hkey, mapInsert_same]
    rfl


/-- A passed `_check_custody_allowance` means the debit keeps the holder at or
above the pledged aggregate. -/
theorem checkCustody_ok (s : AssetState) (t : Ticker) (d : IdentityId)
    (v : Balance) (h : checkCustodyAllowance s t d v = none) :
    v ≤ balanceOf s (t, d) ∧
    totalCustodyAllowanceOf s (t, d) ≤ balanceOf s (t, d) - v := by
  unfold checkCustodyAllowance at h
  rcases hc : checkedSub (balanceOf s (t, d)) v with _ | rem
  · rw [hc] at h
    exact absurd h (by simp)
  · rw [hc] at h
    have hle : v ≤ balanceOf s (t, d) := by
      by_contra hcon
      unfold checkedSub at hc
      rw [if_neg hcon] at hc
      exact absurd hc (by simp)
    have hrem : rem = balanceOf s (t, d) - v := by
      unfold checkedSub at hc
      rw [if_pos hle] at hc
      exact (Option.some_inj.mp hc).symm
    subst hrem
    refine ⟨hle, ?_⟩
    by_contra hcon
    dsimp only at h
    rw [if_pos hcon] at h
    exact absurd h (by simp)

/-- The custody invariant survives a `_transfer` whose debit was guarded by
`_check_custody_allowance`. -/
theorem custody_preserved_xfer (s : AssetState) (t : Ticker)
    (did toDid : IdentityId) (v : Balance) (hinv : custodyInvariant s)
    (hcc : checkCustodyAllowance s t did v = none)
    (h : (xfer s t did toDid v).1 = none) :
    custodyInvariant (xfer s t did toDid v).2 := by
  obtain ⟨hca, htca, _, _, _, hle, hother, hto, hfrom⟩ :=
    xfer_ok s t did toDid v h
  obtain ⟨_, hrem⟩ := checkCustody_ok s t did v hcc
  intro k
  have htotal : totalCustodyAllowanceOf (xfer s t did toDid v).2 k =
      totalCustodyAllowanceOf s k := by
    rw [totalCustodyAllowanceOf, htca]
    rfl
  rw [htotal]
  by_cases hkTo : k = (t, toDid)
  · subst hkTo
    rw [hto]
    exact le_trans (hinv _) (Nat.le_add_right _ _)
  · by_cases hkFrom : k = (t, did)
    · subst hkFrom
      have hne : did ≠ toDid := by
        intro hcontra
        exact hkTo (by rw [hcontra])
      rw [hfrom hne]
      exact hrem
    · rw [balanceOf, hother k hkFrom hkTo]
      exact hinv k

/-- The seven custody-relevant operations of claim C2, over a fixed ticker. -/
inductive CustodyOp where
  | cTransfer (signer : Nat) (did toDid : IdentityId) (v : Balance)
  | cTransferFrom (signer : Nat) (did fromDid toDid : IdentityId) (v : Balance)
  | cRedeem (signer : Nat) (did : IdentityId) (v : Balance)
  | cRedeemFrom (signer : Nat) (did fromDid : IdentityId) (v : Balance)
  | cTransferByCustodian (signer : Nat)
      (holderDid custodianDid receiverDid : IdentityId) (v : Balance)
  | cIncrease (signer : Nat) (holderDid custodianDid : IdentityId) (v : Balance)
  | cIncreaseOf (signer : Nat) (holderDid : IdentityId) (holderAccountId : Nat)
      (custodianDid callerDid : IdentityId) (v : Balance) (nonce : Nat)

/-- Dispatch of `CustodyOp` to the corresponding dispatchable. -/
def applyCustodyOp (env : AssetEnv) (t : Ticker) (op : CustodyOp)
    (s : AssetState) : Option String × AssetState :=
  match op with
  | .cTransfer signer did toDid v => transfer env s signer did t toDid v
  | .cTransferFrom signer did fromDid toDid v =>
    transferFrom env s signer did t fromDid toDid v
  | .cRedeem signer did v => redeem env s signer did t v
  | .cRedeemFrom signer did fromDid v => redeemFrom env s signer did t fromDid v
  | .cTransferByCustodian signer holderDid custodianDid receiverDid v =>
    transferByCustodian env s signer t holderDid custodianDid receiverDid v
  | .cIncrease signer holderDid custodianDid v =>
    increaseCustodyAllowance env s signer t holderDid custodianDid v
  | .cIncreaseOf signer holderDid holderAccountId custodianDid callerDid v
      nonce =>
    increaseCustodyAllowanceOf env s signer t holderDid holderAccountId
      custodianDid callerDid v nonce

theorem custody_preserved_transfer (env : AssetEnv) (s : AssetState)
    (signer : Nat) (did : IdentityId) (t : Ticker) (toDid : IdentityId)
    (v : Balance) (hinv : custodyInvariant s)
    (h : (transfer env s signer did t toDid v).1 = none) :
    custodyInvariant (transfer env s signer did t toDid v).2 := by
  have hsig : env.isSignerAuthorized did signer = true := by
    by_contra hc
    simp [transfer, hc] at h
  have hcc : checkCustodyAllowance s t did v = none := by
    rcases hc : checkCustodyAllowance s t did v with _ | e
    · rfl
    · exfalso
      simp [transfer, hsig, hc] at h
  rcases hvt : isValidTransfer env s t (some did) (some toDid) v with e | code
  · exfalso
    simp [transfer, hsig, hcc, hvt] at h
  · by_cases hcode : code = ERC1400_TRANSFER_SUCCESS
    · have htr : transfer env s signer did t toDid v = xfer s t did toDid v := by
        simp [transfer, hsig, hcc, hvt, hcode]
      rw [htr] at h ⊢
      exact custody_preserved_xfer s t did toDid v hinv hcc h
    · exfalso
      simp [transfer, hsig, hcc, hvt, hcode] at h

theorem custody_preserved_transferFrom (env : AssetEnv) (s : AssetState)
    (signer : Nat) (did : IdentityId) (t : Ticker)
    (fromDid toDid : IdentityId) (v : Balance) (hinv : custodyInvariant s)
    (h : (transferFrom env s signer did t fromDid toDid v).1 = none) :
    custodyInvariant (transferFrom env s signer did t fromDid toDid v).2 := by
  have hsig : env.isSignerAuthorized did signer = true := by
    by_contra hc
    simp [transferFrom, hc] at h
  have hal : (s.allowance (t, fromDid, did)).isNone = false := by
    by_contra hc
    rw [Bool.not_eq_false] at hc
    simp [transferFrom, hsig, hc] at h
  have hlt : ¬ allowanceOf s (t, fromDid, did) < v := by
    by_contra hc
    simp [transferFrom, hsig, hal, hc] at h
  have hsub : checkedSub (allowanceOf s (t, fromDid, did)) v =
      some (allowanceOf s (t, fromDid, did) - v) := by
    simp [checkedSub, Nat.not_lt.mp hlt]
  have hcc : checkCustodyAllowance s t fromDid v = none := by
    rcases hc : checkCustodyAllowance s t fromDid v with _ | e
    · rfl
    · exfalso
      simp [transferFrom, hsig, hal, hlt, hsub, hc] at h
  rcases hvt : isValidTransfer env s t (some fromDid) (some toDid) v
      with e | code
  · exfalso
    simp [transferFrom, hsig, hal, hlt, hsub, hcc, hvt] at h
  · by_cases hcode : code = ERC1400_TRANSFER_SUCCESS
    · rcases hx : xfer s t fromDid toDid v with ⟨err, s'⟩
      cases err with
      | some e =>
        exfalso
        simp [transferFrom, hsig, hal, hlt, hsub, hcc, hvt, hcode, hx] at h
      | none =>
        have hres : transferFrom env s signer did t fromDid toDid v =
            (none,
              { s' with
                allowance := mapInsert s'.allowance (t, fromDid, did)
                  (allowanceOf s (t, fromDid, did) - v) }) := by
          simp [transferFrom, hsig, hal, hlt, hsub, hcc, hvt, hcode, hx]
        rw [hres]
        have hx1 : (xfer s t fromDid toDid v).1 = none := by rw [hx]
        have hinv2 := custody_preserved_xfer s t fromDid toDid v hinv hcc hx1
        rw [hx] at hinv2
        intro k
        exact hinv2 k
    · exfalso
      simp [transferFrom, hsig, hal, hlt, hsub, hcc, hvt, hcode] at h


theorem custody_preserved_redeem (env : AssetEnv) (s : AssetState)
    (signer : Nat) (did : IdentityId) (t : Ticker) (v : Balance)
    (hinv : custodyInvariant s)
    (h : (redeem env s signer did t v).1 = none) :
    custodyInvariant (redeem env s signer did t v).2 := by
  have hsig : env.isSignerAuthorized did signer = true := by
    by_contra hc
    simp [redeem, hc] at h
  have hgran : checkGranularity s t v = true := by
    by_contra hc
    simp [redeem, hsig, hc] at h
  have hex : (s.balanceOf (t, did)).isNone = false := by
    by_contra hc
    rw [Bool.not_eq_false] at hc
    simp [redeem, hsig, hgran, hc] at h
  have hlt : ¬ balanceOf s (t, did) < v := by
    by_contra hc
    simp [redeem, hsig, hgran, hex, hc] at h
  have hsub : checkedSub (balanceOf s (t, did)) v =
      some (balanceOf s (t, did) - v) := by
    simp [checkedSub, Nat.not_lt.mp hlt]
  have hcc : checkCustodyAllowance s t did v = none := by
    rcases hc : checkCustodyAllowance s t did v with _ | e
    · rfl
    · exfalso
      simp [redeem, hsig, hgran, hex, hlt, hsub, hc] at h
  obtain ⟨_, hrem⟩ := checkCustody_ok s t did v hcc
  rcases hvt : isValidTransfer env s t (some did) none v with e | code
  · exfalso
    simp [redeem, hsig, hgran, hex, hlt, hsub, hcc, hvt] at h
  by_cases hcode : code = ERC1400_TRANSFER_SUCCESS
  case neg =>
    exfalso
    simp [redeem, hsig, hgran, hex, hlt, hsub, hcc, hvt, hcode] at h
  case pos =>
  rcases hsupply : checkedSub (tokenDetails s t).totalSupply v
      with _ | newSupply
  · exfalso
    simp [redeem, hsig, hgran, hex, hlt, hsub, hcc, hvt, hcode, hsupply] at h
  · simp only [redeem, hsig, hgran, hex, hlt, hsub, hcc, hvt, hcode, hsupply,
      not_true, Bool.not_eq_true, ite_false, if_false, ite_true, if_true,
      not_false_iff, Bool.false_eq_true]
    intro k
    show totalCustodyAllowanceOf _ k ≤ balanceOf _ k
    rw [totalCustodyAllowanceOf, balanceOf]
    show ((updateCheckpoint s t did _).totalCustodyAllowance k).getD 0 ≤
      ((mapInsert (updateCheckpoint s t did _).balanceOf (t, did)
        (balanceOf s (t, did) - v)) k).getD 0
    rw [updateCheckpoint_totalCustodyAllowance]
    by_cases hk : k = (t, did)
    · subst hk
      rw [mapInsert_same]
      exact hrem
    · rw [mapInsert_ne _ _ hk, updateCheckpoint_balanceOf]
      exact hinv k

theorem custody_preserved_redeemFrom (env : AssetEnv) (s : AssetState)
    (signer : Nat) (did : IdentityId) (t : Ticker) (fromDid : IdentityId)
    (v : Balance) (hinv : custodyInvariant s)
    (h : (redeemFrom env s signer did t fromDid v).1 = none) :
    custodyInvariant (redeemFrom env s signer did t fromDid v).2 := by
  have hsig : env.isSignerAuthorized did signer = true := by
    by_contra hc
    simp [redeemFrom, hc] at h
  have hgran : checkGranularity s t v = true := by
    by_contra hc
    simp [redeemFrom, hsig, hc] at h
  have hex : (s.balanceOf (t, did)).isNone = false := by
    by_contra hc
    rw [Bool.not_eq_false] at hc
    simp [redeemFrom, hsig, hgran, hc] at h
  have hlt : ¬ balanceOf s (t, did) < v := by
    by_contra hc
    simp [redeemFrom, hsig, hgran, hex, hc] at h
  have hsub : checkedSub (balanceOf s (t, did)) v =
      some (balanceOf s (t, did) - v) := by
    simp [checkedSub, Nat.not_lt.mp hlt]
  have hal : (s.allowance (t, fromDid, did)).isNone = false := by
    by_contra hc
    rw [Bool.not_eq_false] at hc
    simp [redeemFrom, hsig, hgran, hex, hlt, hsub, hc] at h
  have halt : ¬ allowanceOf s (t, fromDid, did) < v := by
    by_contra hc
    simp [redeemFrom, hsig, hgran, hex, hlt, hsub, hal, hc] at h
  have hcc : checkCustodyAllowance s t did v = none := by
    rcases hc : checkCustodyAllowance s t did v with _ | e
    · rfl
    · exfalso
      simp [redeemFrom, hsig, hgran, hex, hlt, hsub, hal, halt, hc] at h
  obtain ⟨_, hrem⟩ := checkCustody_ok s t did v hcc
  rcases hvt : isValidTransfer env s t (some fromDid) none v with e | code
  · exfalso
    simp [redeemFrom, hsig, hgran, hex, hlt, hsub, hal, halt, hcc, hvt] at h
  by_cases hcode : code = ERC1400_TRANSFER_SUCCESS
  case neg =>
    exfalso
    simp [redeemFrom, hsig, hgran, hex, hlt, hsub, hal, halt, hcc, hvt,
      hcode] at h
  case pos =>
  have hsubA : checkedSub (allowanceOf s (t, fromDid, did)) v =
      some (allowanceOf s (t, fromDid, did) - v) := by
    simp [checkedSub, Nat.not_lt.mp halt]
  rcases hsupply : checkedSub (tokenDetails s t).totalSupply v
      with _ | newSupply
  · exfalso
    simp [redeemFrom, hsig, hgran, hex, hlt, hsub, hal, halt, hcc, hvt,
      hcode, hsubA, hsupply] at h
  · simp only [redeemFrom, hsig, hgran, hex, hlt, hsub, hal, halt, hcc, hvt,
      hcode, hsubA, hsupply, not_true, Bool.not_eq_true, ite_false, if_false,
      ite_true, if_true, not_false_iff, Bool.false_eq_true]
    intro k
    show totalCustodyAllowanceOf _ k ≤ balanceOf _ k
    rw [totalCustodyAllowanceOf, balanceOf]
    show ((updateCheckpoint s t did _).totalCustodyAllowance k).getD 0 ≤
      ((mapInsert (updateCheckpoint s t did _).balanceOf (t, did)
        (balanceOf s (t, did) - v)) k).getD 0
    rw [updateCheckpoint_totalCustodyAllowance]
    by_cases hk : k = (t, did)
    · subst hk
      rw [mapInsert_same]
      exact hrem
    · rw [mapInsert_ne _ _ hk, updateCheckpoint_balanceOf]
      exact hinv k

theorem custody_preserved_transferByCustodian (env : AssetEnv)
    (s : AssetState) (signer : Nat)
    (t : Ticker) (holderDid custodianDid receiverDid : IdentityId)
    (v : Balance) (hinv : custodyInvariant s)
    (h : (transferByCustodian env s signer t holderDid custodianDid
      receiverDid v).1 = none) :
    custodyInvariant (transferByCustodian env s signer t holderDid
      custodianDid receiverDid v).2 := by
  have hsig : env.isSignerAuthorized custodianDid signer = true := by
    by_contra hc
    simp [transferByCustodian, hc] at h
  have hlt : ¬ custodianAllowanceOf s (t, holderDid, custodianDid) < v := by
    by_contra hc
    simp [transferByCustodian, hsig, hc] at h
  have hsubC : checkedSub (custodianAllowanceOf s (t, holderDid,
      custodianDid)) v =
      some (custodianAllowanceOf s (t, holderDid, custodianDid) - v) := by
    simp [checkedSub, Nat.not_lt.mp hlt]
  rcases hsubT : checkedSub (totalCustodyAllowanceOf s (t, holderDid)) v
      with _ | newTotal
  · exfalso
    simp [transferByCustodian, hsig, hlt, hsubC, hsubT] at h
  have hvT : v ≤ totalCustodyAllowanceOf s (t, holderDid) := by
    by_contra hcon
    unfold checkedSub at hsubT
    rw [if_neg hcon] at hsubT
    exact absurd hsubT (by simp)
  have hnewTotal : newTotal = totalCustodyAllowanceOf s (t, holderDid) - v := by
    unfold checkedSub at hsubT
    rw [if_pos hvT] at hsubT
    exact (Option.some_inj.mp hsubT).symm
  subst hnewTotal
  rcases hvt : isValidTransfer env s t (some holderDid) (some receiverDid) v
      with e | code
  · exfalso
    simp [transferByCustodian, hsig, hlt, hsubC, hsubT, hvt] at h
  by_cases hcode : code = ERC1400_TRANSFER_SUCCESS
  case neg =>
    exfalso
    simp [transferByCustodian, hsig, hlt, hsubC, hsubT, hvt, hcode] at h
  case pos =>
  rcases hx : xfer s t holderDid receiverDid v with ⟨err, s1⟩
  cases err with
  | some e =>
    exfalso
    simp [transferByCustodian, hsig, hlt, hsubC, hsubT, hvt, hcode, hx] at h
  | none =>
    have hx1 : (xfer s t holderDid receiverDid v).1 = none := by rw [hx]
    obtain ⟨hca, htca, _, _, _, hleBal, hother, hto, hfrom⟩ :=
      xfer_ok s t holderDid receiverDid v hx1
    rw [hx] at hca htca hother hto hfrom
    dsimp only at hca htca hother hto hfrom
    simp only [transferByCustodian, hsig, hlt, hsubC, hsubT, hvt, hcode, hx,
      not_true, Bool.not_eq_true, ite_false, if_false, ite_true, if_true,
      not_false_iff, Bool.false_eq_true]
    intro k
    show ((mapInsert s1.totalCustodyAllowance (t, holderDid)
        (totalCustodyAllowanceOf s (t, holderDid) - v)) k).getD 0 ≤
      balanceOf s1 k
    by_cases hk : k = (t, holderDid)
    · subst hk
      rw [mapInsert_same]
      show totalCustodyAllowanceOf s (t, holderDid) - v ≤
        balanceOf s1 (t, holderDid)
      by_cases hsame : holderDid = receiverDid
      · subst hsame
        rw [hto]
        have hbnd := hinv (t, holderDid)
        exact le_trans (Nat.sub_le _ _) (le_trans hbnd (Nat.le_add_right _ _))
      · rw [hfrom hsame]
        exact Nat.sub_le_sub_right (hinv (t, holderDid)) v
    · rw [mapInsert_ne _ _ hk, htca]
      show totalCustodyAllowanceOf s k ≤ balanceOf s1 k
      by_cases hk2 : k = (t, receiverDid)
      · subst hk2
        rw [hto]
        exact le_trans (hinv (t, receiverDid)) (Nat.le_add_right _ _)
      · rw [balanceOf, hother k hk hk2]
        exact hinv k

theorem custody_preserved_increase_internal (env : AssetEnv) (s : AssetState)
    (t : Ticker) (holderDid custodianDid : IdentityId) (v : Balance)
    (hinv : custodyInvariant s)
    (h : (increaseCustodyAllowanceInternal env s t holderDid custodianDid
      v).1 = none) :
    custodyInvariant (increaseCustodyAllowanceInternal env s t holderDid
      custodianDid v).2 := by
  rcases hadd : checkedAdd (totalCustodyAllowanceOf s (t, holderDid)) v
      with _ | newTotal
  · exfalso
    simp [increaseCustodyAllowanceInternal, hadd] at h
  have hlt : ¬ balanceOf s (t, holderDid) < newTotal := by
    by_contra hc
    simp [increaseCustodyAllowanceInternal, hadd, hc] at h
  have hdid : env.didExists custodianDid = true := by
    by_contra hc
    simp [increaseCustodyAllowanceInternal, hadd, hlt, hc] at h
  rcases hadd2 : checkedAdd (custodianAllowanceOf s (t, holderDid,
      custodianDid)) v with _ | newCur
  · exfalso
    simp [increaseCustodyAllowanceInternal, hadd, hlt, hdid, hadd2] at h
  · simp only [increaseCustodyAllowanceInternal, hadd, hlt, hdid, hadd2,
      not_true, Bool.not_eq_true, ite_false, if_false, ite_true, if_true,
      not_false_iff, Bool.false_eq_true]
    intro k
    show totalCustodyAllowanceOf _ k ≤ balanceOf _ k
    rw [totalCustodyAllowanceOf, balanceOf]
    show ((mapInsert s.totalCustodyAllowance (t, holderDid) newTotal)
        k).getD 0 ≤ (s.balanceOf k).getD 0
    by_cases hk : k = (t, holderDid)
    · subst hk
      rw [mapInsert_same]
      exact Nat.not_lt.mp hlt
    · rw [mapInsert_ne _ _ hk]
      exact hinv k

theorem custody_preserved_increase (env : AssetEnv) (s : AssetState)
    (signer : Nat) (t : Ticker) (holderDid custodianDid : IdentityId)
    (v : Balance) (hinv : custodyInvariant s)
    (h : (increaseCustodyAllowance env s signer t holderDid custodianDid
      v).1 = none) :
    custodyInvariant (increaseCustodyAllowance env s signer t holderDid
      custodianDid v).2 := by
  have hsig : env.isSignerAuthorized holderDid signer = true := by
    by_contra hc
    simp [increaseCustodyAllowance, hc] at h
  have hres : increaseCustodyAllowance env s signer t holderDid custodianDid
      v = increaseCustodyAllowanceInternal env s t holderDid custodianDid
      v := by
    simp [increaseCustodyAllowance, hsig]
  rw [hres] at h ⊢
  exact custody_preserved_increase_internal env s t holderDid custodianDid v
    hinv h

theorem custody_preserved_increaseOf (env : AssetEnv) (s : AssetState)
    (signer : Nat) (t : Ticker) (holderDid : IdentityId)
    (holderAccountId : Nat) (custodianDid callerDid : IdentityId)
    (v : Balance) (nonce : Nat) (hinv : custodyInvariant s)
    (h : (increaseCustodyAllowanceOf env s signer t holderDid holderAccountId
      custodianDid callerDid v nonce).1 = none) :
    custodyInvariant (increaseCustodyAllowanceOf env s signer t holderDid
      holderAccountId custodianDid callerDid v nonce).2 := by
  have hn : authenticationNonceOf s (t, holderDid, nonce) = false := by
    by_contra hc
    rw [Bool.not_eq_false] at hc
    simp [increaseCustodyAllowanceOf, hc] at h
  have hsg : env.sigOk holderAccountId custodianDid holderDid t v nonce =
      true := by
    by_contra hc
    simp [increaseCustodyAllowanceOf, hn, hc] at h
  have hsig : env.isSignerAuthorized callerDid signer = true := by
    by_contra hc
    simp [increaseCustodyAllowanceOf, hn, hsg, hc] at h
  have hsig2 : env.isSignerAuthorized holderDid holderAccountId = true := by
    by_contra hc
    simp [increaseCustodyAllowanceOf, hn, hsg, hsig, hc] at h
  rcases hx : increaseCustodyAllowanceInternal env s t holderDid custodianDid
      v with ⟨err, s1⟩
  cases err with
  | some e =>
    exfalso
    simp [increaseCustodyAllowanceOf, hn, hsg, hsig, hsig2, hx] at h
  | none =>
    have hx1 : (increaseCustodyAllowanceInternal env s t holderDid
        custodianDid v).1 = none := by rw [hx]
    have hinv1 := custody_preserved_increase_internal env s t holderDid
      custodianDid v hinv hx1
    rw [hx] at hinv1
    simp only [increaseCustodyAllowanceOf, hn, hsg, hsig, hsig2, hx,
      not_true, Bool.not_eq_true, ite_false, if_false, ite_true, if_true,
      not_false_iff, Bool.false_eq_true]
    intro k
    exact hinv1 k


/-- C2 (amended): the custody invariant
`balance(ticker, holder) >= TotalCustodyAllowance(ticker, holder)` is
preserved by every successful ordinary transfer, approval-based transfer,
redemption (`redeem`, `redeem_from`), custodian transfer, and both
custody-allowance increases.  The two controller operations are excluded:
they perform no custody check and can break the invariant (see
`custody_invariant_controller_cex`). -/
theorem custody_invariant_preserved (env : AssetEnv) (t : Ticker)
    (op : CustodyOp) (s : AssetState) (hinv : custodyInvariant s)
    (hok : (applyCustodyOp env t op s).1 = none) :
    custodyInvariant (applyCustodyOp env t op s).2 := by
  cases op with
  | cTransfer signer did toDid v =>
    exact custody_preserved_transfer env s signer did t toDid v hinv hok
  | cTransferFrom signer did fromDid toDid v =>
    exact custody_preserved_transferFrom env s signer did t fromDid toDid v
      hinv hok
  | cRedeem signer did v =>
    exact custody_preserved_redeem env s signer did t v hinv hok
  | cRedeemFrom signer did fromDid v =>
    exact custody_preserved_redeemFrom env s signer did t fromDid v hinv hok
  | cTransferByCustodian signer holderDid custodianDid receiverDid v =>
    exact custody_preserved_transferByCustodian env s signer t holderDid
      custodianDid receiverDid v hinv hok
  | cIncrease signer holderDid custodianDid v =>
    exact custody_preserved_increase env s signer t holderDid custodianDid v
      hinv hok
  | cIncreaseOf signer holderDid holderAccountId custodianDid callerDid v
      nonce =>
    exact custody_preserved_increaseOf env s signer t holderDid
      holderAccountId custodianDid callerDid v nonce hinv hok

/-- `custodyState` satisfies the custody invariant. -/
theorem custodyState_invariant : custodyInvariant custodyState := by
  intro k
  by_cases hk : k = (demoTicker, 1)
  · subst hk
    decide
  · have h1 : custodyState.totalCustodyAllowance k = none := by
      show mapInsert _ (demoTicker, 1) 60 k = none
      rw [mapInsert_ne _ _ hk]
      rfl
    rw [totalCustodyAllowanceOf, h1]
    exact Nat.zero_le _

/-- Witness for `custody_invariant_preserved`: an allowance increase of 10 on
`custodyState` (balance 100, aggregate 60) succeeds and keeps the
invariant. -/
theorem custody_invariant_preserved_witness :
    custodyInvariant
      (applyCustodyOp okEnv demoTicker (.cIncrease 9 1 2 10) custodyState).2 :=
  custody_invariant_preserved okEnv demoTicker (.cIncrease 9 1 2 10)
    custodyState custodyState_invariant rfl

/-- C2 counterexample: `controller_transfer` is listed by the claim but does
no custody check — from `custodyState` (balance 100 ≥ aggregate allowance 60)
the owner force-transfers 50 out of the holder, leaving balance 50 < 60. -/
theorem custody_invariant_controller_cex :
    totalCustodyAllowanceOf custodyState (demoTicker, 1) = 60 ∧
    balanceOf custodyState (demoTicker, 1) = 100 ∧
    (controllerTransfer okEnv custodyState 9 1 demoTicker 1 3 50).1 = none ∧
    balanceOf (controllerTransfer okEnv custodyState 9 1 demoTicker 1 3 50).2
      (demoTicker, 1) = 50 ∧
    totalCustodyAllowanceOf
      (controllerTransfer okEnv custodyState 9 1 demoTicker 1 3 50).2
      (demoTicker, 1) = 60 ∧
    ¬ totalCustodyAllowanceOf
        (controllerTransfer okEnv custodyState 9 1 demoTicker 1 3 50).2
        (demoTicker, 1) ≤
      balanceOf (controllerTransfer okEnv custodyState 9 1 demoTicker 1 3
        50).2 (demoTicker, 1) := by
  refine ⟨rfl, rfl, rfl, rfl, rfl, by decide⟩


/-! ## Claim C5: all-or-nothing `batch_issue` -/

theorem updateCheckpoint_issuedInFundingRound (s : AssetState) (t : Ticker)
    (d : IdentityId) (v : Balance) :
    (updateCheckpoint s t d v).issuedInFundingRound =
      s.issuedInFundingRound := by
  unfold updateCheckpoint
  split
  · dsimp only
    split
    · rfl
    · rfl
  · rfl

theorem batchApply_tokens (t : Ticker) :
    ∀ (L : List (IdentityId × Balance × Balance)) (s : AssetState),
      (batchApply t L s).tokens = s.tokens
  | [], s => rfl
  | (d, cur, upd) :: rest, s => by
    unfold batchApply
    rw [batchApply_tokens t rest]
    exact updateCheckpoint_tokens s t d cur

theorem batchApply_issuedInFundingRound (t : Ticker) :
    ∀ (L : List (IdentityId × Balance × Balance)) (s : AssetState),
      (batchApply t L s).issuedInFundingRound = s.issuedInFundingRound
  | [], s => rfl
  | (d, cur, upd) :: rest, s => by
    unfold batchApply
    rw [batchApply_issuedInFundingRound t rest]
    exact updateCheckpoint_issuedInFundingRound s t d cur

theorem batchApply_frame (t : Ticker) :
    ∀ (L : List (IdentityId × Balance × Balance)) (s : AssetState)
      (k : Ticker × IdentityId), (∀ x ∈ L, k ≠ (t, x.1)) →
      (batchApply t L s).balanceOf k = s.balanceOf k
  | [], s, k, _ => rfl
  | (d, cur, upd) :: rest, s, k, h => by
    unfold batchApply
    rw [batchApply_frame t rest _ k (fun x hx => h x (List.mem_cons_of_mem _ hx))]
    show mapInsert _ (t, d) upd k = s.balanceOf k
    rw [mapInsert_ne _ _ (h (d, cur, upd) (List.mem_cons_self _ _)),
      updateCheckpoint_balanceOf]

theorem batchApply_mem (t : Ticker) :
    ∀ (L : List (IdentityId × Balance × Balance)) (s : AssetState),
      (L.map Prod.fst).Nodup →
      ∀ x ∈ L, (batchApply t L s).balanceOf (t, x.1) = some x.2.2
  | [], _, _, x, hx => absurd hx (List.not_mem_nil x)
  | (d, cur, upd) :: rest, s, hnd, x, hx => by
    rw [List.map_cons, List.nodup_cons] at hnd
    rcases List.mem_cons.mp hx with hx | hx
    · subst hx
      unfold batchApply
      rw [batchApply_frame t rest _ (t, d) ?_]
      · exact mapInsert_same _ _ _
      · intro y hy hcontra
        have hdy : d = y.1 := congrArg Prod.snd hcontra
        exact hnd.1 (by
          show d ∈ _
          rw [hdy]
          exact List.mem_map_of_mem Prod.fst hy)
    · unfold batchApply
      exact batchApply_mem t rest _ hnd.2 x hx

theorem checkedSumFrom_ok :
    ∀ (vs : List Balance) (init out : Balance),
      checkedSumFrom init vs = some out → out = init + vs.sum
  | [], init, out, h => by
    simp [checkedSumFrom] at h
    simp [h.symm]
  | v :: rest, init, out, h => by
    unfold checkedSumFrom at h
    rcases hadd : checkedAdd init v with _ | acc
    · rw [hadd] at h
      exact absurd h (by simp)
    · rw [hadd] at h
      have hacc : acc = init + v := by
        unfold checkedAdd at hadd
        split at hadd
        · exact (Option.some_inj.mp hadd).symm
        · exact absurd hadd (by simp)
      have hrec := checkedSumFrom_ok rest acc out h
      subst hacc
      rw [hrec, List.sum_cons]
      rw [Nat.add_assoc]

/-- Success characterisation of the `batch_issue` validation loop: the final
supply is the old supply plus the sum of the amounts, and the recorded
balance pairs are the pre-state balances and their increments, in order. -/
theorem batchChecks_ok (env : AssetEnv) (s : AssetState) (t : Ticker)
    (L : List (IdentityId × Balance)) (supply finalSupply : Balance)
    (pairs : List (Balance × Balance))
    (h : batchChecks env s t L supply = .ok (finalSupply, pairs)) :
    finalSupply = supply + (L.map Prod.snd).sum ∧
    pairs = L.map (fun dv =>
      (balanceOf s (t, dv.1), balanceOf s (t, dv.1) + dv.2)) := by
  induction L generalizing supply finalSupply pairs with
  | nil =>
    simp [batchChecks] at h
    obtain ⟨h1, h2⟩ := h
    subst h2
    constructor
    · simp [← h1]
    · simp
  | cons dv rest ih =>
    obtain ⟨d, v⟩ := dv
    have hgran : checkGranularity s t v = true := by
      by_contra hc
      simp [batchChecks, hc] at h
    rcases hadd : checkedAdd supply v with _ | u
    · exfalso
      simp [batchChecks, hgran, hadd] at h
    have hu : u = supply + v := by
      unfold checkedAdd at hadd
      split at hadd
      · exact (Option.some_inj.mp hadd).symm
      · exact absurd hadd (by simp)
    have hmax : u ≤ MAX_SUPPLY := by
      by_contra hc
      simp [batchChecks, hgran, hadd, hc] at h
    rcases hadd2 : checkedAdd (balanceOf s (t, d)) v with _ | upd
    · exfalso
      simp [batchChecks, hgran, hadd, hmax, hadd2] at h
    have hupd : upd = balanceOf s (t, d) + v := by
      unfold checkedAdd at hadd2
      split at hadd2
      · exact (Option.some_inj.mp hadd2).symm
      · exact absurd hadd2 (by simp)
    rcases hvt : isValidTransfer env s t none (some d) v with e | code
    · exfalso
      simp [batchChecks, hgran, hadd, hmax, hadd2, hvt] at h
    by_cases hcode : code = ERC1400_TRANSFER_SUCCESS
    case neg =>
      exfalso
      simp [batchChecks, hgran, hadd, hmax, hadd2, hvt, hcode] at h
    case pos =>
    rcases hrec : batchChecks env s t rest u with e | fsprs
    · exfalso
      simp [batchChecks, hgran, hadd, hmax, hadd2, hvt, hcode, hrec] at h
    · obtain ⟨fS2, prs⟩ := fsprs
      have hinj : finalSupply = fS2 ∧ pairs = (balanceOf s (t, d), upd) ::
          prs := by
        simp [batchChecks, hgran, hadd, hmax, hadd2, hvt, hcode, hrec] at h
        exact ⟨h.1.symm, h.2.symm⟩
      obtain ⟨hfs, hprs⟩ := hinj
      obtain ⟨ih1, ih2⟩ := ih u fS2 prs hrec
      subst hfs hprs hu hupd
      constructor
      · rw [ih1, List.map_cons, List.sum_cons]
        rw [Nat.add_assoc]
      · rw [ih2, List.map_cons]


/-- Zipping a list with a map over its own zip pairs the elements
positionally. -/
theorem zip_self_map (ds : List IdentityId) (ws : List Balance)
    {β : Type} (g : IdentityId × Balance → β) (h : ds.length = ws.length) :
    ds.zip ((ds.zip ws).map g) = (ds.zip ws).map (fun x => (x.1, g x)) := by
  induction ds generalizing ws with
  | nil => simp
  | cons d ds ih =>
    cases ws with
    | nil => simp at h
    | cons w ws =>
      simp only [List.zip_cons_cons, List.map_cons]
      rw [ih ws (by simpa using h)]

/-- Every error path of `batch_issue` returns the entry state untouched: all
fallible validation precedes the first storage write. -/
theorem batchIssue_error (env : AssetEnv) (s : AssetState) (signer : Nat)
    (did : IdentityId) (t : Ticker) (dids : List IdentityId)
    (vs : List Balance) (e : String) (s2 : AssetState)
    (h : batchIssue env s signer did t dids vs = (some e, s2)) : s2 = s := by
  unfold batchIssue at h
  split at h
  · exact (congrArg Prod.snd h).symm
  · split at h
    · exact (congrArg Prod.snd h).symm
    · split at h
      · exact (congrArg Prod.snd h).symm
      · split at h
        · exact (congrArg Prod.snd h).symm
        · try dsimp only at h
          split at h
          · exact (congrArg Prod.snd h).symm
          · try dsimp only at h
            split at h
            · exact (congrArg Prod.snd h).symm
            · exact absurd (congrArg Prod.fst h) (by simp)

/-- C5: `batch_issue` is all-or-nothing.  On any failure no state mutation is
visible.  On success (for a duplicate-free recipient list) every recipient's
balance grows by the matching amount, the total supply grows by the sum of the
amounts, and the funding-round issuance counter grows by the same sum. -/
theorem batch_issue_atomic (env : AssetEnv) (s : AssetState) (signer : Nat)
    (did : IdentityId) (t : Ticker) (dids : List IdentityId)
    (vs : List Balance) :
    ((batchIssue env s signer did t dids vs).1 ≠ none →
      (batchIssue env s signer did t dids vs).2 = s) ∧
    ((batchIssue env s signer did t dids vs).1 = none → dids.Nodup →
      (∀ dv ∈ dids.zip vs,
        balanceOf (batchIssue env s signer did t dids vs).2 (t, dv.1) =
          balanceOf s (t, dv.1) + dv.2) ∧
      (tokenDetails (batchIssue env s signer did t dids vs).2 t).totalSupply =
        (tokenDetails s t).totalSupply + vs.sum ∧
      issuedInFundingRoundOf (batchIssue env s signer did t dids vs).2
          (t, fundingRoundOf s t) =
        issuedInFundingRoundOf s (t, fundingRoundOf s t) + vs.sum) := by
  constructor
  · intro hne
    rcases hres : batchIssue env s signer did t dids vs with ⟨err, s2⟩
    rw [hres] at hne
    cases err with
    | none => exact absurd rfl hne
    | some e => exact batchIssue_error env s signer did t dids vs e s2 hres
  · intro hok hnd
    have hsig : env.isSignerAuthorized did signer = true := by
      by_contra hc
      simp [batchIssue, hc] at hok
    have hlen0 : ¬ dids.length = 0 := by
      by_contra hc
      simp [batchIssue, hsig, hc] at hok
    have hleq : dids.length = vs.length := by
      by_contra hc
      simp [batchIssue, hsig, hlen0, hc] at hok
    have hdne : ¬ dids = [] := by
      intro hc
      subst hc
      exact hlen0 rfl
    have hvne : ¬ vs = [] := by
      intro hc
      subst hc
      rw [List.length_nil] at hleq
      exact hlen0 hleq
    have howner : isOwner s t did = true := by
      by_contra hc
      simp [batchIssue, hsig, hlen0, hleq, hdne, hvne, hc] at hok
    rcases hbc : batchChecks env s t (dids.zip vs)
        (tokenDetails s t).totalSupply with e | fsprs
    · exfalso
      simp [batchIssue, hsig, hlen0, hleq, hdne, hvne, howner, hbc] at hok
    obtain ⟨finalSupply, pairs⟩ := fsprs
    rcases hsum : checkedSumFrom
        (issuedInFundingRoundOf s (t, fundingRoundOf s t)) vs
        with _ | issued
    · exfalso
      simp [batchIssue, hsig, hlen0, hleq, hdne, hvne, howner, hbc,
        hsum] at hok
    obtain ⟨hfs, hpairs⟩ :=
      batchChecks_ok env s t (dids.zip vs) (tokenDetails s t).totalSupply
        finalSupply pairs hbc
    have hdidsEq : (dids.zip vs).map Prod.fst = dids :=
      List.map_fst_zip dids vs (le_of_eq hleq)
    have hvsEq : (dids.zip vs).map Prod.snd = vs :=
      List.map_snd_zip dids vs (ge_of_eq hleq)
    have hzipPairs : dids.zip pairs =
        (dids.zip vs).map (fun x =>
          (x.1, balanceOf s (t, x.1), balanceOf s (t, x.1) + x.2)) := by
      rw [hpairs]
      exact zip_self_map dids vs _ hleq
    have hres : batchIssue env s signer did t dids vs =
        (none,
          { batchApply t (dids.zip pairs)
              { s with
                issuedInFundingRound :=
                  mapInsert s.issuedInFundingRound (t, fundingRoundOf s t)
                    issued } with
            tokens :=
              mapInsert
                (batchApply t (dids.zip pairs)
                  { s with
                    issuedInFundingRound :=
                      mapInsert s.issuedInFundingRound (t, fundingRoundOf s t)
                        issued }).tokens t
                { tokenDetails s t with totalSupply := finalSupply } }) := by
      unfold batchIssue
      rw [if_neg (by simp [hsig]), if_neg hlen0, if_neg (not_not_intro hleq),
        if_neg (by simp [howner])]
      dsimp only
      rw [hbc]
      dsimp only
      rw [hsum]
    refine ⟨?_, ?_, ?_⟩
    · intro dv hdv
      rw [hres]
      have hmem :
          ((dv.1, balanceOf s (t, dv.1), balanceOf s (t, dv.1) + dv.2) :
            IdentityId × Balance × Balance) ∈
          (dids.zip vs).map (fun x =>
            (x.1, balanceOf s (t, x.1), balanceOf s (t, x.1) + x.2)) := by
        exact List.mem_map_of_mem _ hdv
      have hndM : (((dids.zip vs).map (fun x =>
          (x.1, balanceOf s (t, x.1), balanceOf s (t, x.1) + x.2))).map
            Prod.fst).Nodup := by
        rw [List.map_map]
        have : (Prod.fst ∘ fun x : IdentityId × Balance =>
            ((x.1, balanceOf s (t, x.1), balanceOf s (t, x.1) + x.2) :
              IdentityId × Balance × Balance)) = Prod.fst := by
          funext x
          rfl
        rw [this, hdidsEq]
        exact hnd
      have := batchApply_mem t
        ((dids.zip vs).map (fun x =>
          (x.1, balanceOf s (t, x.1), balanceOf s (t, x.1) + x.2)))
        { s with
          issuedInFundingRound :=
            mapInsert s.issuedInFundingRound (t, fundingRoundOf s t) issued }
        hndM _ hmem
      rw [balanceOf]
      show ((batchApply t (dids.zip pairs) _).balanceOf (t, dv.1)).getD 0 = _
      rw [hzipPairs, this]
      rfl
    · rw [hres]
      show ((mapInsert _ t { tokenDetails s t with totalSupply :=
        finalSupply } t).getD SecurityToken.default).totalSupply = _
      rw [mapInsert_same]
      show finalSupply = _
      rw [hfs, hvsEq]
    · rw [hres]
      show ((batchApply t (dids.zip pairs) _).issuedInFundingRound
        (t, fundingRoundOf s t)).getD 0 = _
      rw [batchApply_issuedInFundingRound]
      show ((mapInsert s.issuedInFundingRound (t, fundingRoundOf s t) issued
        (t, fundingRoundOf s t))).getD 0 = _
      rw [mapInsert_same]
      show issued = _
      exact checkedSumFrom_ok vs _ issued hsum

/-- Witness for `batch_issue_atomic`: issuing 1,000,000 to DID 2 and
2,000,000 to DID 3 of the 1,000,000-supply token takes the supply to
4,000,000. -/
theorem batch_issue_atomic_witness :
    (tokenDetails (batchIssue okEnv conservationState 9 1 demoTicker [2, 3]
      [1000000, 2000000]).2 demoTicker).totalSupply = 4000000 := by
  have h := (batch_issue_atomic okEnv conservationState 9 1 demoTicker [2, 3]
    [1000000, 2000000]).2 rfl (by decide)
  rw [h.2.1]
  rfl


/-! ## Claims C4 and C9: `get_balance_at` and `find_ceiling` -/

theorem sorted_get?_lt (arr : List Nat) (hs : List.Pairwise (· < ·) arr)
    {i j a b : Nat} (hij : i < j) (ha : arr.get? i = some a)
    (hb : arr.get? j = some b) : a < b := by
  rw [List.get?_eq_some] at ha hb
  obtain ⟨hi, rfl⟩ := ha
  obtain ⟨hj, rfl⟩ := hb
  exact List.pairwise_iff_get.mp hs ⟨i, hi⟩ ⟨j, hj⟩ hij

theorem sorted_get?_le (arr : List Nat) (hs : List.Pairwise (· < ·) arr)
    {i j a b : Nat} (hij : i ≤ j) (ha : arr.get? i = some a)
    (hb : arr.get? j = some b) : a ≤ b := by
  rcases Nat.lt_or_ge i j with h | h
  · exact Nat.le_of_lt (sorted_get?_lt arr hs h ha hb)
  · have hji : i = j := Nat.le_antisymm hij h
    subst hji
    rw [ha] at hb
    exact Nat.le_of_eq (Option.some_inj.mp hb)

/-- `c` is the least element of `l` that is `≥ key`. -/
def IsCeiling (l : List Nat) (key c : Nat) : Prop :=
  c ∈ l ∧ key ≤ c ∧ ∀ x ∈ l, key ≤ x → c ≤ x

/-- Correctness and in-bounds safety of the `find_ceiling` binary-search loop.
The preconditions are the ones noted in the source comment: strictly sorted
array, a live search window, and `key` at most the window's last element; the
window's left edge sits strictly below `key` unless it is 0. -/
theorem findCeilingAux_spec (arr : List Nat) (key : Nat)
    (hs : List.Pairwise (· < ·) arr) :
    ∀ (fuel start stop : Nat), start < stop → stop ≤ arr.length →
      stop - start ≤ fuel →
      (∀ a, arr.get? (stop - 1) = some a → key ≤ a) →
      (start = 0 ∨ ∀ a, arr.get? (start - 1) = some a → a < key) →
      ∃ c, findCeilingAux arr key fuel start stop = some c ∧
        IsCeiling arr key c := by
  intro fuel
  induction fuel with
  | zero =>
    intro start stop h1 _ h3 _ _
    omega
  | succ f ih =>
    intro start stop hss hstop hfuel hlast hprev
    by_cases hmid0 : (start + stop) / 2 = 0
    · have hstart0 : start = 0 := by omega
      have hstop1 : stop = 1 := by omega
      have hlen : 0 < arr.length := by omega
      obtain ⟨a, ha⟩ : ∃ a, arr.get? 0 = some a :=
        ⟨arr.get ⟨0, hlen⟩, List.get?_eq_get hlen⟩
      refine ⟨a, ?_, ?_⟩
      · unfold findCeilingAux
        rw [if_neg (by omega)]
        exact ha
      · refine ⟨List.get?_mem ha, ?_, ?_⟩
        · apply hlast
          rw [hstop1]
          exact ha
        · intro x hx _
          obtain ⟨⟨i, hi⟩, rfl⟩ := List.mem_iff_get.mp hx
          exact sorted_get?_le arr hs (Nat.zero_le i) ha (List.get?_eq_get hi)
    · have hmidlt : (start + stop) / 2 < stop := by omega
      have hmidlen : (start + stop) / 2 < arr.length := by omega
      have hmid1len : (start + stop) / 2 - 1 < arr.length := by omega
      obtain ⟨b, hb⟩ : ∃ b, arr.get? ((start + stop) / 2) = some b :=
        ⟨arr.get ⟨_, hmidlen⟩, List.get?_eq_get hmidlen⟩
      obtain ⟨a, ha⟩ : ∃ a, arr.get? ((start + stop) / 2 - 1) = some a :=
        ⟨arr.get ⟨_, hmid1len⟩, List.get?_eq_get hmid1len⟩
      have hstep : findCeilingAux arr key (f + 1) start stop =
          if key > a ∧ key ≤ b then some b
          else if key > b then findCeilingAux arr key f ((start + stop) / 2 + 1) stop
          else findCeilingAux arr key f start ((start + stop) / 2) := by
        conv =>
          lhs
          rw [findCeilingAux]
        rw [if_pos ⟨hmid0, Nat.le_of_lt hss⟩]
        rw [ha, hb]
      by_cases hcase1 : key > a ∧ key ≤ b
      · refine ⟨b, ?_, ?_⟩
        · rw [hstep, if_pos hcase1]
        · refine ⟨List.get?_mem hb, hcase1.2, ?_⟩
          intro x hx hkx
          obtain ⟨⟨i, hi⟩, rfl⟩ := List.mem_iff_get.mp hx
          have hxi : arr.get? i = some (arr.get ⟨i, hi⟩) := List.get?_eq_get hi
          by_cases hilt : i < (start + stop) / 2
          · exfalso
            have hia : arr.get ⟨i, hi⟩ ≤ a :=
              sorted_get?_le arr hs (by omega) hxi ha
            omega
          · exact sorted_get?_le arr hs (by omega) hb hxi
      · by_cases hcase2 : key > b
        · -- recurse right: start' = mid + 1
          have hmidstop : (start + stop) / 2 < stop - 1 := by
            by_contra hcon
            have heq : (start + stop) / 2 = stop - 1 := by omega
            obtain ⟨w, hw⟩ : ∃ w, arr.get? (stop - 1) = some w :=
              ⟨arr.get ⟨stop - 1, by omega⟩, List.get?_eq_get (by omega)⟩
            have := hlast w hw
            rw [heq] at hb
            rw [hw] at hb
            have : b = w := Option.some_inj.mp hb.symm
            omega
          obtain ⟨c, hc, hceil⟩ := ih ((start + stop) / 2 + 1) stop
            (by omega) hstop (by omega) hlast
            (Or.inr (by
              intro w hw
              have : b = w := by
                rw [Nat.add_sub_cancel] at hw
                rw [hw] at hb
                exact (Option.some_inj.mp hb).symm
              omega))
          refine ⟨c, ?_, hceil⟩
          rw [hstep, if_neg hcase1, if_pos hcase2]
          exact hc
        · -- recurse left: stop' = mid; here key ≤ a
          have hka : key ≤ a := by
            rcases Nat.lt_or_ge a key with h | h
            · exfalso
              exact hcase1 ⟨h, Nat.le_of_not_lt hcase2⟩
            · exact h
          have hstartmid : start < (start + stop) / 2 := by
            by_contra hcon
            have heq : start = (start + stop) / 2 := by omega
            rcases hprev with h0 | hp
            · omega
            · have := hp a (by rw [heq]; exact ha)
              omega
          obtain ⟨c, hc, hceil⟩ := ih start ((start + stop) / 2)
            hstartmid (by omega) (by omega)
            (by
              intro w hw
              rw [hw] at ha
              have : a = w := (Option.some_inj.mp ha).symm
              omega)
            hprev
          refine ⟨c, ?_, hceil⟩
          rw [hstep, if_neg hcase1, if_neg hcase2]
          exact hc

/-- `find_ceiling` on a strictly sorted non-empty array with
`key ≤` its last element terminates, never reads out of bounds, and returns
the least element `≥ key`. -/
theorem find_ceiling_spec (arr : List Nat) (key : Nat)
    (hs : List.Pairwise (· < ·) arr) (hne : arr ≠ [])
    (hlast : key ≤ arr.getLast hne) :
    ∃ c, find_ceiling arr key = some c ∧ IsCeiling arr key c := by
  have hlen : 0 < arr.length := List.length_pos.mpr hne
  have hgl : arr.get? (arr.length - 1) = some (arr.getLast hne) := by
    rw [List.getLast_eq_get]
    exact List.get?_eq_get (by omega)
  exact findCeilingAux_spec arr key hs (arr.length + 1) 0 arr.length hlen
    (le_refl _) (by omega)
    (by
      intro a ha
      rw [hgl] at ha
      rw [← Option.some_inj.mp ha]
      exact hlast)
    (Or.inl rfl)


theorem nat_min?_eq_some_iff {a : Nat} {xs : List Nat} :
    xs.min? = some a ↔ a ∈ xs ∧ ∀ b ∈ xs, a ≤ b :=
  List.min?_eq_some_iff (fun x => Nat.le_refl x) (fun x y => min_choice x y)
    (fun _ _ _ => le_min_iff)

/-- C4 reference semantics, written from the spec's words: return the current
balance when no checkpoints exist, `at` is 0 or beyond the latest checkpoint,
or the identity has no recorded list or `at` exceeds its last entry;
otherwise return the snapshot at the smallest recorded checkpoint id `≥ at`
("ceiling", here as the minimum of the filtered list). -/
def get_balance_at_ref (s : AssetState) (t : Ticker) (did : IdentityId)
    (at_ : Nat) : Balance :=
  if (s.totalCheckpoints t).isNone ∨ at_ = 0 ∨
      totalCheckpointsOf s t < at_ then
    balanceOf s (t, did)
  else
    match s.userCheckpoints (t, did) with
    | none => balanceOf s (t, did)
    | some l =>
      if l.getLast?.getD 0 < at_ then balanceOf s (t, did)
      else
        match (l.filter (fun c => at_ ≤ c)).min? with
        | some c => balanceAtCheckpoint s (t, did, c)
        | none => balanceOf s (t, did)

/-- C4: on any state whose recorded checkpoint-id lists are strictly
increasing (the invariant maintained by `_update_checkpoint` and preserved
by every asset-module operation), `get_balance_at` terminates
without out-of-bounds reads and returns exactly the reference semantics
written from the spec: current balance on the three fall-through conditions,
otherwise the snapshot at the smallest recorded checkpoint id `≥ at`. -/
theorem get_balance_at_correct (s : AssetState) (t : Ticker)
    (did : IdentityId) (at_ : Nat)
    (hsorted : ∀ l, s.userCheckpoints (t, did) = some l →
      List.Pairwise (· < ·) l) :
    get_balance_at s t did at_ = some (get_balance_at_ref s t did at_) := by
  unfold get_balance_at get_balance_at_ref
  by_cases h1 : (s.totalCheckpoints t).isNone = true ∨ at_ = 0 ∨
      totalCheckpointsOf s t < at_
  · rw [if_pos h1, if_pos h1]
  · rw [if_neg h1, if_neg h1]
    rcases hu : s.userCheckpoints (t, did) with _ | l
    · rw [if_neg (by simp [hu])]
    · rw [if_pos (by simp [hu])]
      dsimp only
      have hl : userCheckpointsOf s (t, did) = l := by
        rw [userCheckpointsOf, hu]
        rfl
      rw [hl]
      by_cases h2 : l.getLast?.getD 0 < at_
      · rw [if_pos h2, if_pos h2]
      · rw [if_neg h2, if_neg h2]
        have hne : l ≠ [] := by
          intro hcon
          subst hcon
          have hat0 : ¬ at_ = 0 := by
            intro hcon2
            exact h1 (Or.inr (Or.inl hcon2))
          simp at h2
          omega
        have hlast : at_ ≤ l.getLast hne := by
          rw [List.getLast?_eq_getLast l hne] at h2
          simpa using h2
        obtain ⟨c, hc, hmem, hkc, hmin⟩ :=
          find_ceiling_spec l at_ (hsorted l hu) hne hlast
        rw [hc]
        have hmineq : (l.filter (fun x => at_ ≤ x)).min? = some c := by
          rw [nat_min?_eq_some_iff]
          constructor
          · rw [List.mem_filter]
            exact ⟨hmem, by simpa using hkc⟩
          · intro b hb
            rw [List.mem_filter] at hb
            exact hmin b hb.1 (by simpa using hb.2)
        rw [hmineq]
        rfl


/-- The checkpoint-data invariant maintained by the asset module: every
recorded per-identity checkpoint-id list is strictly increasing, bounded by
the ticker's checkpoint counter, and every listed id has a recorded balance
snapshot. -/
def checkpointInvariant (s : AssetState) : Prop :=
  ∀ (t : Ticker) (d : IdentityId) (l : List Nat),
    s.userCheckpoints (t, d) = some l →
    List.Pairwise (· < ·) l ∧
    ∀ c ∈ l, c ≤ totalCheckpointsOf s t ∧
      (s.checkpointBalance (t, d, c)).isSome

theorem checkpointInvariant_of_cpEq (s s' : AssetState)
    (hu : s'.userCheckpoints = s.userCheckpoints)
    (hb : s'.checkpointBalance = s.checkpointBalance)
    (ht : s'.totalCheckpoints = s.totalCheckpoints)
    (hinv : checkpointInvariant s) : checkpointInvariant s' := by
  intro t d l hl
  rw [hu] at hl
  obtain ⟨h1, h2⟩ := hinv t d l hl
  refine ⟨h1, ?_⟩
  intro c hc
  rw [totalCheckpointsOf, ht, hb]
  exact h2 c hc

theorem checkpointInvariant_updateCheckpoint (s : AssetState) (t : Ticker)
    (d : IdentityId) (b : Balance) (hinv : checkpointInvariant s) :
    checkpointInvariant (updateCheckpoint s t d b) := by
  unfold updateCheckpoint
  split
  case isFalse => exact hinv
  case isTrue htc =>
    dsimp only
    split
    case isTrue => exact hinv
    case isFalse hcb =>
      intro t' d' l' hl'
      have hOld : List.Pairwise (· < ·) (userCheckpointsOf s (t, d)) ∧
          ∀ c ∈ userCheckpointsOf s (t, d), c ≤ totalCheckpointsOf s t ∧
            (s.checkpointBalance (t, d, c)).isSome := by
        rcases ho : s.userCheckpoints (t, d) with _ | lo
        · rw [userCheckpointsOf, ho]
          exact ⟨List.Pairwise.nil, by simp⟩
        · have := hinv t d lo ho
          rw [userCheckpointsOf, ho]
          exact this
      have hlt : ∀ c ∈ userCheckpointsOf s (t, d),
          c < totalCheckpointsOf s t := by
        intro c hc
        rcases Nat.lt_or_eq_of_le (hOld.2 c hc).1 with h | h
        · exact h
        · exfalso
          apply hcb
          rw [← h]
          exact (hOld.2 c hc).2
      by_cases hk : ((t', d') : Ticker × IdentityId) = (t, d)
      · have ht' : t = t' := (congrArg Prod.fst hk).symm
        have hd' : d = d' := (congrArg Prod.snd hk).symm
        subst ht'
        subst hd'
        have hl'2 : some (userCheckpointsOf s (t, d) ++
            [totalCheckpointsOf s t]) = some l' := by
          rw [← mapInsert_same s.userCheckpoints (t, d)
            (userCheckpointsOf s (t, d) ++ [totalCheckpointsOf s t])]
          exact hl'
        have hl'3 := (Option.some_inj.mp hl'2).symm
        subst hl'3
        constructor
        · rw [List.pairwise_append]
          refine ⟨hOld.1, List.pairwise_singleton _ _, ?_⟩
          intro x hx y hy
          rw [List.mem_singleton] at hy
          subst hy
          exact hlt x hx
        · intro c hc
          rw [List.mem_append, List.mem_singleton] at hc
          constructor
          · show c ≤ (s.totalCheckpoints t).getD 0
            rcases hc with hc | hc
            · exact (hOld.2 c hc).1
            · exact le_of_eq hc
          · show (mapInsert s.checkpointBalance (t, d,
              totalCheckpointsOf s t) b (t, d, c)).isSome = true
            rcases hc with hc | hc
            · rw [mapInsert_ne _ _ (by
                intro hcon
                have : c = totalCheckpointsOf s t :=
                  congrArg (fun x => x.2.2) hcon
                exact absurd this (Nat.ne_of_lt (hlt c hc)))]
              exact (hOld.2 c hc).2
            · subst hc
              rw [mapInsert_same]
              rfl
      · have hl'2 : s.userCheckpoints (t', d') = some l' := by
          rw [← mapInsert_ne s.userCheckpoints
            (userCheckpointsOf s (t, d) ++ [totalCheckpointsOf s t]) hk]
          exact hl'
        obtain ⟨h1, h2⟩ := hinv t' d' l' hl'2
        refine ⟨h1, ?_⟩
        intro c hc
        refine ⟨(h2 c hc).1, ?_⟩
        show (mapInsert s.checkpointBalance (t, d, totalCheckpointsOf s t) b
          (t', d', c)).isSome = true
        rw [mapInsert_ne _ _ (by
          intro hcon
          exact hk (by
            have h1' : t' = t := congrArg (fun x => x.1) hcon
            have h2' : d' = d := congrArg (fun x => x.2.1) hcon
            rw [h1', h2']))]
        exact (h2 c hc).2

theorem checkpointInvariant_createCheckpointInternal (s : AssetState)
    (t : Ticker) (hinv : checkpointInvariant s) :
    checkpointInvariant (createCheckpointInternal s t).2 := by
  unfold createCheckpointInternal
  split
  case isTrue htc =>
    rcases hcs : checkedSucc64 (totalCheckpointsOf s t) with _ | n
    · exact hinv
    · have hn : totalCheckpointsOf s t ≤ n := by
        unfold checkedSucc64 at hcs
        split at hcs
        · have := Option.some_inj.mp hcs
          omega
        · exact absurd hcs (by simp)
      intro t' d' l' hl'
      obtain ⟨h1, h2⟩ := hinv t' d' l' hl'
      refine ⟨h1, ?_⟩
      intro c hc
      refine ⟨?_, (h2 c hc).2⟩
      show c ≤ (mapInsert s.totalCheckpoints t n t').getD 0
      by_cases hk : t' = t
      · have hk2 : t = t' := hk.symm
        subst hk2
        rw [mapInsert_same]
        exact le_trans (h2 c hc).1 hn
      · rw [mapInsert_ne _ _ hk]
        exact (h2 c hc).1
  case isFalse htc =>
    intro t' d' l' hl'
    obtain ⟨h1, h2⟩ := hinv t' d' l' hl'
    refine ⟨h1, ?_⟩
    intro c hc
    refine ⟨?_, (h2 c hc).2⟩
    show c ≤ (mapInsert s.totalCheckpoints t 1 t').getD 0
    by_cases hk : t' = t
    · have hk2 : t = t' := hk.symm
      subst hk2
      rw [mapInsert_same]
      have : totalCheckpointsOf s t = 0 := by
        rw [totalCheckpointsOf]
        rcases ho : s.totalCheckpoints t with _ | n2
        · rfl
        · exfalso
          rw [ho] at htc
          exact htc (by simp)
      have hle := (h2 c hc).1
      rw [this] at hle
      omega
    · rw [mapInsert_ne _ _ hk]
      exact (h2 c hc).1


theorem checkpointInvariant_xfer (s : AssetState) (t : Ticker)
    (fromDid toDid : IdentityId) (v : Balance)
    (hinv : checkpointInvariant s) :
    checkpointInvariant (xfer s t fromDid toDid v).2 := by
  unfold xfer
  dsimp only
  repeat' split
  all_goals
    first
      | exact hinv
      | exact checkpointInvariant_of_cpEq _ _ rfl rfl rfl
          (checkpointInvariant_updateCheckpoint _ t toDid _
            (checkpointInvariant_updateCheckpoint s t fromDid _ hinv))

theorem checkpointInvariant_mint (env : AssetEnv) (s : AssetState)
    (t : Ticker) (toDid : IdentityId) (v : Balance)
    (hinv : checkpointInvariant s) :
    checkpointInvariant (mint env s t toDid v).2 := by
  unfold mint
  dsimp only
  repeat' split
  all_goals
    first
      | exact hinv
      | exact checkpointInvariant_of_cpEq _ _ rfl rfl rfl
          (checkpointInvariant_updateCheckpoint s t toDid _ hinv)

theorem checkpointInvariant_batchApply (t : Ticker) :
    ∀ (L : List (IdentityId × Balance × Balance)) (s : AssetState),
      checkpointInvariant s → checkpointInvariant (batchApply t L s)
  | [], _, h => h
  | (d, cur, upd) :: rest, s, h => by
    unfold batchApply
    exact checkpointInvariant_batchApply t rest _
      (checkpointInvariant_of_cpEq _ _ rfl rfl rfl
        (checkpointInvariant_updateCheckpoint s t d cur h))

theorem checkpointInvariant_increaseInternal (env : AssetEnv)
    (s : AssetState) (t : Ticker) (holderDid custodianDid : IdentityId)
    (v : Balance) (hinv : checkpointInvariant s) :
    checkpointInvariant
      (increaseCustodyAllowanceInternal env s t holderDid custodianDid
        v).2 := by
  unfold increaseCustodyAllowanceInternal
  dsimp only
  repeat' split
  all_goals
    first
      | exact hinv
      | exact checkpointInvariant_of_cpEq _ _ rfl rfl rfl hinv

/-- The state-mutating asset-module operations, over a fixed ticker. -/
inductive AssetOp where
  | aTransfer (signer : Nat) (did toDid : IdentityId) (v : Balance)
  | aControllerTransfer (signer : Nat) (did fromDid toDid : IdentityId)
      (v : Balance)
  | aTransferFrom (signer : Nat) (did fromDid toDid : IdentityId)
      (v : Balance)
  | aCreateCheckpoint (signer : Nat) (did : IdentityId)
  | aIssue (signer : Nat) (did toDid : IdentityId) (v : Balance)
  | aBatchIssue (signer : Nat) (did : IdentityId) (dids : List IdentityId)
      (vs : List Balance)
  | aRedeem (signer : Nat) (did : IdentityId) (v : Balance)
  | aRedeemFrom (signer : Nat) (did fromDid : IdentityId) (v : Balance)
  | aControllerRedeem (signer : Nat) (did holderDid : IdentityId)
      (v : Balance)
  | aMakeDivisible (signer : Nat) (did : IdentityId)
  | aApprove (signer : Nat) (did spenderDid : IdentityId) (v : Balance)
  | aIncrease (signer : Nat) (holderDid custodianDid : IdentityId)
      (v : Balance)
  | aIncreaseOf (signer : Nat) (holderDid : IdentityId)
      (holderAccountId : Nat) (custodianDid callerDid : IdentityId)
      (v : Balance) (nonce : Nat)
  | aTransferByCustodian (signer : Nat)
      (holderDid custodianDid receiverDid : IdentityId) (v : Balance)
  | aSetFundingRound (signer : Nat) (did : IdentityId) (name : List Nat)
  | aRenameToken (signer : Nat) (name : List Nat)
  | aFreeze (signer : Nat)
  | aUnfreeze (signer : Nat)
  | aCreateToken (signer : Nat) (did : IdentityId) (name : List Nat)
      (totalSupply : Balance) (divisible : Bool) (assetType : Nat)
      (identifierList : List (Nat × List Nat))
      (fundingRound : Option (List Nat))

/-- Dispatch of `AssetOp` to the corresponding operation. -/
def applyAssetOp (env : AssetEnv) (t : Ticker) (op : AssetOp)
    (s : AssetState) : Option String × AssetState :=
  match op with
  | .aTransfer signer did toDid v => transfer env s signer did t toDid v
  | .aControllerTransfer signer did fromDid toDid v =>
    controllerTransfer env s signer did t fromDid toDid v
  | .aTransferFrom signer did fromDid toDid v =>
    transferFrom env s signer did t fromDid toDid v
  | .aCreateCheckpoint signer did => createCheckpoint env s signer did t
  | .aIssue signer did toDid v => issue env s signer did t toDid v
  | .aBatchIssue signer did dids vs => batchIssue env s signer did t dids vs
  | .aRedeem signer did v => redeem env s signer did t v
  | .aRedeemFrom signer did fromDid v =>
    redeemFrom env s signer did t fromDid v
  | .aControllerRedeem signer did holderDid v =>
    controllerRedeem env s signer did t holderDid v
  | .aMakeDivisible signer did => makeDivisible env s signer did t
  | .aApprove signer did spenderDid v => approve env s signer did t spenderDid v
  | .aIncrease signer holderDid custodianDid v =>
    increaseCustodyAllowance env s signer t holderDid custodianDid v
  | .aIncreaseOf signer holderDid holderAccountId custodianDid callerDid v
      nonce =>
    increaseCustodyAllowanceOf env s signer t holderDid holderAccountId
      custodianDid callerDid v nonce
  | .aTransferByCustodian signer holderDid custodianDid receiverDid v =>
    transferByCustodian env s signer t holderDid custodianDid receiverDid v
  | .aSetFundingRound signer did name => setFundingRound env s signer did t name
  | .aRenameToken signer name => renameToken env s signer t name
  | .aFreeze signer => freeze env s signer t
  | .aUnfreeze signer => unfreeze env s signer t
  | .aCreateToken signer did name totalSupply divisible assetType
      identifierList fundingRound =>
    createToken env s signer did name t totalSupply divisible assetType
      identifierList fundingRound

theorem checkpointInvariant_createTokenWrites (env : AssetEnv)
    (t : Ticker) (did : IdentityId) (name : List Nat)
    (totalSupply : Balance) (divisible : Bool) (assetType : Nat)
    (identifierList : List (Nat × List Nat))
    (fundingRound : Option (List Nat)) (s1 : AssetState)
    (hinv : checkpointInvariant s1) :
    checkpointInvariant
      (createTokenWrites env t did name totalSupply divisible assetType
        identifierList fundingRound s1) := by
  have hfold : ∀ (il : List (Nat × List Nat)) (s0 : AssetState),
      checkpointInvariant s0 →
      checkpointInvariant
        (il.foldl (fun acc kv =>
          { acc with
            identifiers := mapInsert acc.identifiers (t, kv.1) kv.2 }) s0) := by
    intro il
    induction il with
    | nil => intro s0 h0; exact h0
    | cons kv rest ih =>
      intro s0 h0
      exact ih _ (checkpointInvariant_of_cpEq _ _ rfl rfl rfl h0)
  unfold createTokenWrites
  rcases fundingRound with _ | round
  · exact hfold identifierList _
      (checkpointInvariant_of_cpEq _ _ rfl rfl rfl
        (checkpointInvariant_of_cpEq _ _ rfl rfl rfl hinv))
  · exact checkpointInvariant_of_cpEq _ _ rfl rfl rfl
      (hfold identifierList _
        (checkpointInvariant_of_cpEq _ _ rfl rfl rfl
          (checkpointInvariant_of_cpEq _ _ rfl rfl rfl hinv)))

theorem checkpointInvariant_createToken (env : AssetEnv) (s : AssetState)
    (signer : Nat) (did : IdentityId) (name : List Nat) (t : Ticker)
    (totalSupply : Balance) (divisible : Bool) (assetType : Nat)
    (identifierList : List (Nat × List Nat))
    (fundingRound : Option (List Nat)) (hinv : checkpointInvariant s) :
    checkpointInvariant
      (createToken env s signer did name t totalSupply divisible assetType
        identifierList fundingRound).2 := by
  rw [createToken]
  by_cases c1 : ¬ env.isSignerAuthorized did signer
  · rw [if_pos c1]; exact hinv
  rw [if_neg c1]
  by_cases c2 : (s.tokens t).isSome
  · rw [if_pos c2]; exact hinv
  rw [if_neg c2]
  by_cases c3 : ¬ tickerLen t ≤ s.maxTickerLength
  · rw [if_pos c3]; exact hinv
  rw [if_neg c3]
  by_cases c4 : ¬ name.length ≤ 64
  · rw [if_pos c4]; exact hinv
  rw [if_neg c4]
  dsimp only
  by_cases c5 : isTickerAvailableOrRegisteredTo env s t did = .RegisteredByOther
  · rw [if_pos c5]; exact hinv
  rw [if_neg c5]
  by_cases c6 : ¬ divisible ∧ ¬ totalSupply % ONE_UNIT = 0
  · rw [if_pos c6]; exact hinv
  rw [if_neg c6]
  by_cases c7 : ¬ totalSupply ≤ MAX_SUPPLY
  · rw [if_pos c7]; exact hinv
  rw [if_neg c7]
  by_cases c8 : ¬ env.feeOk
  · rw [if_pos c8]; exact hinv
  rw [if_neg c8]
  by_cases c9 : ¬ env.registerAssetDidOk
  · rw [if_pos c9]; exact hinv
  rw [if_neg c9]
  exact checkpointInvariant_createTokenWrites env t did name totalSupply
    divisible assetType identifierList fundingRound _
    (by
      split
      · exact checkpointInvariant_of_cpEq _ _ rfl rfl rfl hinv
      · exact checkpointInvariant_of_cpEq _ _ rfl rfl rfl hinv)

theorem checkpointInvariant_transfer (env : AssetEnv) (s : AssetState)
    (signer : Nat) (did : IdentityId) (t : Ticker) (toDid : IdentityId)
    (v : Balance) (hinv : checkpointInvariant s) :
    checkpointInvariant (transfer env s signer did t toDid v).2 := by
  unfold transfer
  repeat' split
  all_goals
    first
      | exact hinv
      | exact checkpointInvariant_xfer s t did toDid v hinv

theorem checkpointInvariant_controllerTransfer (env : AssetEnv)
    (s : AssetState) (signer : Nat) (did : IdentityId) (t : Ticker)
    (fromDid toDid : IdentityId) (v : Balance)
    (hinv : checkpointInvariant s) :
    checkpointInvariant
      (controllerTransfer env s signer did t fromDid toDid v).2 := by
  unfold controllerTransfer
  repeat' split
  all_goals
    first
      | exact hinv
      | exact checkpointInvariant_xfer s t fromDid toDid v hinv

theorem checkpointInvariant_transferFrom (env : AssetEnv) (s : AssetState)
    (signer : Nat) (did : IdentityId) (t : Ticker)
    (fromDid toDid : IdentityId) (v : Balance)
    (hinv : checkpointInvariant s) :
    checkpointInvariant
      (transferFrom env s signer did t fromDid toDid v).2 := by
  unfold transferFrom
  dsimp only
  repeat' split
  all_goals
    first
      | exact hinv
      | (rename_i heq
         have h2 := congrArg Prod.snd heq
         have h3 := checkpointInvariant_xfer s t fromDid toDid v hinv
         rw [h2] at h3
         exact checkpointInvariant_of_cpEq _ _ rfl rfl rfl h3)

theorem checkpointInvariant_createCheckpoint (env : AssetEnv)
    (s : AssetState) (signer : Nat) (did : IdentityId) (t : Ticker)
    (hinv : checkpointInvariant s) :
    checkpointInvariant (createCheckpoint env s signer did t).2 := by
  unfold createCheckpoint
  repeat' split
  all_goals
    first
      | exact hinv
      | exact checkpointInvariant_createCheckpointInternal s t hinv

theorem checkpointInvariant_issue (env : AssetEnv) (s : AssetState)
    (signer : Nat) (did : IdentityId) (t : Ticker) (toDid : IdentityId)
    (v : Balance) (hinv : checkpointInvariant s) :
    checkpointInvariant (issue env s signer did t toDid v).2 := by
  unfold issue
  repeat' split
  all_goals
    first
      | exact hinv
      | exact checkpointInvariant_mint env s t toDid v hinv

theorem checkpointInvariant_batchIssue (env : AssetEnv) (s : AssetState)
    (signer : Nat) (did : IdentityId) (t : Ticker)
    (dids : List IdentityId) (vs : List Balance)
    (hinv : checkpointInvariant s) :
    checkpointInvariant (batchIssue env s signer did t dids vs).2 := by
  unfold batchIssue
  dsimp only
  repeat' split
  all_goals
    first
      | exact hinv
      | exact checkpointInvariant_of_cpEq _ _ rfl rfl rfl
          (checkpointInvariant_batchApply t _ _
            (checkpointInvariant_of_cpEq s _ rfl rfl rfl hinv))

theorem checkpointInvariant_redeem (env : AssetEnv) (s : AssetState)
    (signer : Nat) (did : IdentityId) (t : Ticker) (v : Balance)
    (hinv : checkpointInvariant s) :
    checkpointInvariant (redeem env s signer did t v).2 := by
  unfold redeem
  dsimp only
  repeat' split
  all_goals
    first
      | exact hinv
      | exact checkpointInvariant_of_cpEq _ _ rfl rfl rfl
          (checkpointInvariant_updateCheckpoint s t did _ hinv)

theorem checkpointInvariant_redeemFrom (env : AssetEnv) (s : AssetState)
    (signer : Nat) (did : IdentityId) (t : Ticker) (fromDid : IdentityId)
    (v : Balance) (hinv : checkpointInvariant s) :
    checkpointInvariant (redeemFrom env s signer did t fromDid v).2 := by
  unfold redeemFrom
  dsimp only
  repeat' split
  all_goals
    first
      | exact hinv
      | exact checkpointInvariant_of_cpEq _ _ rfl rfl rfl
          (checkpointInvariant_updateCheckpoint s t did _ hinv)

theorem checkpointInvariant_controllerRedeem (env : AssetEnv)
    (s : AssetState) (signer : Nat) (did : IdentityId) (t : Ticker)
    (tokenHolderDid : IdentityId) (v : Balance)
    (hinv : checkpointInvariant s) :
    checkpointInvariant
      (controllerRedeem env s signer did t tokenHolderDid v).2 := by
  unfold controllerRedeem
  dsimp only
  repeat' split
  all_goals
    first
      | exact hinv
      | exact checkpointInvariant_of_cpEq _ _ rfl rfl rfl
          (checkpointInvariant_updateCheckpoint s t tokenHolderDid _ hinv)

theorem checkpointInvariant_makeDivisible (env : AssetEnv) (s : AssetState)
    (signer : Nat) (did : IdentityId) (t : Ticker)
    (hinv : checkpointInvariant s) :
    checkpointInvariant (makeDivisible env s signer did t).2 := by
  unfold makeDivisible
  dsimp only
  repeat' split
  all_goals
    first
      | exact hinv
      | exact checkpointInvariant_of_cpEq s _ rfl rfl rfl hinv

theorem checkpointInvariant_approve (env : AssetEnv) (s : AssetState)
    (signer : Nat) (did : IdentityId) (t : Ticker)
    (spenderDid : IdentityId) (v : Balance)
    (hinv : checkpointInvariant s) :
    checkpointInvariant (approve env s signer did t spenderDid v).2 := by
  unfold approve
  repeat' split
  all_goals
    first
      | exact hinv
      | exact checkpointInvariant_of_cpEq s _ rfl rfl rfl hinv

theorem checkpointInvariant_increase (env : AssetEnv) (s : AssetState)
    (signer : Nat) (t : Ticker) (holderDid custodianDid : IdentityId)
    (v : Balance) (hinv : checkpointInvariant s) :
    checkpointInvariant
      (increaseCustodyAllowance env s signer t holderDid custodianDid
        v).2 := by
  unfold increaseCustodyAllowance
  split
  · exact hinv
  · exact checkpointInvariant_increaseInternal env s t holderDid custodianDid
      v hinv

theorem checkpointInvariant_increaseOf (env : AssetEnv) (s : AssetState)
    (signer : Nat) (t : Ticker) (holderDid : IdentityId)
    (holderAccountId : Nat) (custodianDid callerDid : IdentityId)
    (v : Balance) (nonce : Nat) (hinv : checkpointInvariant s) :
    checkpointInvariant
      (increaseCustodyAllowanceOf env s signer t holderDid holderAccountId
        custodianDid callerDid v nonce).2 := by
  unfold increaseCustodyAllowanceOf
  repeat' split
  all_goals
    first
      | exact hinv
      | (rename_i heq
         have h2 := congrArg Prod.snd heq
         have h3 := checkpointInvariant_increaseInternal env s t holderDid
           custodianDid v hinv
         rw [h2] at h3
         exact checkpointInvariant_of_cpEq _ _ rfl rfl rfl h3)

theorem checkpointInvariant_transferByCustodian (env : AssetEnv)
    (s : AssetState) (signer : Nat) (t : Ticker)
    (holderDid custodianDid receiverDid : IdentityId) (v : Balance)
    (hinv : checkpointInvariant s) :
    checkpointInvariant
      (transferByCustodian env s signer t holderDid custodianDid receiverDid
        v).2 := by
  unfold transferByCustodian
  dsimp only
  repeat' split
  all_goals
    first
      | exact hinv
      | (rename_i heq
         have h2 := congrArg Prod.snd heq
         have h3 := checkpointInvariant_xfer s t holderDid receiverDid v hinv
         rw [h2] at h3
         exact checkpointInvariant_of_cpEq _ _ rfl rfl rfl h3)

theorem checkpointInvariant_setFundingRound (env : AssetEnv) (s : AssetState)
    (signer : Nat) (did : IdentityId) (t : Ticker) (name : List Nat)
    (hinv : checkpointInvariant s) :
    checkpointInvariant (setFundingRound env s signer did t name).2 := by
  unfold setFundingRound
  repeat' split
  all_goals
    first
      | exact hinv
      | exact checkpointInvariant_of_cpEq s _ rfl rfl rfl hinv

theorem checkpointInvariant_renameToken (env : AssetEnv) (s : AssetState)
    (signer : Nat) (t : Ticker) (name : List Nat)
    (hinv : checkpointInvariant s) :
    checkpointInvariant (renameToken env s signer t name).2 := by
  unfold renameToken
  dsimp only
  repeat' split
  all_goals
    first
      | exact hinv
      | exact checkpointInvariant_of_cpEq s _ rfl rfl rfl hinv

theorem checkpointInvariant_freeze (env : AssetEnv) (s : AssetState)
    (signer : Nat) (t : Ticker) (hinv : checkpointInvariant s) :
    checkpointInvariant (freeze env s signer t).2 := by
  unfold freeze
  dsimp only
  repeat' split
  all_goals
    first
      | exact hinv
      | exact checkpointInvariant_of_cpEq s _ rfl rfl rfl hinv

theorem checkpointInvariant_unfreeze (env : AssetEnv) (s : AssetState)
    (signer : Nat) (t : Ticker) (hinv : checkpointInvariant s) :
    checkpointInvariant (unfreeze env s signer t).2 := by
  unfold unfreeze
  dsimp only
  repeat' split
  all_goals
    first
      | exact hinv
      | exact checkpointInvariant_of_cpEq s _ rfl rfl rfl hinv

/-- C9: `find_ceiling` precondition safety.  Part 1: every asset-module
operation preserves the checkpoint-data invariant (each recorded
checkpoint-id list is strictly increasing, bounded by the ticker's counter,
with a snapshot recorded per id), so the lists `get_balance_at` reads in any
reachable state are sorted and non-degenerate.  Part 2: on any state
satisfying the invariant, whenever `get_balance_at` reaches its
`find_ceiling` call (checkpoints exist, `at` is nonzero and at most the
global counter, the identity has a recorded list whose last entry is
`≥ at`), the passed list is non-empty and strictly increasing with `at ≤`
its last element, and under those preconditions the search terminates and
returns a result — the out-of-bounds/fuel-exhaustion outcome (`none` in the
model, a panic or hang in the source) is unreachable — namely the least
recorded id `≥ at`. -/
theorem checkpoint_lists_sorted_and_ceiling_safe :
    (∀ (env : AssetEnv) (t : Ticker) (op : AssetOp) (s : AssetState),
      checkpointInvariant s →
      checkpointInvariant (applyAssetOp env t op s).2) ∧
    (∀ (s : AssetState) (t : Ticker) (did : IdentityId) (at_ : Nat)
      (l : List Nat),
      checkpointInvariant s →
      s.userCheckpoints (t, did) = some l →
      ¬ ((s.totalCheckpoints t).isNone ∨ at_ = 0 ∨
          totalCheckpointsOf s t < at_) →
      ¬ (l.getLast?.getD 0 < at_) →
      l ≠ [] ∧ List.Pairwise (· < ·) l ∧
        (∀ h : l ≠ [], at_ ≤ l.getLast h) ∧
        ∃ c, find_ceiling l at_ = some c ∧ IsCeiling l at_ c) := by
  constructor
  · intro env t op s hinv
    cases op with
    | aTransfer signer did toDid v =>
      exact checkpointInvariant_transfer env s signer did t toDid v hinv
    | aControllerTransfer signer did fromDid toDid v =>
      exact checkpointInvariant_controllerTransfer env s signer did t fromDid
        toDid v hinv
    | aTransferFrom signer did fromDid toDid v =>
      exact checkpointInvariant_transferFrom env s signer did t fromDid toDid
        v hinv
    | aCreateCheckpoint signer did =>
      exact checkpointInvariant_createCheckpoint env s signer did t hinv
    | aIssue signer did toDid v =>
      exact checkpointInvariant_issue env s signer did t toDid v hinv
    | aBatchIssue signer did dids vs =>
      exact checkpointInvariant_batchIssue env s signer did t dids vs hinv
    | aRedeem signer did v =>
      exact checkpointInvariant_redeem env s signer did t v hinv
    | aRedeemFrom signer did fromDid v =>
      exact checkpointInvariant_redeemFrom env s signer did t fromDid v hinv
    | aControllerRedeem signer did holderDid v =>
      exact checkpointInvariant_controllerRedeem env s signer did t holderDid
        v hinv
    | aMakeDivisible signer did =>
      exact checkpointInvariant_makeDivisible env s signer did t hinv
    | aApprove signer did spenderDid v =>
      exact checkpointInvariant_approve env s signer did t spenderDid v hinv
    | aIncrease signer holderDid custodianDid v =>
      exact checkpointInvariant_increase env s signer t holderDid custodianDid
        v hinv
    | aIncreaseOf signer holderDid holderAccountId custodianDid callerDid v
        nonce =>
      exact checkpointInvariant_increaseOf env s signer t holderDid
        holderAccountId custodianDid callerDid v nonce hinv
    | aTransferByCustodian signer holderDid custodianDid receiverDid v =>
      exact checkpointInvariant_transferByCustodian env s signer t holderDid
        custodianDid receiverDid v hinv
    | aSetFundingRound signer did name =>
      exact checkpointInvariant_setFundingRound env s signer did t name hinv
    | aRenameToken signer name =>
      exact checkpointInvariant_renameToken env s signer t name hinv
    | aFreeze signer => exact checkpointInvariant_freeze env s signer t hinv
    | aUnfreeze signer =>
      exact checkpointInvariant_unfreeze env s signer t hinv
    | aCreateToken signer did name totalSupply divisible assetType
        identifierList fundingRound =>
      exact checkpointInvariant_createToken env s signer did name t
        totalSupply divisible assetType identifierList fundingRound hinv
  · intro s t did at_ l hinv hl hg1 hg2
    have hat0 : at_ ≠ 0 := fun h0 => hg1 (Or.inr (Or.inl h0))
    have hs : List.Pairwise (· < ·) l := (hinv t did l hl).1
    have hne : l ≠ [] := by
      intro hcon
      subst hcon
      simp at hg2
      omega
    have hlast : at_ ≤ l.getLast hne := by
      rw [List.getLast?_eq_getLast l hne] at hg2
      simpa using hg2
    exact ⟨hne, hs, fun _ => hlast, find_ceiling_spec l at_ hs hne hlast⟩

/-- A concrete checkpointed state: two checkpoints taken on the demo ticker,
identity 1's balance snapshotted at 100 then 70, current balance 70. -/
def cpState : AssetState :=
  { emptyAssetState with
    balanceOf := mapInsert (fun _ => none) (demoTicker, 1) 70
    totalCheckpoints := mapInsert (fun _ => none) demoTicker 2
    checkpointBalance :=
      mapInsert (mapInsert (fun _ => none) (demoTicker, 1, 1) 100)
        (demoTicker, 1, 2) 70
    userCheckpoints := mapInsert (fun _ => none) (demoTicker, 1) [1, 2] }

theorem cpState_invariant : checkpointInvariant cpState := by
  intro t d l hl
  by_cases hk : ((t, d) : Ticker × IdentityId) = (demoTicker, 1)
  · have ht : t = demoTicker := congrArg Prod.fst hk
    have hd : d = 1 := congrArg Prod.snd hk
    subst ht
    subst hd
    have h0 : cpState.userCheckpoints (demoTicker, 1) = some [1, 2] := rfl
    rw [h0] at hl
    have h1 : [1, 2] = l := Option.some_inj.mp hl
    rw [← h1]
    refine ⟨by decide, by decide⟩
  · exfalso
    have h0 : cpState.userCheckpoints =
        mapInsert (fun _ => none) (demoTicker, 1) [1, 2] := rfl
    rw [h0, mapInsert_ne _ _ hk] at hl
    exact Option.noConfusion hl

theorem checkpoint_lists_sorted_and_ceiling_safe_witness :
    checkpointInvariant
      (applyAssetOp okEnv demoTicker (.aCreateCheckpoint 1 1) cpState).2 ∧
    ([1, 2] ≠ [] ∧ List.Pairwise (· < ·) [1, 2] ∧
      (∀ h : [1, 2] ≠ ([] : List Nat), 2 ≤ List.getLast [1, 2] h) ∧
      ∃ c, find_ceiling [1, 2] 2 = some c ∧ IsCeiling [1, 2] 2 c) :=
  ⟨checkpoint_lists_sorted_and_ceiling_safe.1 okEnv demoTicker
      (.aCreateCheckpoint 1 1) cpState cpState_invariant,
    checkpoint_lists_sorted_and_ceiling_safe.2 cpState demoTicker 1 2 [1, 2]
      cpState_invariant rfl (by decide) (by decide)⟩

theorem get_balance_at_correct_witness :
    get_balance_at cpState demoTicker 1 2 =
      some (get_balance_at_ref cpState demoTicker 1 2) ∧
    get_balance_at cpState demoTicker 1 2 = some 70 := by
  constructor
  · exact get_balance_at_correct cpState demoTicker 1 2
      (by
        intro l hl
        have h0 : cpState.userCheckpoints (demoTicker, 1) = some [1, 2] := rfl
        rw [h0] at hl
        have h1 : [1, 2] = l := Option.some_inj.mp hl
        rw [← h1]
        decide)
  · decide

/-- `Signer` of the identity module: an account key or an identity. -/
inductive Signer where
  | key (k : Nat)
  | identity (did : IdentityId)
  deriving DecidableEq, Repr

/-- `Authorization` record (the typed payload is opaque to the list
algorithms and is modelled as a number). -/
structure Authorization where
  authorizationData : Nat
  authorizedBy : Signer
  expiry : Option Nat
  nextAuthorization : Nat
  previousAuthorization : Nat
  deriving DecidableEq, Repr

/-- `Link` record. -/
structure Link where
  linkData : Nat
  expiry : Option Nat
  nextLink : Nat
  previousLink : Nat
  deriving DecidableEq, Repr

/-- The zeroed record a substrate non-`Option` map getter (and `mutate` on a
missing key) produces. -/
def defaultAuthorization : Authorization :=
  { authorizationData := 0, authorizedBy := .key 0, expiry := none
    nextAuthorization := 0, previousAuthorization := 0 }

/-- The zeroed `Link` default. -/
def defaultLink : Link :=
  { linkData := 0, expiry := none, nextLink := 0, previousLink := 0 }

/-- Identity-module registry storage: the shared `MultiPurposeNonce` counter
(genesis-built at 1), the two record maps and the two per-target tail
pointers (`0` is the "no record" sentinel and the maps' default).
The counter is a `u64` that the source bumps with an unchecked add, so the
allocation sites compute the successor modulo `2^64`. -/
structure IdState where
  multiPurposeNonce : Nat
  authorizations : Signer × Nat → Option Authorization
  lastAuthorization : Signer → Nat
  links : Signer × Nat → Option Link
  lastLink : Signer → Nat

/-- Getter `Self::authorizations`, defaulting on a missing key. -/
def authorizationsOf (s : IdState) (k : Signer × Nat) : Authorization :=
  (s.authorizations k).getD defaultAuthorization

/-- Getter `Self::links`, defaulting on a missing key. -/
def linksOf (s : IdState) (k : Signer × Nat) : Link :=
  (s.links k).getD defaultLink

/-- `Module::add_auth`: allocate the next nonce (the source's unchecked
`u64` add, i.e. the successor modulo `2^64`) and append the record at the
tail of the target's doubly linked authorization list. -/
def add_auth (s : IdState) (fromSigner target : Signer)
    (authorizationData : Nat) (expiry : Option Nat) : IdState :=
  let newNonce := (s.multiPurposeNonce + 1) % 2 ^ 64
  let s1 := { s with multiPurposeNonce := newNonce }
  let lastAuth := s1.lastAuthorization target
  let s2 :=
    if lastAuth > 0 then
      { s1 with
        authorizations :=
          mapInsert s1.authorizations (target, lastAuth)
            { authorizationsOf s1 (target, lastAuth) with
              nextAuthorization := newNonce } }
    else s1
  let auth : Authorization :=
    { authorizationData := authorizationData
      authorizedBy := fromSigner
      expiry := expiry
      nextAuthorization := 0
      previousAuthorization := lastAuth }
  { s2 with
    lastAuthorization :=
      fun x => if x = target then newNonce else s2.lastAuthorization x
    authorizations := mapInsert s2.authorizations (target, newNonce) auth }

/-- `Module::remove_auth`: unconditional list surgery splicing `auth_id` out
using the caller-supplied neighbor ids, then deleting the record. -/
def remove_auth (s : IdState) (target : Signer)
    (authId nextAuth prevAuth : Nat) : IdState :=
  let s1 :=
    if nextAuth ≠ 0 then
      { s with
        authorizations :=
          mapInsert s.authorizations (target, nextAuth)
            { authorizationsOf s (target, nextAuth) with
              previousAuthorization := prevAuth } }
    else
      { s with
        lastAuthorization :=
          fun x => if x = target then prevAuth else s.lastAuthorization x }
  let s2 :=
    if prevAuth ≠ 0 then
      { s1 with
        authorizations :=
          mapInsert s1.authorizations (target, prevAuth)
            { authorizationsOf s1 (target, prevAuth) with
              nextAuthorization := nextAuth } }
    else s1
  { s2 with authorizations := mapRemove s2.authorizations (target, authId) }

/-- `Module::consume_auth`: existence, permission and expiry checks, then
removal through `remove_auth` with the record's own stored neighbor ids.
The error strings name the `AuthorizationError` variants raised in the
source. -/
def consume_auth (s : IdState) (fromSigner target : Signer) (authId : Nat)
    (now : Nat) : Option String × IdState :=
  if (s.authorizations (target, authId)).isNone then (some "Invalid", s)
  else
    let auth := authorizationsOf s (target, authId)
    if auth.authorizedBy ≠ fromSigner then (some "Unauthorized", s)
    else
      match auth.expiry with
      | some expiry =>
        if expiry ≤ now then (some "Expired", s)
        else
          (none, remove_auth s target authId auth.nextAuthorization
            auth.previousAuthorization)
      | none =>
        (none, remove_auth s target authId auth.nextAuthorization
          auth.previousAuthorization)

/-- `Module::add_link`: the authorization-append algorithm on the link list,
with the same unchecked `u64` nonce allocation as `add_auth`. -/
def add_link (s : IdState) (target : Signer) (linkData : Nat)
    (expiry : Option Nat) : IdState :=
  let newNonce := (s.multiPurposeNonce + 1) % 2 ^ 64
  let s1 := { s with multiPurposeNonce := newNonce }
  let lastL := s1.lastLink target
  let s2 :=
    if lastL > 0 then
      { s1 with
        links :=
          mapInsert s1.links (target, lastL)
            { linksOf s1 (target, lastL) with nextLink := newNonce } }
    else s1
  let link : Link :=
    { linkData := linkData, expiry := expiry, nextLink := 0
      previousLink := lastL }
  { s2 with
    lastLink := fun x => if x = target then newNonce else s2.lastLink x
    links := mapInsert s2.links (target, newNonce) link }

/-- `Module::remove_link`: self-guarded splice using the record's own stored
neighbor ids; a no-op when the record does not exist. -/
def remove_link (s : IdState) (target : Signer) (linkId : Nat) : IdState :=
  if (s.links (target, linkId)).isSome then
    let link := linksOf s (target, linkId)
    let s1 :=
      if link.nextLink ≠ 0 then
        { s with
          links :=
            mapInsert s.links (target, link.nextLink)
              { linksOf s (target, link.nextLink) with
                previousLink := link.previousLink } }
      else
        { s with
          lastLink :=
            fun x => if x = target then link.previousLink else s.lastLink x }
    let s2 :=
      if link.previousLink ≠ 0 then
        { s1 with
          links :=
            mapInsert s1.links (target, link.previousLink)
              { linksOf s1 (target, link.previousLink) with
                nextLink := link.nextLink } }
      else s1
    { s2 with links := mapRemove s2.links (target, linkId) }
  else s

/-- The registry-mutating identity-module operations of the claim. -/
inductive IdOp where
  | opAddAuth (fromSigner target : Signer) (authorizationData : Nat)
      (expiry : Option Nat)
  | opRemoveAuth (target : Signer) (authId nextAuth prevAuth : Nat)
  | opConsumeAuth (fromSigner target : Signer) (authId : Nat) (now : Nat)
  | opAddLink (target : Signer) (linkData : Nat) (expiry : Option Nat)
  | opRemoveLink (target : Signer) (linkId : Nat)

/-- Dispatch of `IdOp` (for `consume_auth`, the state component). -/
def applyIdOp (op : IdOp) (s : IdState) : IdState :=
  match op with
  | .opAddAuth f t ad e => add_auth s f t ad e
  | .opRemoveAuth t id na pa => remove_auth s t id na pa
  | .opConsumeAuth f t id now => (consume_auth s f t id now).2
  | .opAddLink t ld e => add_link s t ld e
  | .opRemoveLink t id => remove_link s t id

/-- Side conditions under which an operation behaves as documented: for raw
`remove_auth`, the source's caller obligation ("do all the required checks
before calling") that the neighbor arguments are the removed record's stored
pointers; for the two allocating operations, that the shared `u64` counter
is not at its maximum, so the unchecked increment does not wrap (the wrap
case is the counterexample `auth_registry_wrap_cex`).  The remaining
operations check their own preconditions. -/
def opWellFormed (s : IdState) : IdOp → Prop
  | .opRemoveAuth t id na pa =>
    ∃ a, s.authorizations (t, id) = some a ∧
      na = a.nextAuthorization ∧ pa = a.previousAuthorization
  | .opAddAuth _ _ _ _ => s.multiPurposeNonce + 1 < 2 ^ 64
  | .opAddLink _ _ _ => s.multiPurposeNonce + 1 < 2 ^ 64
  | _ => True

/-- Pointer view of one target's authorization records:
id ↦ (next, previous). -/
def authPtr (s : IdState) (target : Signer) : Nat → Option (Nat × Nat) :=
  fun id =>
    (s.authorizations (target, id)).map
      (fun a => (a.nextAuthorization, a.previousAuthorization))

/-- Pointer view of one target's link records: id ↦ (next, previous). -/
def linkPtr (s : IdState) (target : Signer) : Nat → Option (Nat × Nat) :=
  fun id => (s.links (target, id)).map (fun l => (l.nextLink, l.previousLink))

/-- `Chain m next id L`: starting at record `id` — whose forward pointer
must equal `next` — and following `previous` pointers, the visited ids are
exactly `L`, ending at the 0 sentinel. -/
inductive Chain (m : Nat → Option (Nat × Nat)) : Nat → Nat → List Nat → Prop
    where
  | nil (next : Nat) : Chain m next 0 []
  | cons {next id : Nat} {np : Nat × Nat} {L : List Nat} :
      id ≠ 0 → m id = some np → np.1 = next →
      Chain m id np.2 L → Chain m next id (id :: L)

/-- One valid registry side for one target: a tail-first chain from the tail
pointer enumerates exactly the existing records, with strictly decreasing
(hence duplicate-free, append-ordered) ids, all bounded by the shared
counter. -/
def validReg (m : Nat → Option (Nat × Nat)) (tail bound : Nat) : Prop :=
  ∃ L, Chain m 0 tail L ∧ (∀ id, (m id).isSome → id ∈ L) ∧
    List.Pairwise (· > ·) L ∧ ∀ id ∈ L, id ≤ bound

/-- The C8 registry invariant: both sides of every target's registry are
valid doubly linked lists whose ids are positive and bounded by the shared
counter. -/
def regInvariant (s : IdState) : Prop :=
  ∀ target : Signer,
    validReg (authPtr s target) (s.lastAuthorization target)
      s.multiPurposeNonce ∧
    validReg (linkPtr s target) (s.lastLink target) s.multiPurposeNonce

/-- The fields of an authorization record other than the two list pointers. -/
def authCore (a : Authorization) : Nat × Signer × Option Nat :=
  (a.authorizationData, a.authorizedBy, a.expiry)
theorem Chain.mem_ne_zero {m : Nat → Option (Nat × Nat)} :
    ∀ {L : List Nat} {next id : Nat}, Chain m next id L → ∀ x ∈ L, x ≠ 0
  | _, _, _, .nil _, x, hx => absurd hx (List.not_mem_nil x)
  | _, _, _, .cons h0 _ _ hrest, x, hx => by
    rcases List.mem_cons.mp hx with h | h
    · exact h ▸ h0
    · exact Chain.mem_ne_zero hrest x h

theorem Chain.mem_isSome {m : Nat → Option (Nat × Nat)} :
    ∀ {L : List Nat} {next id : Nat}, Chain m next id L →
      ∀ x ∈ L, (m x).isSome
  | _, _, _, .nil _, x, hx => absurd hx (List.not_mem_nil x)
  | _, _, _, .cons _ hm _ hrest, x, hx => by
    rcases List.mem_cons.mp hx with h | h
    · rw [h, hm]; rfl
    · exact Chain.mem_isSome hrest x h

theorem Chain.frame {m m' : Nat → Option (Nat × Nat)} :
    ∀ {L : List Nat} {next id : Nat}, Chain m next id L →
      (∀ x ∈ L, m' x = m x) → Chain m' next id L
  | _, _, _, .nil next, _ => .nil next
  | _, _, _, .cons h0 hm hn hrest, hf =>
    .cons h0 (by rw [hf _ (List.mem_cons_self _ _)]; exact hm) hn
      (Chain.frame hrest fun x hx => hf x (List.mem_cons_of_mem _ hx))

theorem Chain.zero_nil {m : Nat → Option (Nat × Nat)} {next : Nat}
    {L : List Nat} (h : Chain m next 0 L) : L = [] := by
  cases h with
  | nil => rfl
  | cons h0 => exact absurd rfl h0

theorem Chain.nil_id {m : Nat → Option (Nat × Nat)} {next id : Nat}
    (h : Chain m next id []) : id = 0 := by
  cases h
  rfl

theorem Chain.head_eq {m : Nat → Option (Nat × Nat)} {next id p : Nat}
    {rest : List Nat} (h : Chain m next id (p :: rest)) : id = p := by
  cases h
  rfl

theorem Chain.cons_inv {m : Nat → Option (Nat × Nat)} {next id : Nat}
    {L : List Nat} (h : Chain m next id L) (h0 : id ≠ 0) :
    ∃ np rest, L = id :: rest ∧ m id = some np ∧ np.1 = next ∧
      Chain m id np.2 rest := by
  cases h with
  | nil => exact absurd rfl h0
  | cons h0h hm hn hrest => exact ⟨_, _, rfl, hm, hn, hrest⟩

theorem Chain.next_spec {m : Nat → Option (Nat × Nat)} :
    ∀ {L : List Nat} {next id : Nat}, Chain m next id L →
      List.Pairwise (· > ·) L → ∀ x ∈ L, ∀ np, m x = some np →
        (x = id ∧ np.1 = next) ∨ (np.1 ∈ L ∧ np.1 > x) := by
  intro L
  induction L with
  | nil => intro next id _ _ x hx; exact absurd hx (List.not_mem_nil x)
  | cons hd rest ih =>
    intro next id hch hpw x hx np hm
    obtain ⟨hgt, hpw2⟩ := List.pairwise_cons.mp hpw
    cases hch with
    | cons h0 hmid hn hrest =>
      rcases List.mem_cons.mp hx with h | h
      · subst h
        rw [hmid] at hm
        obtain rfl := Option.some_inj.mp hm
        exact Or.inl ⟨rfl, hn⟩
      · rcases ih hrest hpw2 x h np hm with ⟨hx2, hn2⟩ | ⟨hn2, hgt2⟩
        · exact Or.inr ⟨by rw [hn2]; exact List.mem_cons_self _ _,
            by rw [hn2]; exact hgt x h⟩
        · exact Or.inr ⟨List.mem_cons_of_mem _ hn2, hgt2⟩

theorem Chain.prev_spec {m : Nat → Option (Nat × Nat)} :
    ∀ {L : List Nat} {next id : Nat}, Chain m next id L →
      List.Pairwise (· > ·) L → ∀ x ∈ L, ∀ np, m x = some np →
        np.2 = 0 ∨ (np.2 ∈ L ∧ np.2 < x) := by
  intro L
  induction L with
  | nil => intro next id _ _ x hx; exact absurd hx (List.not_mem_nil x)
  | cons hd rest ih =>
    intro next id hch hpw x hx np hm
    obtain ⟨hgt, hpw2⟩ := List.pairwise_cons.mp hpw
    cases hch with
    | cons h0 hmid hn hrest =>
      rcases List.mem_cons.mp hx with h | h
      · subst h
        rw [hmid] at hm
        obtain rfl := Option.some_inj.mp hm
        cases rest with
        | nil => exact Or.inl (Chain.nil_id hrest)
        | cons p rest2 =>
          have hp := Chain.head_eq hrest
          refine Or.inr ⟨?_, ?_⟩
          · rw [hp]
            exact List.mem_cons_of_mem _ (List.mem_cons_self _ _)
          · rw [hp]
            exact hgt p (List.mem_cons_self _ _)
      · rcases ih hrest hpw2 x h np hm with h2 | ⟨h2, h3⟩
        · exact Or.inl h2
        · exact Or.inr ⟨List.mem_cons_of_mem _ h2, h3⟩
theorem Chain.splice {m m' : Nat → Option (Nat × Nat)} {authId na pa : Nat}
    (hrec : m authId = some (na, pa))
    (hna : ∀ q, m na = some q → na ≠ 0 → na ≠ authId → na ≠ pa →
      m' na = some (q.1, pa))
    (hpa : ∀ q, m pa = some q → pa ≠ 0 → pa ≠ authId → pa ≠ na →
      m' pa = some (na, q.2))
    (hother : ∀ x, x ≠ authId → (na ≠ 0 → x ≠ na) → (pa ≠ 0 → x ≠ pa) →
      m' x = m x) :
    ∀ {L : List Nat} {next id : Nat}, Chain m next id L →
      List.Pairwise (· > ·) L → (∀ x ∈ L, x ≠ next) → authId ∈ L →
      Chain m' next (if id = authId then pa else id) (L.erase authId) := by
  intro L next id hch
  induction hch with
  | nil =>
    intro _ _ hmem
    exact absurd hmem (List.not_mem_nil _)
  | cons h0 hmid hn hrest ih =>
    rename_i next id np L2
    intro hpw hnext hmem
    have hfull : Chain m next id (id :: L2) := Chain.cons h0 hmid hn hrest
    obtain ⟨hgt, hpw2⟩ := List.pairwise_cons.mp hpw
    by_cases hid : id = authId
    · subst hid
      have hnp : np = (na, pa) := Option.some_inj.mp (hmid.symm.trans hrec)
      subst hnp
      have hnanext : na = next := hn
      have hrest2 : Chain m id pa L2 := hrest
      rw [if_pos rfl, List.erase_cons_head]
      cases L2 with
      | nil =>
        rw [show pa = 0 from Chain.nil_id hrest2]
        exact Chain.nil next
      | cons p rest2 =>
        have hp : pa = p := Chain.head_eq hrest2
        subst hp
        have hpaz : pa ≠ 0 :=
          Chain.mem_ne_zero hrest2 pa (List.mem_cons_self _ _)
        obtain ⟨np2, rest3, hL3, hm2, hn2, hrest3⟩ :=
          Chain.cons_inv hrest2 hpaz
        injection hL3 with hL3a hL3b
        subst hL3b
        have hpane : pa ≠ id := ne_of_lt (hgt pa (List.mem_cons_self _ _))
        have hpana : pa ≠ na := by
          rw [hnanext]
          exact hnext pa
            (List.mem_cons_of_mem _ (List.mem_cons_self _ _))
        have hm'pa : m' pa = some (na, np2.2) := hpa np2 hm2 hpaz hpane hpana
        refine Chain.cons hpaz hm'pa (show (na, np2.2).1 = next from hnanext)
          (Chain.frame hrest3 ?_)
        intro x hx
        refine hother x ?_ (fun _ => ?_) (fun _ => ?_)
        · exact ne_of_lt
            (hgt x (List.mem_cons_of_mem _ hx))
        · rw [hnanext]
          exact hnext x
            (List.mem_cons_of_mem _ (List.mem_cons_of_mem _ hx))
        · exact ne_of_lt ((List.pairwise_cons.mp hpw2).1 x hx)
    · rw [if_neg hid]
      have hmem2 : authId ∈ L2 := by
        rcases List.mem_cons.mp hmem with h | h
        · exact absurd h.symm hid
        · exact h
      have herase : (id :: L2).erase authId = id :: L2.erase authId := by
        simp [List.erase_cons, hid]
      rw [herase]
      have hnext2 : ∀ x ∈ L2, x ≠ id := fun x hx => ne_of_lt (hgt x hx)
      have hih := ih hpw2 hnext2 hmem2
      cases L2 with
      | nil => exact absurd hmem2 (List.not_mem_nil _)
      | cons p rest2 =>
        have hp : np.2 = p := Chain.head_eq hrest
        by_cases hpeq : p = authId
        · subst hpeq
          rw [hp] at hrest
          obtain ⟨np2, rest3, hL3, hm2, hn2, hrest3⟩ :=
            Chain.cons_inv hrest
              (Chain.mem_ne_zero hrest p (List.mem_cons_self _ _))
          injection hL3 with hL3a hL3b
          subst hL3b
          have hnp2 : np2 = (na, pa) := Option.some_inj.mp (hm2.symm.trans hrec)
          subst hnp2
          have hnaid : na = id := hn2
          have hidna : id ≠ pa := by
            rcases Chain.prev_spec hfull hpw p (List.mem_cons_of_mem _
              (List.mem_cons_self _ _)) (na, pa) hrec with h | ⟨h1, h2⟩
            · rw [show pa = 0 from h]
              exact h0
            · exact ne_of_gt (lt_trans h2 (hgt p (List.mem_cons_self _ _)))
          have hm'id : m' id = some (np.1, pa) := by
            rw [← hnaid] at hmid h0 hid hidna ⊢
            exact hna np hmid h0 hid (fun hc => hidna hc)
          rw [hp, if_pos rfl, List.erase_cons_head] at hih
          rw [List.erase_cons_head]
          exact Chain.cons h0 hm'id hn hih
        · have hmem3 : authId ∈ rest2 := by
            rcases List.mem_cons.mp hmem2 with h | h
            · exact absurd h.symm hpeq
            · exact h
          have hm'id : m' id = m id := by
            refine hother id hid (fun _ => ?_) (fun _ => ?_)
            · rcases Chain.next_spec hrest hpw2 authId hmem2 (na, pa) hrec
                with ⟨h1, h2⟩ | ⟨h1, h2⟩
              · rw [← hp] at hpeq
                exact absurd h1.symm hpeq
              · exact ne_of_gt (hgt na h1)
            · rcases Chain.prev_spec hfull hpw authId
                (List.mem_cons_of_mem _ hmem2) (na, pa) hrec with h | ⟨h1, h2⟩
              · rw [show pa = 0 from h]
                exact h0
              · exact ne_of_gt (lt_trans h2 (hgt authId hmem2))
          rw [hp, if_neg hpeq] at hih
          refine Chain.cons h0 (by rw [hm'id]; exact hmid) hn ?_
          rw [hp]
          exact hih
theorem validReg_mono {m : Nat → Option (Nat × Nat)} {tail bound bound2 : Nat}
    (h : validReg m tail bound) (hb : bound ≤ bound2) :
    validReg m tail bound2 := by
  obtain ⟨L, h1, h2, h3, h4⟩ := h
  exact ⟨L, h1, h2, h3, fun id hid => le_trans (h4 id hid) hb⟩

theorem validReg_congr {m m' : Nat → Option (Nat × Nat)} {tail bound : Nat}
    (hf : ∀ x, m' x = m x) (h : validReg m tail bound) :
    validReg m' tail bound := by
  obtain ⟨L, h1, h2, h3, h4⟩ := h
  exact ⟨L, Chain.frame h1 (fun x _ => hf x),
    fun id hid => h2 id (by rw [← hf id]; exact hid), h3, h4⟩

theorem validReg_neighbors {m : Nat → Option (Nat × Nat)}
    {tail bound authId na pa : Nat} (hv : validReg m tail bound)
    (hrec : m authId = some (na, pa)) :
    authId ≠ 0 ∧
    (na ≠ 0 → (m na).isSome ∧ na ≠ authId ∧ na ≠ pa) ∧
    (pa ≠ 0 → (m pa).isSome ∧ pa ≠ authId ∧ pa ≠ na) ∧
    (na = 0 ↔ tail = authId) := by
  obtain ⟨L, hch, hcomp, hpw, hbound⟩ := hv
  have hmem : authId ∈ L := hcomp authId (by rw [hrec]; rfl)
  have hz : ∀ x ∈ L, x ≠ 0 := Chain.mem_ne_zero hch
  have hnaspec := Chain.next_spec hch hpw authId hmem (na, pa) hrec
  have hpaspec := Chain.prev_spec hch hpw authId hmem (na, pa) hrec
  have hnafacts : na ≠ 0 → na ∈ L ∧ na > authId := by
    intro hna0
    rcases hnaspec with ⟨h1, h2⟩ | ⟨h1, h2⟩
    · exact absurd h2 hna0
    · exact ⟨h1, h2⟩
  have hpafacts : pa ≠ 0 → pa ∈ L ∧ pa < authId := by
    intro hpa0
    rcases hpaspec with h | ⟨h1, h2⟩
    · exact absurd h hpa0
    · exact ⟨h1, h2⟩
  refine ⟨hz authId hmem, ?_, ?_, ?_⟩
  · intro hna0
    obtain ⟨h1, h2⟩ := hnafacts hna0
    refine ⟨Chain.mem_isSome hch na h1, ne_of_gt h2, ?_⟩
    by_cases hpa0 : pa = 0
    · rw [hpa0]
      exact hna0
    · exact ne_of_gt (lt_trans (hpafacts hpa0).2 h2)
  · intro hpa0
    obtain ⟨h1, h2⟩ := hpafacts hpa0
    refine ⟨Chain.mem_isSome hch pa h1, ne_of_lt h2, ?_⟩
    by_cases hna0 : na = 0
    · rw [hna0]
      exact fun hc => hz pa h1 hc
    · exact ne_of_lt (lt_trans h2 (hnafacts hna0).2)
  · constructor
    · intro hna0
      rcases hnaspec with ⟨h1, h2⟩ | ⟨h1, h2⟩
      · exact h1.symm
      · exact absurd hna0 (hz na h1)
    · intro htail
      have h0x : authId ≠ 0 := hz authId hmem
      rw [htail] at hch
      obtain ⟨np2, rest2, hL2, hm2, hn2, -⟩ := Chain.cons_inv hch h0x
      rw [hm2] at hrec
      obtain rfl := Option.some_inj.mp hrec
      exact hn2

theorem validReg_add {m m' : Nat → Option (Nat × Nat)} {tail bound : Nat}
    (hv : validReg m tail bound)
    (hnew : m' (bound + 1) = some (0, tail))
    (htl : ∀ p, m tail = some p → tail ≠ 0 → tail ≠ bound + 1 →
      m' tail = some (bound + 1, p.2))
    (hoth : ∀ id, id ≠ bound + 1 → (tail ≠ 0 → id ≠ tail) → m' id = m id) :
    validReg m' (bound + 1) (bound + 1) := by
  obtain ⟨L, hch, hcomp, hpw, hbound⟩ := hv
  by_cases ht0 : tail = 0
  · subst ht0
    have hL : L = [] := Chain.zero_nil hch
    subst hL
    refine ⟨[bound + 1], ?_, ?_, ?_, ?_⟩
    · exact Chain.cons (Nat.succ_ne_zero bound) hnew rfl (Chain.nil _)
    · intro id hid
      by_cases h : id = bound + 1
      · rw [h]
        exact List.mem_cons_self _ _
      · rw [hoth id h (fun hc => absurd rfl hc)] at hid
        exact absurd (hcomp id hid) (List.not_mem_nil id)
    · exact List.pairwise_singleton _ _
    · intro id hid
      have := List.mem_singleton.mp hid
      omega
  · have htmem : tail ∈ L := by
      rcases L with _ | ⟨hd, rest⟩
      · exact absurd (Chain.nil_id hch) ht0
      · rw [Chain.head_eq hch]
        exact List.mem_cons_self _ _
    have htbound : tail ≤ bound := hbound tail htmem
    have htne : tail ≠ bound + 1 := by omega
    obtain ⟨np, rest, hL, hm, hn, hrest⟩ := Chain.cons_inv hch ht0
    subst hL
    have hm'tail : m' tail = some (bound + 1, np.2) := htl np hm ht0 htne
    refine ⟨(bound + 1) :: tail :: rest, ?_, ?_, ?_, ?_⟩
    · refine Chain.cons (Nat.succ_ne_zero bound) hnew rfl ?_
      refine Chain.cons ht0 hm'tail rfl ?_
      refine Chain.frame hrest ?_
      intro x hx
      have hxb : x ≤ bound := hbound x (List.mem_cons_of_mem _ hx)
      refine hoth x (by omega) (fun _ => ?_)
      obtain ⟨hgt, -⟩ := List.pairwise_cons.mp hpw
      exact ne_of_lt (hgt x hx)
    · intro id hid
      by_cases h1 : id = bound + 1
      · rw [h1]
        exact List.mem_cons_self _ _
      · by_cases h2 : id = tail
        · rw [h2]
          exact List.mem_cons_of_mem _ (List.mem_cons_self _ _)
        · rw [hoth id h1 (fun _ => h2)] at hid
          exact List.mem_cons_of_mem _ (hcomp id hid)
    · refine List.pairwise_cons.mpr ⟨?_, hpw⟩
      intro b hb
      have : b ≤ bound := hbound b hb
      omega
    · intro id hid
      rcases List.mem_cons.mp hid with h | h
      · omega
      · have := hbound id h
        omega

theorem validReg_remove {m m' : Nat → Option (Nat × Nat)}
    {tail bound authId na pa : Nat} (hv : validReg m tail bound)
    (hrec : m authId = some (na, pa))
    (hrem : m' authId = none)
    (hna : ∀ q, m na = some q → na ≠ 0 → na ≠ authId → na ≠ pa →
      m' na = some (q.1, pa))
    (hpa : ∀ q, m pa = some q → pa ≠ 0 → pa ≠ authId → pa ≠ na →
      m' pa = some (na, q.2))
    (hother : ∀ x, x ≠ authId → (na ≠ 0 → x ≠ na) → (pa ≠ 0 → x ≠ pa) →
      m' x = m x) :
    validReg m' (if na = 0 then pa else tail) bound := by
  obtain ⟨hid0, hnaf, hpaf, hiff⟩ := validReg_neighbors hv hrec
  obtain ⟨L, hch, hcomp, hpw, hbound⟩ := hv
  have hmem : authId ∈ L := hcomp authId (by rw [hrec]; rfl)
  have hz : ∀ x ∈ L, x ≠ 0 := Chain.mem_ne_zero hch
  have hspl := Chain.splice hrec hna hpa hother hch hpw
    (fun x hx => hz x hx) hmem
  have htail : (if tail = authId then pa else tail) =
      (if na = 0 then pa else tail) := by
    by_cases h : na = 0
    · rw [if_pos h, if_pos (hiff.mp h)]
    · rw [if_neg h, if_neg (fun hc => h (hiff.mpr hc))]
  rw [htail] at hspl
  refine ⟨L.erase authId, hspl, ?_, ?_, ?_⟩
  · intro id hid
    by_cases h1 : id = authId
    · rw [h1, hrem] at hid
      exact absurd hid (by simp)
    · by_cases h2 : na ≠ 0 ∧ id = na
      · obtain ⟨hna0, rfl⟩ := h2
        exact (List.mem_erase_of_ne h1).mpr (hcomp id (hnaf hna0).1)
      · by_cases h3 : pa ≠ 0 ∧ id = pa
        · obtain ⟨hpa0, rfl⟩ := h3
          exact (List.mem_erase_of_ne h1).mpr (hcomp id (hpaf hpa0).1)
        · have hobr : m' id = m id := by
            refine hother id h1 (fun hx => ?_) (fun hx => ?_)
            · intro hc
              exact h2 ⟨hx, hc⟩
            · intro hc
              exact h3 ⟨hx, hc⟩
          rw [hobr] at hid
          exact (List.mem_erase_of_ne h1).mpr (hcomp id hid)
  · exact List.Pairwise.sublist (List.erase_sublist _ _) hpw
  · intro id hid
    exact hbound id (List.mem_of_mem_erase hid)
theorem authPtr_eq_some {s : IdState} {target : Signer} {id : Nat}
    {a : Authorization} (h : s.authorizations (target, id) = some a) :
    authPtr s target id =
      some (a.nextAuthorization, a.previousAuthorization) := by
  unfold authPtr
  rw [h]
  rfl

theorem authPtr_isSome (s : IdState) (target : Signer) (id : Nat) :
    (authPtr s target id).isSome = (s.authorizations (target, id)).isSome := by
  unfold authPtr
  cases s.authorizations (target, id) <;> rfl

theorem linkPtr_isSome (s : IdState) (target : Signer) (id : Nat) :
    (linkPtr s target id).isSome = (s.links (target, id)).isSome := by
  unfold linkPtr
  cases s.links (target, id) <;> rfl

theorem add_auth_nonce (s : IdState) (f T : Signer) (ad : Nat)
    (e : Option Nat) :
    (add_auth s f T ad e).multiPurposeNonce =
      (s.multiPurposeNonce + 1) % 2 ^ 64 := by
  unfold add_auth
  dsimp only
  split <;> rfl

theorem add_auth_links (s : IdState) (f T : Signer) (ad : Nat)
    (e : Option Nat) : (add_auth s f T ad e).links = s.links := by
  unfold add_auth
  dsimp only
  split <;> rfl

theorem add_auth_lastLink (s : IdState) (f T : Signer) (ad : Nat)
    (e : Option Nat) : (add_auth s f T ad e).lastLink = s.lastLink := by
  unfold add_auth
  dsimp only
  split <;> rfl

theorem add_auth_lastAuthorization (s : IdState) (f T : Signer) (ad : Nat)
    (e : Option Nat) (x : Signer) :
    (add_auth s f T ad e).lastAuthorization x =
      if x = T then (s.multiPurposeNonce + 1) % 2 ^ 64
      else s.lastAuthorization x := by
  unfold add_auth
  dsimp only
  split
  · rfl
  · split <;> rfl

theorem add_auth_auths_new (s : IdState) (f T : Signer) (ad : Nat)
    (e : Option Nat) :
    (add_auth s f T ad e).authorizations
        (T, (s.multiPurposeNonce + 1) % 2 ^ 64) =
      some
        { authorizationData := ad, authorizedBy := f, expiry := e
          nextAuthorization := 0
          previousAuthorization := s.lastAuthorization T } := by
  unfold add_auth
  dsimp only
  split <;> simp [mapInsert]

theorem add_auth_auths_tail (s : IdState) (f T : Signer) (ad : Nat)
    (e : Option Nat) (b : Authorization)
    (hb : s.authorizations (T, s.lastAuthorization T) = some b)
    (h0 : s.lastAuthorization T ≠ 0)
    (hne : s.lastAuthorization T ≠ (s.multiPurposeNonce + 1) % 2 ^ 64) :
    (add_auth s f T ad e).authorizations (T, s.lastAuthorization T) =
      some { b with
        nextAuthorization := (s.multiPurposeNonce + 1) % 2 ^ 64 } := by
  have hpos : s.lastAuthorization T > 0 := Nat.pos_of_ne_zero h0
  have hne2 : s.lastAuthorization T ≠
      (s.multiPurposeNonce + 1) % 18446744073709551616 := hne
  simp [add_auth, mapInsert, authorizationsOf, hpos, hne2, hb]

theorem add_auth_auths_frame (s : IdState) (f T : Signer) (ad : Nat)
    (e : Option Nat) (x : Nat)
    (h1 : x ≠ (s.multiPurposeNonce + 1) % 2 ^ 64)
    (h2 : s.lastAuthorization T ≠ 0 → x ≠ s.lastAuthorization T) :
    (add_auth s f T ad e).authorizations (T, x) =
      s.authorizations (T, x) := by
  have h1b : x ≠ (s.multiPurposeNonce + 1) % 18446744073709551616 := h1
  by_cases hl : s.lastAuthorization T > 0
  · simp [add_auth, mapInsert, hl, h1b, h2 (Nat.pos_iff_ne_zero.mp hl)]
  · simp [add_auth, mapInsert, hl, h1b]

theorem add_auth_auths_other (s : IdState) (f T T2 : Signer) (ad : Nat)
    (e : Option Nat) (h : T2 ≠ T) (x : Nat) :
    (add_auth s f T ad e).authorizations (T2, x) =
      s.authorizations (T2, x) := by
  by_cases hl : s.lastAuthorization T > 0
  · simp [add_auth, mapInsert, hl, h]
  · simp [add_auth, mapInsert, hl, h]
theorem add_link_nonce (s : IdState) (T : Signer) (ld : Nat)
    (e : Option Nat) :
    (add_link s T ld e).multiPurposeNonce =
      (s.multiPurposeNonce + 1) % 2 ^ 64 := by
  unfold add_link
  dsimp only
  split <;> rfl

theorem add_link_auths (s : IdState) (T : Signer) (ld : Nat)
    (e : Option Nat) : (add_link s T ld e).authorizations =
      s.authorizations := by
  unfold add_link
  dsimp only
  split <;> rfl

theorem add_link_lastAuthorization (s : IdState) (T : Signer) (ld : Nat)
    (e : Option Nat) : (add_link s T ld e).lastAuthorization =
      s.lastAuthorization := by
  unfold add_link
  dsimp only
  split <;> rfl

theorem add_link_lastLink (s : IdState) (T : Signer) (ld : Nat)
    (e : Option Nat) (x : Signer) :
    (add_link s T ld e).lastLink x =
      if x = T then (s.multiPurposeNonce + 1) % 2 ^ 64
      else s.lastLink x := by
  unfold add_link
  dsimp only
  split
  · rfl
  · split <;> rfl

theorem add_link_links_new (s : IdState) (T : Signer) (ld : Nat)
    (e : Option Nat) :
    (add_link s T ld e).links (T, (s.multiPurposeNonce + 1) % 2 ^ 64) =
      some
        { linkData := ld, expiry := e, nextLink := 0
          previousLink := s.lastLink T } := by
  unfold add_link
  dsimp only
  split <;> simp [mapInsert]

theorem add_link_links_tail (s : IdState) (T : Signer) (ld : Nat)
    (e : Option Nat) (b : Link)
    (hb : s.links (T, s.lastLink T) = some b)
    (h0 : s.lastLink T ≠ 0)
    (hne : s.lastLink T ≠ (s.multiPurposeNonce + 1) % 2 ^ 64) :
    (add_link s T ld e).links (T, s.lastLink T) =
      some { b with nextLink := (s.multiPurposeNonce + 1) % 2 ^ 64 } := by
  have hpos : s.lastLink T > 0 := Nat.pos_of_ne_zero h0
  have hne2 : s.lastLink T ≠
      (s.multiPurposeNonce + 1) % 18446744073709551616 := hne
  simp [add_link, mapInsert, linksOf, hpos, hne2, hb]

theorem add_link_links_frame (s : IdState) (T : Signer) (ld : Nat)
    (e : Option Nat) (x : Nat)
    (h1 : x ≠ (s.multiPurposeNonce + 1) % 2 ^ 64)
    (h2 : s.lastLink T ≠ 0 → x ≠ s.lastLink T) :
    (add_link s T ld e).links (T, x) = s.links (T, x) := by
  have h1b : x ≠ (s.multiPurposeNonce + 1) % 18446744073709551616 := h1
  by_cases hl : s.lastLink T > 0
  · simp [add_link, mapInsert, hl, h1b, h2 (Nat.pos_iff_ne_zero.mp hl)]
  · simp [add_link, mapInsert, hl, h1b]

theorem add_link_links_other (s : IdState) (T T2 : Signer) (ld : Nat)
    (e : Option Nat) (h : T2 ≠ T) (x : Nat) :
    (add_link s T ld e).links (T2, x) = s.links (T2, x) := by
  by_cases hl : s.lastLink T > 0
  · simp [add_link, mapInsert, hl, h]
  · simp [add_link, mapInsert, hl, h]

theorem remove_auth_nonce (s : IdState) (T : Signer) (authId na pa : Nat) :
    (remove_auth s T authId na pa).multiPurposeNonce =
      s.multiPurposeNonce := by
  unfold remove_auth
  dsimp only
  split <;> split <;> rfl

theorem remove_auth_links (s : IdState) (T : Signer) (authId na pa : Nat) :
    (remove_auth s T authId na pa).links = s.links := by
  unfold remove_auth
  dsimp only
  split <;> split <;> rfl

theorem remove_auth_lastLink (s : IdState) (T : Signer)
    (authId na pa : Nat) :
    (remove_auth s T authId na pa).lastLink = s.lastLink := by
  unfold remove_auth
  dsimp only
  split <;> split <;> rfl

theorem remove_auth_lastAuthorization_pos (s : IdState) (T : Signer)
    (authId na pa : Nat) (h : na ≠ 0) :
    (remove_auth s T authId na pa).lastAuthorization =
      s.lastAuthorization := by
  unfold remove_auth
  dsimp only
  rw [if_pos h]
  split <;> rfl

theorem remove_auth_lastAuthorization_zero (s : IdState) (T : Signer)
    (authId pa : Nat) (x : Signer) :
    (remove_auth s T authId 0 pa).lastAuthorization x =
      if x = T then pa else s.lastAuthorization x := by
  unfold remove_auth
  dsimp only
  rw [if_neg (show ¬ ((0 : Nat) ≠ 0) from fun hc => hc rfl)]
  split <;> dsimp only

theorem remove_auth_auths_removed (s : IdState) (T : Signer)
    (authId na pa : Nat) :
    (remove_auth s T authId na pa).authorizations (T, authId) = none := by
  unfold remove_auth
  dsimp only
  simp [mapRemove]

theorem remove_auth_auths_na (s : IdState) (T : Signer) (authId na pa : Nat)
    (b : Authorization) (hb : s.authorizations (T, na) = some b)
    (h0 : na ≠ 0) (h1 : na ≠ authId) (h2 : na ≠ pa) :
    (remove_auth s T authId na pa).authorizations (T, na) =
      some { b with previousAuthorization := pa } := by
  by_cases hpa : pa ≠ 0
  · simp [remove_auth, mapRemove, mapInsert, authorizationsOf, h0, hpa, h1,
      h2, hb]
  · simp [remove_auth, mapRemove, mapInsert, authorizationsOf, h0, hpa, h1,
      hb]

theorem remove_auth_auths_pa (s : IdState) (T : Signer) (authId na pa : Nat)
    (b : Authorization) (hb : s.authorizations (T, pa) = some b)
    (h0 : pa ≠ 0) (h1 : pa ≠ authId) (h2 : pa ≠ na) :
    (remove_auth s T authId na pa).authorizations (T, pa) =
      some { b with nextAuthorization := na } := by
  by_cases hna : na ≠ 0
  · simp [remove_auth, mapRemove, mapInsert, authorizationsOf, h0, hna, h1,
      h2, hb]
  · simp [remove_auth, mapRemove, mapInsert, authorizationsOf, h0, hna, h1,
      hb]

theorem remove_auth_auths_frame (s : IdState) (T : Signer)
    (authId na pa x : Nat) (h1 : x ≠ authId) (h2 : na ≠ 0 → x ≠ na)
    (h3 : pa ≠ 0 → x ≠ pa) :
    (remove_auth s T authId na pa).authorizations (T, x) =
      s.authorizations (T, x) := by
  by_cases hna : na ≠ 0
  · by_cases hpa : pa ≠ 0
    · simp [remove_auth, mapRemove, mapInsert, hna, hpa, h1, h2 hna, h3 hpa]
    · simp [remove_auth, mapRemove, mapInsert, hna, hpa, h1, h2 hna]
  · by_cases hpa : pa ≠ 0
    · simp [remove_auth, mapRemove, mapInsert, hna, hpa, h1, h3 hpa]
    · simp [remove_auth, mapRemove, mapInsert, hna, hpa, h1]

theorem remove_auth_auths_other (s : IdState) (T T2 : Signer)
    (authId na pa : Nat) (h : T2 ≠ T) (x : Nat) :
    (remove_auth s T authId na pa).authorizations (T2, x) =
      s.authorizations (T2, x) := by
  by_cases hna : na ≠ 0
  · by_cases hpa : pa ≠ 0
    · simp [remove_auth, mapRemove, mapInsert, hna, hpa, h]
    · simp [remove_auth, mapRemove, mapInsert, hna, hpa, h]
  · by_cases hpa : pa ≠ 0
    · simp [remove_auth, mapRemove, mapInsert, hna, hpa, h]
    · simp [remove_auth, mapRemove, mapInsert, hna, hpa, h]
theorem remove_link_noop (s : IdState) (T : Signer) (linkId : Nat)
    (h : s.links (T, linkId) = none) : remove_link s T linkId = s := by
  simp [remove_link, h]

theorem remove_link_nonce (s : IdState) (T : Signer) (linkId : Nat) :
    (remove_link s T linkId).multiPurposeNonce = s.multiPurposeNonce := by
  unfold remove_link
  dsimp only
  split
  · split <;> split <;> rfl
  · rfl

theorem remove_link_auths (s : IdState) (T : Signer) (linkId : Nat) :
    (remove_link s T linkId).authorizations = s.authorizations := by
  unfold remove_link
  dsimp only
  split
  · split <;> split <;> rfl
  · rfl

theorem remove_link_lastAuthorization (s : IdState) (T : Signer)
    (linkId : Nat) :
    (remove_link s T linkId).lastAuthorization = s.lastAuthorization := by
  unfold remove_link
  dsimp only
  split
  · split <;> split <;> rfl
  · rfl

theorem remove_link_lastLink_pos (s : IdState) (T : Signer) (linkId : Nat)
    (l : Link) (hrec : s.links (T, linkId) = some l)
    (h : l.nextLink ≠ 0) :
    (remove_link s T linkId).lastLink = s.lastLink := by
  unfold remove_link
  dsimp only
  rw [hrec]
  rw [if_pos (show (some l).isSome = true from rfl)]
  have hlo : linksOf s (T, linkId) = l := by
    unfold linksOf
    rw [hrec]
    rfl
  rw [hlo, if_pos h]
  split <;> rfl

theorem remove_link_lastLink_zero (s : IdState) (T : Signer) (linkId : Nat)
    (l : Link) (hrec : s.links (T, linkId) = some l)
    (h : l.nextLink = 0) (x : Signer) :
    (remove_link s T linkId).lastLink x =
      if x = T then l.previousLink else s.lastLink x := by
  unfold remove_link
  dsimp only
  rw [hrec]
  rw [if_pos (show (some l).isSome = true from rfl)]
  have hlo : linksOf s (T, linkId) = l := by
    unfold linksOf
    rw [hrec]
    rfl
  rw [hlo, if_neg (show ¬ (l.nextLink ≠ 0) from fun hc => hc h)]
  split <;> dsimp only

theorem remove_link_links_removed (s : IdState) (T : Signer) (linkId : Nat)
    (l : Link) (hrec : s.links (T, linkId) = some l) :
    (remove_link s T linkId).links (T, linkId) = none := by
  simp [remove_link, hrec, linksOf, mapRemove]

theorem remove_link_links_na (s : IdState) (T : Signer) (linkId : Nat)
    (l : Link) (hrec : s.links (T, linkId) = some l) (b : Link)
    (hb : s.links (T, l.nextLink) = some b) (h0 : l.nextLink ≠ 0)
    (h1 : l.nextLink ≠ linkId) (h2 : l.nextLink ≠ l.previousLink) :
    (remove_link s T linkId).links (T, l.nextLink) =
      some { b with previousLink := l.previousLink } := by
  by_cases hpa : l.previousLink ≠ 0
  · simp [remove_link, hrec, linksOf, mapRemove, mapInsert, h0, hpa, h1,
      h2, hb]
  · simp [remove_link, hrec, linksOf, mapRemove, mapInsert, h0, hpa, h1, hb]

theorem remove_link_links_pa (s : IdState) (T : Signer) (linkId : Nat)
    (l : Link) (hrec : s.links (T, linkId) = some l) (b : Link)
    (hb : s.links (T, l.previousLink) = some b) (h0 : l.previousLink ≠ 0)
    (h1 : l.previousLink ≠ linkId) (h2 : l.previousLink ≠ l.nextLink) :
    (remove_link s T linkId).links (T, l.previousLink) =
      some { b with nextLink := l.nextLink } := by
  by_cases hna : l.nextLink ≠ 0
  · simp [remove_link, hrec, linksOf, mapRemove, mapInsert, h0, hna, h1,
      h2, hb]
  · simp [remove_link, hrec, linksOf, mapRemove, mapInsert, h0, hna, h1, hb]

theorem remove_link_links_frame (s : IdState) (T : Signer) (linkId : Nat)
    (l : Link) (hrec : s.links (T, linkId) = some l) (x : Nat)
    (h1 : x ≠ linkId) (h2 : l.nextLink ≠ 0 → x ≠ l.nextLink)
    (h3 : l.previousLink ≠ 0 → x ≠ l.previousLink) :
    (remove_link s T linkId).links (T, x) = s.links (T, x) := by
  by_cases hna : l.nextLink ≠ 0
  · by_cases hpa : l.previousLink ≠ 0
    · simp [remove_link, hrec, linksOf, mapRemove, mapInsert, hna, hpa, h1,
        h2 hna, h3 hpa]
    · simp [remove_link, hrec, linksOf, mapRemove, mapInsert, hna, hpa, h1,
        h2 hna]
  · by_cases hpa : l.previousLink ≠ 0
    · simp [remove_link, hrec, linksOf, mapRemove, mapInsert, hna, hpa, h1,
        h3 hpa]
    · simp [remove_link, hrec, linksOf, mapRemove, mapInsert, hna, hpa, h1]

theorem remove_link_links_other (s : IdState) (T T2 : Signer) (linkId : Nat)
    (l : Link) (hrec : s.links (T, linkId) = some l) (h : T2 ≠ T) (x : Nat) :
    (remove_link s T linkId).links (T2, x) = s.links (T2, x) := by
  by_cases hna : l.nextLink ≠ 0
  · by_cases hpa : l.previousLink ≠ 0
    · simp [remove_link, hrec, linksOf, mapRemove, mapInsert, hna, hpa, h]
    · simp [remove_link, hrec, linksOf, mapRemove, mapInsert, hna, hpa, h]
  · by_cases hpa : l.previousLink ≠ 0
    · simp [remove_link, hrec, linksOf, mapRemove, mapInsert, hna, hpa, h]
    · simp [remove_link, hrec, linksOf, mapRemove, mapInsert, hna, hpa, h]

theorem consume_auth_invalid (s : IdState) (fromSigner target : Signer)
    (authId : Nat) (now : Nat)
    (h : s.authorizations (target, authId) = none) :
    consume_auth s fromSigner target authId now = (some "Invalid", s) := by
  simp [consume_auth, h]

theorem consume_auth_unauthorized (s : IdState) (fromSigner target : Signer)
    (authId : Nat) (now : Nat) (a : Authorization)
    (ha : s.authorizations (target, authId) = some a)
    (hby : a.authorizedBy ≠ fromSigner) :
    consume_auth s fromSigner target authId now =
      (some "Unauthorized", s) := by
  simp [consume_auth, ha, authorizationsOf, hby]

theorem consume_auth_expired (s : IdState) (fromSigner target : Signer)
    (authId : Nat) (now : Nat) (a : Authorization) (e : Nat)
    (ha : s.authorizations (target, authId) = some a)
    (hby : a.authorizedBy = fromSigner) (he : a.expiry = some e)
    (hle : e ≤ now) :
    consume_auth s fromSigner target authId now = (some "Expired", s) := by
  simp [consume_auth, ha, authorizationsOf, hby, he, hle]

theorem consume_auth_ok (s : IdState) (fromSigner target : Signer)
    (authId : Nat) (now : Nat) (a : Authorization)
    (ha : s.authorizations (target, authId) = some a)
    (hby : a.authorizedBy = fromSigner)
    (hexp : ∀ e, a.expiry = some e → now < e) :
    consume_auth s fromSigner target authId now =
      (none, remove_auth s target authId a.nextAuthorization
        a.previousAuthorization) := by
  rcases he : a.expiry with _ | e
  · simp [consume_auth, ha, authorizationsOf, hby, he]
  · have hlt : now < e := hexp e he
    simp [consume_auth, ha, authorizationsOf, hby, he, Nat.not_le.mpr hlt]

theorem consume_auth_fail_frame (s : IdState) (fromSigner target : Signer)
    (authId : Nat) (now : Nat)
    (h : (consume_auth s fromSigner target authId now).1 ≠ none) :
    (consume_auth s fromSigner target authId now).2 = s := by
  rcases hrec : s.authorizations (target, authId) with _ | a
  · rw [consume_auth_invalid s fromSigner target authId now hrec]
  · by_cases hby : a.authorizedBy = fromSigner
    · rcases hexp : a.expiry with _ | e
      · rw [consume_auth_ok s fromSigner target authId now a hrec hby
          (fun e2 he2 => absurd (hexp.symm.trans he2) (by simp))] at h
        exact absurd rfl h
      · by_cases hle : e ≤ now
        · rw [consume_auth_expired s fromSigner target authId now a e hrec
            hby hexp hle]
        · rw [consume_auth_ok s fromSigner target authId now a hrec hby
            (fun e2 he2 => by
              rw [← Option.some_inj.mp (hexp.symm.trans he2)]
              omega)] at h
          exact absurd rfl h
    · rw [consume_auth_unauthorized s fromSigner target authId now a hrec
        hby]

theorem consume_auth_nonce (s : IdState) (fromSigner target : Signer)
    (authId : Nat) (now : Nat) :
    ((consume_auth s fromSigner target authId now).2).multiPurposeNonce =
      s.multiPurposeNonce := by
  rcases hrec : s.authorizations (target, authId) with _ | a
  · rw [consume_auth_invalid s fromSigner target authId now hrec]
  · by_cases hby : a.authorizedBy = fromSigner
    · rcases hexp : a.expiry with _ | e
      · rw [consume_auth_ok s fromSigner target authId now a hrec hby
          (fun e2 he2 => absurd (hexp.symm.trans he2) (by simp))]
        exact remove_auth_nonce _ _ _ _ _
      · by_cases hle : e ≤ now
        · rw [consume_auth_expired s fromSigner target authId now a e hrec
            hby hexp hle]
        · rw [consume_auth_ok s fromSigner target authId now a hrec hby
            (fun e2 he2 => by
              rw [← Option.some_inj.mp (hexp.symm.trans he2)]
              omega)]
          exact remove_auth_nonce _ _ _ _ _
    · rw [consume_auth_unauthorized s fromSigner target authId now a hrec
        hby]
theorem regInvariant_add_auth (s : IdState) (f T : Signer) (ad : Nat)
    (e : Option Nat) (hw : s.multiPurposeNonce + 1 < 2 ^ 64)
    (hv : regInvariant s) :
    regInvariant (add_auth s f T ad e) := by
  have hmod : (s.multiPurposeNonce + 1) % 2 ^ 64 = s.multiPurposeNonce + 1 :=
    Nat.mod_eq_of_lt hw
  intro target
  obtain ⟨hva, hvl⟩ := hv target
  constructor
  · rw [add_auth_nonce, hmod]
    by_cases hT : target = T
    · subst hT
      rw [add_auth_lastAuthorization, if_pos rfl, hmod]
      refine validReg_add hva ?_ ?_ ?_
      · unfold authPtr
        rw [← hmod, add_auth_auths_new]
        rfl
      · intro p hp h0 hne
        unfold authPtr at hp ⊢
        rw [Option.map_eq_some'] at hp
        obtain ⟨a, ha, hpa⟩ := hp
        rw [add_auth_auths_tail s f target ad e a ha h0
          (by rw [hmod]; exact hne), hmod, ← hpa]
        rfl
      · intro id h1 h2
        unfold authPtr
        rw [add_auth_auths_frame s f target ad e id
          (by rw [hmod]; exact h1) h2]
    · rw [add_auth_lastAuthorization, if_neg hT]
      refine validReg_mono (validReg_congr ?_ hva) (Nat.le_succ _)
      intro x
      unfold authPtr
      rw [add_auth_auths_other s f T target ad e hT x]
  · rw [add_auth_nonce, hmod, add_auth_lastLink]
    refine validReg_mono (validReg_congr ?_ hvl) (Nat.le_succ _)
    intro x
    unfold linkPtr
    rw [add_auth_links]

theorem regInvariant_add_link (s : IdState) (T : Signer) (ld : Nat)
    (e : Option Nat) (hw : s.multiPurposeNonce + 1 < 2 ^ 64)
    (hv : regInvariant s) :
    regInvariant (add_link s T ld e) := by
  have hmod : (s.multiPurposeNonce + 1) % 2 ^ 64 = s.multiPurposeNonce + 1 :=
    Nat.mod_eq_of_lt hw
  intro target
  obtain ⟨hva, hvl⟩ := hv target
  constructor
  · rw [add_link_nonce, hmod, add_link_lastAuthorization]
    refine validReg_mono (validReg_congr ?_ hva) (Nat.le_succ _)
    intro x
    unfold authPtr
    rw [add_link_auths]
  · rw [add_link_nonce, hmod]
    by_cases hT : target = T
    · subst hT
      rw [add_link_lastLink, if_pos rfl, hmod]
      refine validReg_add hvl ?_ ?_ ?_
      · unfold linkPtr
        rw [← hmod, add_link_links_new]
        rfl
      · intro p hp h0 hne
        unfold linkPtr at hp ⊢
        rw [Option.map_eq_some'] at hp
        obtain ⟨a, ha, hpa⟩ := hp
        rw [add_link_links_tail s target ld e a ha h0
          (by rw [hmod]; exact hne), hmod, ← hpa]
        rfl
      · intro id h1 h2
        unfold linkPtr
        rw [add_link_links_frame s target ld e id
          (by rw [hmod]; exact h1) h2]
    · rw [add_link_lastLink, if_neg hT]
      refine validReg_mono (validReg_congr ?_ hvl) (Nat.le_succ _)
      intro x
      unfold linkPtr
      rw [add_link_links_other s T target ld e hT x]

theorem regInvariant_remove_auth (s : IdState) (T : Signer)
    (authId na pa : Nat) (a : Authorization)
    (ha : s.authorizations (T, authId) = some a)
    (hna : na = a.nextAuthorization) (hpa2 : pa = a.previousAuthorization)
    (hv : regInvariant s) : regInvariant (remove_auth s T authId na pa) := by
  have hrecPtr : authPtr s T authId = some (na, pa) := by
    rw [hna, hpa2]
    exact authPtr_eq_some ha
  intro target
  obtain ⟨hva, hvl⟩ := hv target
  constructor
  · rw [remove_auth_nonce]
    by_cases hT : target = T
    · subst hT
      have hrem : authPtr (remove_auth s target authId na pa) target
          authId = none := by
        unfold authPtr
        rw [remove_auth_auths_removed]
        rfl
      have hnaF : ∀ q, authPtr s target na = some q → na ≠ 0 →
          na ≠ authId → na ≠ pa →
          authPtr (remove_auth s target authId na pa) target na =
            some (q.1, pa) := by
        intro q hq h0 h1 h2
        unfold authPtr at hq ⊢
        rw [Option.map_eq_some'] at hq
        obtain ⟨b, hb, hqb⟩ := hq
        rw [remove_auth_auths_na s target authId na pa b hb h0 h1 h2, ← hqb]
        rfl
      have hpaF : ∀ q, authPtr s target pa = some q → pa ≠ 0 →
          pa ≠ authId → pa ≠ na →
          authPtr (remove_auth s target authId na pa) target pa =
            some (na, q.2) := by
        intro q hq h0 h1 h2
        unfold authPtr at hq ⊢
        rw [Option.map_eq_some'] at hq
        obtain ⟨b, hb, hqb⟩ := hq
        rw [remove_auth_auths_pa s target authId na pa b hb h0 h1 h2, ← hqb]
        rfl
      have hothF : ∀ x, x ≠ authId → (na ≠ 0 → x ≠ na) →
          (pa ≠ 0 → x ≠ pa) →
          authPtr (remove_auth s target authId na pa) target x =
            authPtr s target x := by
        intro x h1 h2 h3
        unfold authPtr
        rw [remove_auth_auths_frame s target authId na pa x h1 h2 h3]
      have hres := validReg_remove hva hrecPtr hrem hnaF hpaF hothF
      by_cases hz : na = 0
      · rw [if_pos hz] at hres
        subst hz
        have htail : ∀ x, (remove_auth s target authId 0 pa).lastAuthorization
            x = if x = target then pa else s.lastAuthorization x :=
          remove_auth_lastAuthorization_zero s target authId pa
        rw [htail target, if_pos rfl]
        exact hres
      · rw [if_neg hz] at hres
        rw [remove_auth_lastAuthorization_pos s target authId na pa hz]
        exact hres
    · have hbase : validReg (authPtr s target)
          ((remove_auth s T authId na pa).lastAuthorization target)
          s.multiPurposeNonce := by
        by_cases hz : na = 0
        · subst hz
          rw [remove_auth_lastAuthorization_zero s T authId pa target,
            if_neg hT]
          exact hva
        · rw [remove_auth_lastAuthorization_pos s T authId na pa hz]
          exact hva
      refine validReg_congr ?_ hbase
      intro x
      unfold authPtr
      rw [remove_auth_auths_other s T target authId na pa hT x]
  · rw [remove_auth_nonce, remove_auth_lastLink]
    refine validReg_congr ?_ hvl
    intro x
    unfold linkPtr
    rw [remove_auth_links]

theorem regInvariant_remove_link (s : IdState) (T : Signer) (linkId : Nat)
    (hv : regInvariant s) : regInvariant (remove_link s T linkId) := by
  rcases hrec : s.links (T, linkId) with _ | l
  · rw [remove_link_noop s T linkId hrec]
    exact hv
  · have hrecPtr : linkPtr s T linkId = some (l.nextLink, l.previousLink) :=
      by
      unfold linkPtr
      rw [hrec]
      rfl
    intro target
    obtain ⟨hva, hvl⟩ := hv target
    constructor
    · rw [remove_link_nonce, remove_link_lastAuthorization]
      refine validReg_congr ?_ hva
      intro x
      unfold authPtr
      rw [remove_link_auths]
    · rw [remove_link_nonce]
      by_cases hT : target = T
      · subst hT
        have hrem : linkPtr (remove_link s target linkId) target linkId =
            none := by
          unfold linkPtr
          rw [remove_link_links_removed s target linkId l hrec]
          rfl
        have hnaF : ∀ q, linkPtr s target l.nextLink = some q →
            l.nextLink ≠ 0 → l.nextLink ≠ linkId →
            l.nextLink ≠ l.previousLink →
            linkPtr (remove_link s target linkId) target l.nextLink =
              some (q.1, l.previousLink) := by
          intro q hq h0 h1 h2
          unfold linkPtr at hq ⊢
          rw [Option.map_eq_some'] at hq
          obtain ⟨b, hb, hqb⟩ := hq
          rw [remove_link_links_na s target linkId l hrec b hb h0 h1 h2,
            ← hqb]
          rfl
        have hpaF : ∀ q, linkPtr s target l.previousLink = some q →
            l.previousLink ≠ 0 → l.previousLink ≠ linkId →
            l.previousLink ≠ l.nextLink →
            linkPtr (remove_link s target linkId) target l.previousLink =
              some (l.nextLink, q.2) := by
          intro q hq h0 h1 h2
          unfold linkPtr at hq ⊢
          rw [Option.map_eq_some'] at hq
          obtain ⟨b, hb, hqb⟩ := hq
          rw [remove_link_links_pa s target linkId l hrec b hb h0 h1 h2,
            ← hqb]
          rfl
        have hothF : ∀ x, x ≠ linkId → (l.nextLink ≠ 0 → x ≠ l.nextLink) →
            (l.previousLink ≠ 0 → x ≠ l.previousLink) →
            linkPtr (remove_link s target linkId) target x =
              linkPtr s target x := by
          intro x h1 h2 h3
          unfold linkPtr
          rw [remove_link_links_frame s target linkId l hrec x h1 h2 h3]
        have hres := validReg_remove hvl hrecPtr hrem hnaF hpaF hothF
        by_cases hz : l.nextLink = 0
        · rw [if_pos hz] at hres
          rw [remove_link_lastLink_zero s target linkId l hrec hz target,
            if_pos rfl]
          exact hres
        · rw [if_neg hz] at hres
          rw [remove_link_lastLink_pos s target linkId l hrec hz]
          exact hres
      · have hbase : validReg (linkPtr s target)
            ((remove_link s T linkId).lastLink target)
            s.multiPurposeNonce := by
          by_cases hz : l.nextLink = 0
          · rw [remove_link_lastLink_zero s T linkId l hrec hz target,
              if_neg hT]
            exact hvl
          · rw [remove_link_lastLink_pos s T linkId l hrec hz]
            exact hvl
        refine validReg_congr ?_ hbase
        intro x
        unfold linkPtr
        rw [remove_link_links_other s T target linkId l hrec hT x]

theorem regInvariant_consume_auth (s : IdState) (fromSigner target : Signer)
    (authId : Nat) (now : Nat) (hv : regInvariant s) :
    regInvariant (consume_auth s fromSigner target authId now).2 := by
  rcases hrec : s.authorizations (target, authId) with _ | a
  · rw [consume_auth_invalid s fromSigner target authId now hrec]
    exact hv
  · by_cases hby : a.authorizedBy = fromSigner
    · rcases hexp : a.expiry with _ | e
      · rw [consume_auth_ok s fromSigner target authId now a hrec hby
          (fun e2 he2 => absurd (hexp.symm.trans he2) (by simp))]
        exact regInvariant_remove_auth s target authId _ _ a hrec rfl rfl hv
      · by_cases hle : e ≤ now
        · rw [consume_auth_expired s fromSigner target authId now a e hrec
            hby hexp hle]
          exact hv
        · rw [consume_auth_ok s fromSigner target authId now a hrec hby
            (fun e2 he2 => by
              rw [← Option.some_inj.mp (hexp.symm.trans he2)]
              omega)]
          exact regInvariant_remove_auth s target authId _ _ a hrec rfl rfl
            hv
    · rw [consume_auth_unauthorized s fromSigner target authId now a hrec
        hby]
      exact hv
/-- C7: `consume_auth` error taxonomy and splice-removal semantics.
Not-found, unauthorized and expired requests return the matching
`AuthorizationError` with the state untouched (conjunct 5 covers every
failure path at once); otherwise the record is removed through
`remove_auth` with its own stored neighbor ids and the call succeeds. -/
theorem consume_auth_spec (s : IdState) (fromSigner target : Signer)
    (authId : Nat) (now : Nat) :
    (s.authorizations (target, authId) = none →
      consume_auth s fromSigner target authId now = (some "Invalid", s)) ∧
    (∀ a, s.authorizations (target, authId) = some a →
      a.authorizedBy ≠ fromSigner →
      consume_auth s fromSigner target authId now =
        (some "Unauthorized", s)) ∧
    (∀ a e, s.authorizations (target, authId) = some a →
      a.authorizedBy = fromSigner → a.expiry = some e → e ≤ now →
      consume_auth s fromSigner target authId now = (some "Expired", s)) ∧
    (∀ a, s.authorizations (target, authId) = some a →
      a.authorizedBy = fromSigner →
      (∀ e, a.expiry = some e → now < e) →
      consume_auth s fromSigner target authId now =
        (none, remove_auth s target authId a.nextAuthorization
          a.previousAuthorization) ∧
      (consume_auth s fromSigner target authId now).2.authorizations
        (target, authId) = none) ∧
    ((consume_auth s fromSigner target authId now).1 ≠ none →
      (consume_auth s fromSigner target authId now).2 = s) := by
  refine ⟨?_, ?_, ?_, ?_, ?_⟩
  · intro h
    exact consume_auth_invalid s fromSigner target authId now h
  · intro a ha hby
    exact consume_auth_unauthorized s fromSigner target authId now a ha hby
  · intro a e ha hby he hle
    exact consume_auth_expired s fromSigner target authId now a e ha hby he
      hle
  · intro a ha hby hexp
    have hok := consume_auth_ok s fromSigner target authId now a ha hby hexp
    refine ⟨hok, ?_⟩
    rw [hok]
    exact remove_auth_auths_removed s target authId _ _
  · exact consume_auth_fail_frame s fromSigner target authId now

/-- The genesis registry state: counter built at 1, no records. -/
def emptyIdState : IdState :=
  { multiPurposeNonce := 1
    authorizations := fun _ => none
    lastAuthorization := fun _ => 0
    links := fun _ => none
    lastLink := fun _ => 0 }

theorem emptyIdState_invariant : regInvariant emptyIdState := by
  intro target
  constructor
  · exact ⟨[], Chain.nil 0, fun id hid => by simp [authPtr, emptyIdState]
      at hid, List.Pairwise.nil, fun id hid => absurd hid
      (List.not_mem_nil id)⟩
  · exact ⟨[], Chain.nil 0, fun id hid => by simp [linkPtr, emptyIdState]
      at hid, List.Pairwise.nil, fun id hid => absurd hid
      (List.not_mem_nil id)⟩

/-- One authorization (id 2) granted by identity 1 to identity 2. -/
def oneAuthState : IdState :=
  add_auth emptyIdState (.identity 1) (.identity 2) 7 none

/-- The record stored in `oneAuthState` under id 2. -/
def oneAuthRecord : Authorization :=
  { authorizationData := 7, authorizedBy := .identity 1, expiry := none
    nextAuthorization := 0, previousAuthorization := 0 }

theorem oneAuthState_invariant : regInvariant oneAuthState :=
  regInvariant_add_auth emptyIdState (.identity 1) (.identity 2) 7 none
    (by decide) emptyIdState_invariant

theorem consume_auth_spec_witness :
    consume_auth oneAuthState (.identity 1) (.identity 2) 2 5 =
      (none, remove_auth oneAuthState (.identity 2) 2 0 0) ∧
    (consume_auth oneAuthState (.identity 1) (.identity 2) 2 5).2.authorizations
      (Signer.identity 2, 2) = none ∧
    consume_auth oneAuthState (.identity 3) (.identity 2) 2 5 =
      (some "Unauthorized", oneAuthState) ∧
    consume_auth oneAuthState (.identity 1) (.identity 2) 99 5 =
      (some "Invalid", oneAuthState) := by
  have hrec : oneAuthState.authorizations (Signer.identity 2, 2) =
      some oneAuthRecord := rfl
  have hok := (consume_auth_spec oneAuthState (.identity 1) (.identity 2) 2
    5).2.2.2.1 oneAuthRecord hrec rfl
    (fun e he => absurd he (by simp [oneAuthRecord]))
  refine ⟨hok.1, hok.2, ?_, ?_⟩
  · exact (consume_auth_spec oneAuthState (.identity 3) (.identity 2) 2
      5).2.1 oneAuthRecord hrec (by simp [oneAuthRecord])
  · exact (consume_auth_spec oneAuthState (.identity 1) (.identity 2) 99
      5).1 rfl

/-- A well-formed registry state whose shared counter sits at the `u64`
maximum. -/
def wrapIdState : IdState :=
  { emptyIdState with multiPurposeNonce := 2 ^ 64 - 1 }

theorem wrapIdState_invariant : regInvariant wrapIdState := by
  intro target
  constructor
  · exact ⟨[], Chain.nil 0, fun id hid => by
      simp [authPtr, wrapIdState, emptyIdState] at hid, List.Pairwise.nil,
      fun id hid => absurd hid (List.not_mem_nil id)⟩
  · exact ⟨[], Chain.nil 0, fun id hid => by
      simp [linkPtr, wrapIdState, emptyIdState] at hid, List.Pairwise.nil,
      fun id hid => absurd hid (List.not_mem_nil id)⟩

/-- C8 counterexample: with the shared counter at `2^64 - 1` — a state
satisfying the registry invariant — the source's unchecked `u64` increment
wraps, so `add_auth` stores a real record under id 0 (the reserved "no
record" sentinel), the counter decreases to 0, the allocated id is not
greater than previously allocated ids, and the doubly-linked-list invariant
fails afterwards.  This refutes the original claim's unconditional
never-reused / never-zero / always-valid conclusions. -/
theorem auth_registry_wrap_cex :
    regInvariant wrapIdState ∧
    (add_auth wrapIdState (.identity 1) (.identity 2) 7
      none).multiPurposeNonce = 0 ∧
    ((add_auth wrapIdState (.identity 1) (.identity 2) 7 none).authorizations
      (Signer.identity 2, 0)).isSome = true ∧
    ¬ regInvariant
      (add_auth wrapIdState (.identity 1) (.identity 2) 7 none) := by
  refine ⟨wrapIdState_invariant, by decide, by decide, ?_⟩
  intro h
  obtain ⟨L, hch, hcomp, hpw, hbound⟩ := (h (.identity 2)).1
  have h0 : (0 : Nat) ∈ L := hcomp 0 (by rw [authPtr_isSome]; decide)
  exact Chain.mem_ne_zero hch 0 h0 rfl

/-- C8 (amended): the authorization/link registry invariant, away from the
u64 wrap of the shared counter — the source bumps `MultiPurposeNonce` with
an unchecked add, so the conclusions about allocation hold only while
`counter + 1 < 2^64` (the wrap case refutes the original claim, see
`auth_registry_wrap_cex`; reaching it would take `2^64 - 1` allocations).
(1) Every operation — `add_auth`/`add_link` below the wrap, `remove_auth`
with the removed record's stored neighbor ids, `consume_auth`,
`remove_link` — preserves `regInvariant`: both sides of every target's
registry stay valid doubly linked lists covering exactly the existing
records, with positive ids bounded by the shared counter.  (2) Under the
same side conditions the shared counter never decreases.  (3) Under the
invariant every existing record id lies in `[1, counter]`, so id 0 is
never a real record.  (4)/(5) Below the wrap, `add_auth`/`add_link`
allocate exactly `counter + 1` — with (2) and (3), strictly greater than
every id ever allocated before — and append it as the new tail.  (6) A
well-formed removal erases only its record: every other key keeps its
existence and its non-pointer fields. -/
theorem auth_link_registry_invariant :
    (∀ (op : IdOp) (s : IdState), regInvariant s → opWellFormed s op →
      regInvariant (applyIdOp op s)) ∧
    (∀ (op : IdOp) (s : IdState), opWellFormed s op →
      s.multiPurposeNonce ≤ (applyIdOp op s).multiPurposeNonce) ∧
    (∀ (s : IdState) (target : Signer) (id : Nat), regInvariant s →
      ((s.authorizations (target, id)).isSome ∨
        (s.links (target, id)).isSome) →
      1 ≤ id ∧ id ≤ s.multiPurposeNonce) ∧
    (∀ (s : IdState) (f t : Signer) (ad : Nat) (e : Option Nat),
      s.multiPurposeNonce + 1 < 2 ^ 64 →
      (add_auth s f t ad e).multiPurposeNonce = s.multiPurposeNonce + 1 ∧
      (add_auth s f t ad e).lastAuthorization t = s.multiPurposeNonce + 1 ∧
      ((add_auth s f t ad e).authorizations
        (t, s.multiPurposeNonce + 1)).isSome) ∧
    (∀ (s : IdState) (t : Signer) (ld : Nat) (e : Option Nat),
      s.multiPurposeNonce + 1 < 2 ^ 64 →
      (add_link s t ld e).multiPurposeNonce = s.multiPurposeNonce + 1 ∧
      (add_link s t ld e).lastLink t = s.multiPurposeNonce + 1 ∧
      ((add_link s t ld e).links (t, s.multiPurposeNonce + 1)).isSome) ∧
    (∀ (s : IdState) (target : Signer) (authId na pa : Nat),
      regInvariant s →
      (∃ a, s.authorizations (target, authId) = some a ∧
        na = a.nextAuthorization ∧ pa = a.previousAuthorization) →
      ∀ (target2 : Signer) (id : Nat), (target2, id) ≠ (target, authId) →
        ((remove_auth s target authId na pa).authorizations
            (target2, id)).isSome =
          (s.authorizations (target2, id)).isSome ∧
        ((remove_auth s target authId na pa).authorizations
            (target2, id)).map authCore =
          (s.authorizations (target2, id)).map authCore) := by
  refine ⟨?_, ?_, ?_, ?_, ?_, ?_⟩
  · intro op s hv hwf
    cases op with
    | opAddAuth f t ad e =>
      exact regInvariant_add_auth s f t ad e
        (show s.multiPurposeNonce + 1 < 2 ^ 64 from hwf) hv
    | opRemoveAuth t id na pa =>
      obtain ⟨a, ha, h1, h2⟩ := hwf
      exact regInvariant_remove_auth s t id na pa a ha h1 h2 hv
    | opConsumeAuth f t id now =>
      exact regInvariant_consume_auth s f t id now hv
    | opAddLink t ld e =>
      exact regInvariant_add_link s t ld e
        (show s.multiPurposeNonce + 1 < 2 ^ 64 from hwf) hv
    | opRemoveLink t id => exact regInvariant_remove_link s t id hv
  · intro op s hwf
    cases op with
    | opAddAuth f t ad e =>
      rw [show (applyIdOp (.opAddAuth f t ad e) s) = add_auth s f t ad e
        from rfl, add_auth_nonce,
        Nat.mod_eq_of_lt (show s.multiPurposeNonce + 1 < 2 ^ 64 from hwf)]
      exact Nat.le_succ _
    | opRemoveAuth t id na pa =>
      rw [show (applyIdOp (.opRemoveAuth t id na pa) s) =
        remove_auth s t id na pa from rfl, remove_auth_nonce]
    | opConsumeAuth f t id now =>
      rw [show (applyIdOp (.opConsumeAuth f t id now) s) =
        (consume_auth s f t id now).2 from rfl, consume_auth_nonce]
    | opAddLink t ld e =>
      rw [show (applyIdOp (.opAddLink t ld e) s) = add_link s t ld e
        from rfl, add_link_nonce,
        Nat.mod_eq_of_lt (show s.multiPurposeNonce + 1 < 2 ^ 64 from hwf)]
      exact Nat.le_succ _
    | opRemoveLink t id =>
      rw [show (applyIdOp (.opRemoveLink t id) s) = remove_link s t id
        from rfl, remove_link_nonce]
  · intro s target id hv hsome
    rcases hsome with h | h
    · obtain ⟨L, hch, hcomp, hpw, hbound⟩ := (hv target).1
      have hmem : id ∈ L := hcomp id (by rw [authPtr_isSome]; exact h)
      exact ⟨Nat.one_le_iff_ne_zero.mpr (Chain.mem_ne_zero hch id hmem),
        hbound id hmem⟩
    · obtain ⟨L, hch, hcomp, hpw, hbound⟩ := (hv target).2
      have hmem : id ∈ L := hcomp id (by rw [linkPtr_isSome]; exact h)
      exact ⟨Nat.one_le_iff_ne_zero.mpr (Chain.mem_ne_zero hch id hmem),
        hbound id hmem⟩
  · intro s f t ad e hw
    have hmod : (s.multiPurposeNonce + 1) % 2 ^ 64 =
        s.multiPurposeNonce + 1 := Nat.mod_eq_of_lt hw
    refine ⟨?_, ?_, ?_⟩
    · rw [add_auth_nonce, hmod]
    · rw [add_auth_lastAuthorization, if_pos rfl, hmod]
    · rw [← hmod, add_auth_auths_new]
      rfl
  · intro s t ld e hw
    have hmod : (s.multiPurposeNonce + 1) % 2 ^ 64 =
        s.multiPurposeNonce + 1 := Nat.mod_eq_of_lt hw
    refine ⟨?_, ?_, ?_⟩
    · rw [add_link_nonce, hmod]
    · rw [add_link_lastLink, if_pos rfl, hmod]
    · rw [← hmod, add_link_links_new]
      rfl
  · intro s target authId na pa hv hex target2 id hk
    obtain ⟨a, ha, hna, hpa⟩ := hex
    subst hna
    subst hpa
    have hrecPtr : authPtr s target authId =
        some (a.nextAuthorization, a.previousAuthorization) :=
      authPtr_eq_some ha
    obtain ⟨hid0, hnaf, hpaf, -⟩ :=
      validReg_neighbors (hv target).1 hrecPtr
    by_cases ht2 : target2 = target
    · subst ht2
      have hid : id ≠ authId := fun h => hk (by rw [h])
      by_cases hn : a.nextAuthorization ≠ 0 ∧ id = a.nextAuthorization
      · obtain ⟨h0, heq⟩ := hn
        obtain ⟨hs, hne1, hne2⟩ := hnaf h0
        rw [authPtr_isSome] at hs
        obtain ⟨b, hb⟩ := Option.isSome_iff_exists.mp hs
        rw [heq, remove_auth_auths_na s target2 authId a.nextAuthorization
          a.previousAuthorization b hb h0 hne1 hne2, hb]
        exact ⟨rfl, rfl⟩
      · by_cases hp : a.previousAuthorization ≠ 0 ∧
            id = a.previousAuthorization
        · obtain ⟨h0, heq⟩ := hp
          obtain ⟨hs, hne1, hne2⟩ := hpaf h0
          rw [authPtr_isSome] at hs
          obtain ⟨b, hb⟩ := Option.isSome_iff_exists.mp hs
          rw [heq, remove_auth_auths_pa s target2 authId a.nextAuthorization
            a.previousAuthorization b hb h0 hne1 hne2, hb]
          exact ⟨rfl, rfl⟩
        · rw [remove_auth_auths_frame s target2 authId a.nextAuthorization
            a.previousAuthorization id hid (fun hx hc => hn ⟨hx, hc⟩)
            (fun hx hc => hp ⟨hx, hc⟩)]
          exact ⟨rfl, rfl⟩
    · rw [remove_auth_auths_other s target target2 authId
        a.nextAuthorization a.previousAuthorization ht2 id]
      exact ⟨rfl, rfl⟩

theorem auth_link_registry_invariant_witness :
    regInvariant
      (applyIdOp (.opConsumeAuth (.identity 1) (.identity 2) 2 5)
        oneAuthState) ∧
    oneAuthState.multiPurposeNonce ≤
      (applyIdOp (.opAddLink (.identity 4) 3 none)
        oneAuthState).multiPurposeNonce ∧
    (1 ≤ 2 ∧ 2 ≤ oneAuthState.multiPurposeNonce) ∧
    (add_auth oneAuthState (.identity 1) (.identity 2) 9
      none).multiPurposeNonce = oneAuthState.multiPurposeNonce + 1 ∧
    ((remove_auth oneAuthState (.identity 2) 2 0 0).authorizations
        (Signer.identity 5, 2)).isSome =
      (oneAuthState.authorizations (Signer.identity 5, 2)).isSome := by
  refine ⟨?_, ?_, ?_, ?_, ?_⟩
  · exact auth_link_registry_invariant.1
      (.opConsumeAuth (.identity 1) (.identity 2) 2 5) oneAuthState
      oneAuthState_invariant trivial
  · exact auth_link_registry_invariant.2.1
      (.opAddLink (.identity 4) 3 none) oneAuthState
      (show oneAuthState.multiPurposeNonce + 1 < 2 ^ 64 from by decide)
  · exact auth_link_registry_invariant.2.2.1 oneAuthState (.identity 2) 2
      oneAuthState_invariant (Or.inl (by rw [show oneAuthState.authorizations
        (Signer.identity 2, 2) = some oneAuthRecord from rfl]; rfl))
  · exact (auth_link_registry_invariant.2.2.2.1 oneAuthState (.identity 1)
      (.identity 2) 9 none (by decide)).1
  · exact (auth_link_registry_invariant.2.2.2.2.2 oneAuthState
      (.identity 2) 2 0 0 oneAuthState_invariant
      ⟨oneAuthRecord, rfl, rfl, rfl⟩ (.identity 5) 2 (by simp)).1

example : checkedAdd 3 4 = some 7 := by decide
example : (xfer emptyAssetState [1] 1 2 5).1 = some "Invalid granularity" := by
  decide
example : (xfer emptyAssetState [1] 1 2 0).1 =
    some "Account does not own this token" := by
  decide
